import Mathlib

/-!
# Bunnymark: the per-frame simulation step and the batch encoders

A shallow embedding of the frame loop shared by the backends of the
benchmark (`bunnymark_bgfx.cpp`, `bunnymark_bgfx_simple.cpp`,
`bunnymark_sdl3_gpu.cpp`, `bunnymark_sdl_renderer.cpp`,
`bunnymark_sdl2_gpu.cpp`).

`float` values are embedded as rationals, in two ways. The definitions without
a suffix (`updateBunny`, the encoders, the camera matrix) compute in exact
arithmetic: their statements are about the program with the rounding of the
`float` operations left out. The definitions `F32.round`, `getMillisElapsed`
and `updateBunnyF32` compute as the program does: every `float` operation is
the exact operation followed by rounding to the nearest binary32 number, ties
to even. Overflow to infinity and NaN are outside both models. C++ arrays and
buffers are lists; a read or a write outside a buffer is `none`.
-/

namespace Bunnymark

/-! ## Constants -/

/-- The constant `WINDOW_WIDTH` (the same in every backend). -/
def WINDOW_WIDTH : Int := 800

/-- The constant `WINDOW_HEIGHT` (the same in every backend). -/
def WINDOW_HEIGHT : Int := 600

/-- The literal `32` that the bounds test subtracts from the window size. -/
def SPRITE_EXTENT : Int := 32

/-- `NUM_BUNNIES` of `bunnymark_bgfx.cpp`. -/
def Bgfx.NUM_BUNNIES : Nat := 70000

/-- `NUM_BUNNIES` of `bunnymark_bgfx_simple.cpp`. -/
def BgfxSimple.NUM_BUNNIES : Nat := 70000

/-- `NUM_BUNNIES` of `bunnymark_sdl3_gpu.cpp`. -/
def Sdl3Gpu.NUM_BUNNIES : Nat := 50000

/-- `NUM_BUNNIES` of `bunnymark_sdl_renderer.cpp`. -/
def SdlRenderer.NUM_BUNNIES : Nat := 50000

/-! ## Entities -/

/-- The local `struct Bunny { float x, y; float vx, vy; }` of every `main`. -/
structure Bunny where
  x : ℚ
  y : ℚ
  vx : ℚ
  vy : ℚ
  deriving DecidableEq, Repr

/-- The body of the loop `for (auto&[x, y, vx, vy] : bunnies)`, with the window
size and the subtracted extent as parameters `W`, `H`, `E`:
`x += vx * dt; y += vy * dt;` and then
`if (x < 0 || x > W - E) vx *= -1; if (y < 0 || y > H - E) vy *= -1;`.
`W - E` is computed on integers, as in the source, and compared with the
updated coordinate. The product and the sum are exact here; `updateBunnyF32In`
is the same body with the rounding of the `float` operations. -/
def updateBunnyIn (W H E : Int) (dt : ℚ) (b : Bunny) : Bunny :=
  let x := b.x + b.vx * dt
  let y := b.y + b.vy * dt
  let vx := if x < 0 ∨ x > ((W - E : Int) : ℚ) then b.vx * (-1) else b.vx
  let vy := if y < 0 ∨ y > ((H - E : Int) : ℚ) then b.vy * (-1) else b.vy
  { x := x, y := y, vx := vx, vy := vy }

/-- The loop body with the constants of the source:
`WINDOW_WIDTH - 32` and `WINDOW_HEIGHT - 32`. -/
def updateBunny (dt : ℚ) (b : Bunny) : Bunny :=
  updateBunnyIn WINDOW_WIDTH WINDOW_HEIGHT SPRITE_EXTENT dt b

/-- The loop `for (auto&[x, y, vx, vy] : bunnies) { ... }` over a store, for
arbitrary bounds: every entity is updated in place, in iteration order. -/
def updateBunniesIn (W H E : Int) (dt : ℚ) : List Bunny → List Bunny
  | [] => []
  | b :: bs => updateBunnyIn W H E dt b :: updateBunniesIn W H E dt bs

/-- The loop "Update the bunnies" of the source. -/
def updateBunnies (dt : ℚ) (bunnies : List Bunny) : List Bunny :=
  updateBunniesIn WINDOW_WIDTH WINDOW_HEIGHT SPRITE_EXTENT dt bunnies

/-- The state of one entity after the frames whose `dt` values are `dts`, in
order (the entities do not interact, so a frame acts on each one by
`updateBunny`). -/
def runBunny : List ℚ → Bunny → Bunny
  | [], b => b
  | dt :: dts, b => runBunny dts (updateBunny dt b)

/-- The loop `for (int i = 0; i < NUM_BUNNIES; i++) bunnies.push_back({...})`:
`n` iterations left, generator state `rng`, vector `bunnies` built so far.
One call `dis(rng)` is `draw`: it returns a value and the advanced generator.
The initialisers are evaluated in order, `.vx` before `.vy`. -/
def createLoop {G : Type} (draw : G → ℚ × G) : Nat → G → List Bunny → List Bunny × G
  | 0, rng, bunnies => (bunnies, rng)
  | n + 1, rng, bunnies =>
    let vx := draw rng
    let vy := draw vx.2
    createLoop draw n vy.2
      (bunnies ++ [{ x := (WINDOW_WIDTH : ℚ) / 2, y := (WINDOW_HEIGHT : ℚ) / 2,
                     vx := vx.1, vy := vy.1 }])

/-- The section "Set up the bunnies": an empty vector, a generator in its
initial state `rng`, and `n = NUM_BUNNIES` iterations of the loop. -/
def createBunnies {G : Type} (draw : G → ℚ × G) (rng : G) (n : Nat) : List Bunny :=
  (createLoop draw n rng []).1

/-- The generator state after `k` draws from the initial state `rng`. -/
def drawState {G : Type} (draw : G → ℚ × G) (rng : G) : Nat → G
  | 0 => rng
  | k + 1 => (draw (drawState draw rng k)).2

/-- Draw number `k` (from 0) of the stream that starts in state `rng`. -/
def nthDraw {G : Type} (draw : G → ℚ × G) (rng : G) (k : Nat) : ℚ :=
  (draw (drawState draw rng k)).1

/-- The entity that iteration `i` of the creation loop pushes, in terms of the
stream of draws: the centre `(400, 300)` and draws `2i` and `2i + 1`. -/
def createdBunny {G : Type} (draw : G → ℚ × G) (rng : G) (i : Nat) : Bunny :=
  { x := 400, y := 300, vx := nthDraw draw rng (2 * i), vy := nthDraw draw rng (2 * i + 1) }

/-- A small generator for concrete evaluation: the state counts the draws, an
even draw gives `1/2` and an odd draw gives `-1/3`. -/
def demoDraw (g : Nat) : ℚ × Nat :=
  (if g % 2 = 0 then 1 / 2 else -1 / 3, g + 1)

/-! ## Per-instance encoders (bgfx and SDL3 GPU) -/

/-- The counted loop `for (i = 0; i < n; i++) { Bunny bunny = bunnies[i];
data[i] = ...; }` shared by the two per-instance encoders: iteration `i` reads
entity `i` and stores into record `i` of the target `write bunny old`, where
`old` is what the record held. A read or a write out of range is `none`.
`n` stands for the `int` constant `NUM_BUNNIES`, which bounds the counter. -/
def instanceLoop {α : Type} (write : Bunny → α → α) (bunnies : List Bunny) (n : Nat)
    (data : List α) : Option (List α) :=
  (List.range n).foldlM (fun data i =>
    match bunnies[i]?, data[i]? with
    | some bunny, some old => some (data.set i (write bunny old))
    | _, _ => none) data

/-- The `struct SpriteData` of `bunnymark_bgfx.cpp`. -/
structure Bgfx.SpriteData where
  x : ℚ
  y : ℚ
  w : ℚ
  h : ℚ
  rotation : ℚ
  p1 : ℚ
  p2 : ℚ
  p3 : ℚ
  tu : ℚ
  tv : ℚ
  tw : ℚ
  th : ℚ
  r : ℚ
  g : ℚ
  b : ℚ
  a : ℚ
  deriving DecidableEq, Repr

/-- The aggregate `spriteData[i] = { .x = bunny.x, .y = bunny.y, .w = w, .h = h,
.rotation = 0.0f, .tu = 0.0f, .tv = 0.0f, .tw = 1.0f, .th = 1.0f, .r = 1.0f,
.g = 1.0f, .b = 1.0f, .a = 1.0f }`; the members it does not name (`p1`, `p2`,
`p3`) are zero. -/
def Bgfx.spriteRecord (w h : ℚ) (bunny : Bunny) : Bgfx.SpriteData :=
  { x := bunny.x, y := bunny.y, w := w, h := h,
    rotation := 0, p1 := 0, p2 := 0, p3 := 0,
    tu := 0, tv := 0, tw := 1, th := 1,
    r := 1, g := 1, b := 1, a := 1 }

/-- The loop "Send bunny instance data to the GPU" of `bunnymark_bgfx.cpp`, on
the records `data` of the instance buffer. -/
def Bgfx.encodeInstances (w h : ℚ) (bunnies : List Bunny) (n : Nat)
    (data : List Bgfx.SpriteData) : Option (List Bgfx.SpriteData) :=
  instanceLoop (fun bunny _ => Bgfx.spriteRecord w h bunny) bunnies n data

/-- The `struct SpriteInstance` of `bunnymark_sdl3_gpu.cpp`. -/
structure Sdl3Gpu.SpriteInstance where
  x : ℚ
  y : ℚ
  z : ℚ
  rotation : ℚ
  w : ℚ
  h : ℚ
  padding_a : ℚ
  padding_b : ℚ
  tex_u : ℚ
  tex_v : ℚ
  tex_w : ℚ
  tex_h : ℚ
  r : ℚ
  g : ℚ
  b : ℚ
  a : ℚ
  deriving DecidableEq, Repr

/-- The fourteen assignments `dataPtr[i].x = bunny.x; ... dataPtr[i].a = 1.0f;`
to the mapped record `old`; `padding_a` and `padding_b` are not assigned.
`bunnyWidth` and `bunnyHeight` are `Uint32` values converted to `float`. -/
def Sdl3Gpu.writeInstance (bunnyWidth bunnyHeight : Nat) (bunny : Bunny)
    (old : Sdl3Gpu.SpriteInstance) : Sdl3Gpu.SpriteInstance :=
  { old with
    x := bunny.x, y := bunny.y, z := 0, rotation := 0,
    w := (bunnyWidth : ℚ), h := (bunnyHeight : ℚ),
    tex_u := 0, tex_v := 0, tex_w := 1, tex_h := 1,
    r := 1, g := 1, b := 1, a := 1 }

/-- The loop "Transfer sprite data to the GPU" of `bunnymark_sdl3_gpu.cpp`, on
the records `dataPtr` of the mapped transfer buffer. -/
def Sdl3Gpu.encodeInstances (bunnyWidth bunnyHeight : Nat) (bunnies : List Bunny) (n : Nat)
    (dataPtr : List Sdl3Gpu.SpriteInstance) : Option (List Sdl3Gpu.SpriteInstance) :=
  instanceLoop (Sdl3Gpu.writeInstance bunnyWidth bunnyHeight) bunnies n dataPtr

/-- A record of the bgfx instance buffer before the encoder has run. -/
def Bgfx.staleRecord : Bgfx.SpriteData :=
  { x := 7, y := 7, w := 7, h := 7, rotation := 7, p1 := 7, p2 := 7, p3 := 7,
    tu := 7, tv := 7, tw := 7, th := 7, r := 7, g := 7, b := 7, a := 7 }

/-- A record of the SDL3 transfer buffer before the encoder has run. -/
def Sdl3Gpu.staleRecord : Sdl3Gpu.SpriteInstance :=
  { x := 7, y := 7, z := 7, rotation := 7, w := 7, h := 7, padding_a := 7, padding_b := 7,
    tex_u := 7, tex_v := 7, tex_w := 7, tex_h := 7, r := 7, g := 7, b := 7, a := 7 }

/-- The `struct Vertex { float x, y; float u, v; }` of `bunnymark_bgfx.cpp`. -/
structure Bgfx.Vertex where
  x : ℚ
  y : ℚ
  u : ℚ
  v : ℚ
  deriving DecidableEq, Repr

/-- The array `Vertex vertexBufferData[6]` of `bunnymark_bgfx.cpp`, the base
geometry handed to `bgfx::createVertexBuffer` before the frame loop. It is a
constant: it depends on no entity and on no frame. -/
def Bgfx.vertexBufferData : List Bgfx.Vertex :=
  [ ⟨0, 1, 0, 1⟩,   -- top-left
    ⟨0, 0, 0, 0⟩,   -- bottom-left
    ⟨1, 1, 1, 1⟩,   -- top-right
    ⟨1, 1, 1, 1⟩,   -- top-right
    ⟨0, 0, 0, 0⟩,   -- bottom-left
    ⟨1, 0, 1, 0⟩ ]  -- bottom-right

/-- The position `(x, y)` of a base vertex. -/
def Bgfx.Vertex.pos (p : Bgfx.Vertex) : ℚ × ℚ := (p.x, p.y)

/-! ## Per-vertex encoders (SDL renderer and bgfx_simple) -/

/-- The statement `buf[++idx] = v` with the `int` counter of the vertex loops
(`int vIdx = -1`, `int idx = -1`): the counter is incremented first and the
write goes to the new index. A write outside the buffer is `none`. A write
that succeeds has `idx < buf.length`, and the buffer sizes of the source are
`int` constants, so the increment of the 32-bit counter never overflows. -/
def writeNext {α : Type} (st : Int × List α) (v : α) : Option (Int × List α) :=
  let idx := st.1 + 1
  if 0 ≤ idx ∧ idx < (st.2.length : Int) then some (idx, st.2.set idx.toNat v) else none

/-- A run of statements `buf[++idx] = v`, one for each `v` of `vs`, in order. -/
def writeAll {α : Type} (vs : List α) (st : Int × List α) : Option (Int × List α) :=
  vs.foldlM writeNext st

/-- The local `struct Vertex { float x, y; float u, v; }` of
`bunnymark_sdl_renderer.cpp`. -/
structure SdlRenderer.Vertex where
  x : ℚ
  y : ℚ
  u : ℚ
  v : ℚ
  deriving DecidableEq, Repr

/-- The six vertices that the SDL renderer loop writes for an entity at the
updated position `(x, y)`: `{x - hw, y - hh, 0, 0}`, `{x - hw, y + hh, 0, 1}`,
`{x + hw, y - hh, 1, 0}`, `{x + hw, y - hh, 1, 0}`, `{x - hw, y + hh, 0, 1}`,
`{x + hw, y + hh, 1, 1}`; `hw` and `hh` are `int` values converted to `float`. -/
def SdlRenderer.quad (hw hh : Int) (x y : ℚ) : List SdlRenderer.Vertex :=
  [ ⟨x - hw, y - hh, 0, 0⟩,
    ⟨x - hw, y + hh, 0, 1⟩,
    ⟨x + hw, y - hh, 1, 0⟩,
    ⟨x + hw, y - hh, 1, 0⟩,
    ⟨x - hw, y + hh, 0, 1⟩,
    ⟨x + hw, y + hh, 1, 1⟩ ]

/-- The loop `for (auto&[x, y, vx, vy] : bunnies)` of
`bunnymark_sdl_renderer.cpp`: each entity is updated and its six vertices are
written at once through `vertices[++vIdx]`. The state is `(vIdx, vertices)`;
the result is the updated store and the final state. -/
def SdlRenderer.frameLoop (hw hh : Int) (dt : ℚ) :
    List Bunny → Int × List SdlRenderer.Vertex →
      Option (List Bunny × (Int × List SdlRenderer.Vertex))
  | [], st => some ([], st)
  | b :: bs, st =>
    let b1 := updateBunny dt b
    match writeAll (SdlRenderer.quad hw hh b1.x b1.y) st with
    | none => none
    | some st1 =>
      match SdlRenderer.frameLoop hw hh dt bs st1 with
      | none => none
      | some (bs1, st2) => some (b1 :: bs1, st2)

/-- One frame of the SDL renderer backend on the store and the array
`vertices`: `hw = w / 2`, `hh = h / 2` (division of `int`, truncated),
`int vIdx = -1`, then the loop. -/
def SdlRenderer.frame (w h : Int) (dt : ℚ) (bunnies : List Bunny)
    (vertices : List SdlRenderer.Vertex) :
    Option (List Bunny × (Int × List SdlRenderer.Vertex)) :=
  SdlRenderer.frameLoop (w.tdiv 2) (h.tdiv 2) dt bunnies (-1, vertices)

/-- The arguments of `SDL_RenderGeometryRaw` that select the geometry. -/
structure SdlRenderer.GeometryCall where
  num_vertices : Nat
  indices : Option (List Nat)
  num_indices : Nat
  size_indices : Nat
  deriving DecidableEq, Repr

/-- The call `SDL_RenderGeometryRaw(renderer, bunnyTexture, &vertices[0].x, ...,
NUM_BUNNIES * 6, nullptr, 0, 4)` for `n = NUM_BUNNIES`. -/
def SdlRenderer.renderGeometryRaw (n : Nat) : SdlRenderer.GeometryCall :=
  { num_vertices := n * 6, indices := none, num_indices := 0, size_indices := 4 }

/-- The `struct Vertex { float x, y; float u, v; uint32_t color; }` of
`bunnymark_bgfx_simple.cpp`. -/
structure BgfxSimple.Vertex where
  x : ℚ
  y : ℚ
  u : ℚ
  v : ℚ
  color : Nat
  deriving DecidableEq, Repr

/-- The four vertices that the bgfx_simple encoder writes for an entity:
`{b.x - hw, b.y + hh, 0, 1, 0xffffffff}`, `{b.x + hw, b.y + hh, 1, 1, ...}`,
`{b.x + hw, b.y - hh, 1, 0, ...}`, `{b.x - hw, b.y - hh, 0, 0, ...}`; `hw` and
`hh` are `uint16_t` values converted to `float`. -/
def BgfxSimple.quad (hw hh : Nat) (b : Bunny) : List BgfxSimple.Vertex :=
  [ ⟨b.x - hw, b.y + hh, 0, 1, 0xffffffff⟩,
    ⟨b.x + hw, b.y + hh, 1, 1, 0xffffffff⟩,
    ⟨b.x + hw, b.y - hh, 1, 0, 0xffffffff⟩,
    ⟨b.x - hw, b.y - hh, 0, 0, 0xffffffff⟩ ]

/-- The loop `for (int i = 0; i < NUM_BUNNIES; i++) { Bunny& b = bunnies[i];
data[++idx] = ...; (four times) }` of `bunnymark_bgfx_simple.cpp`, from the
state `(idx, data)`. -/
def BgfxSimple.encodeLoop (hw hh : Nat) (bunnies : List Bunny) (n : Nat)
    (st : Int × List BgfxSimple.Vertex) : Option (Int × List BgfxSimple.Vertex) :=
  (List.range n).foldlM (fun st i =>
    match bunnies[i]? with
    | some b => writeAll (BgfxSimple.quad hw hh b) st
    | none => none) st

/-- The vertex part of one frame of the bgfx_simple backend: the loop "Update
the bunnies", then `int idx = -1` and the encoder loop over the transient
buffer `data`; `hw = w / 2`, `hh = h / 2` on `uint16_t`. -/
def BgfxSimple.frame (w h : Nat) (dt : ℚ) (bunnies : List Bunny) (n : Nat)
    (data : List BgfxSimple.Vertex) :
    Option (List Bunny × (Int × List BgfxSimple.Vertex)) :=
  match BgfxSimple.encodeLoop (w / 2) (h / 2) (updateBunnies dt bunnies) n (-1, data) with
  | none => none
  | some st => some (updateBunnies dt bunnies, st)

/-- The statement `indices[++idx] = v` with the `uint32_t` counter of the index
buffer: the increment wraps modulo `2^32`. -/
def writeNextU32 (st : Nat × List Nat) (v : Nat) : Option (Nat × List Nat) :=
  let idx := (st.1 + 1) % 2 ^ 32
  if idx < st.2.length then some (idx, st.2.set idx v) else none

/-- The loop "Create index buffer" of `bunnymark_bgfx_simple.cpp` on the array
`indices`: `uint32_t idx = -1`, and for every `i < n` the six writes of
`base + 0, base + 1, base + 2, base + 0, base + 2, base + 3` with
`base = i * 4`, all in `uint32_t` arithmetic. -/
def BgfxSimple.buildIndices (n : Nat) (indices : List Nat) : Option (Nat × List Nat) :=
  (List.range n).foldlM (fun st i =>
    let base := (i * 4) % 2 ^ 32
    [(base + 0) % 2 ^ 32, (base + 1) % 2 ^ 32, (base + 2) % 2 ^ 32,
     (base + 0) % 2 ^ 32, (base + 2) % 2 ^ 32, (base + 3) % 2 ^ 32].foldlM writeNextU32 st)
    (2 ^ 32 - 1, indices)

/-- What a frame of the bgfx_simple backend binds before `bgfx::submit`: the
transient vertex buffer of `NUM_BUNNIES * 4` vertices
(`allocTransientVertexBuffer`) and the index buffer (`setIndexBuffer`). -/
structure BgfxSimple.Submit where
  num_vertices : Nat
  indexBuffer : Option (List Nat)
  deriving DecidableEq, Repr

/-- The bindings of one frame, for `n = NUM_BUNNIES` and the index buffer
created before the loop. -/
def BgfxSimple.submit (n : Nat) (indices : List Nat) : BgfxSimple.Submit :=
  { num_vertices := n * 4, indexBuffer := some indices }

/-- A vertex of the bgfx_simple transient buffer before the encoder has run. -/
def BgfxSimple.staleVertex : BgfxSimple.Vertex := ⟨7, 7, 7, 7, 7⟩

/-- A vertex of the SDL renderer array before the frame loop has run. -/
def SdlRenderer.staleVertex : SdlRenderer.Vertex := ⟨7, 7, 7, 7⟩

/-- The distance by which a coordinate `p` lies outside the interval
`[0, hi]`: `-p` below it, `p - hi` above it, `0` inside. -/
def outsideBy (hi p : ℚ) : ℚ :=
  if p < 0 then -p else if p > hi then p - hi else 0

/-- The per-axis invariant of the discrete reflection: on an axis with upper
bound `hi`, a coordinate `p` with velocity `v` is within slack `m` when it is
inside `[0, hi]`, or it is outside by at most `m` and its velocity points back
inside. -/
def AxisOK (hi p v m : ℚ) : Prop :=
  (0 ≤ p ∧ p ≤ hi) ∨ (hi < p ∧ v < 0 ∧ p - hi ≤ m) ∨ (p < 0 ∧ 0 < v ∧ -p ≤ m)

/-! ## The two-pass reading of the SDL renderer frame -/

/-- A separate encoding pass over a store, in store order: for each entity the
six writes `vertices[++vIdx] = ...` of `SdlRenderer.quad` at its position. -/
def SdlRenderer.encodeAll (hw hh : Int) :
    List Bunny → Int × List SdlRenderer.Vertex → Option (Int × List SdlRenderer.Vertex)
  | [], st => some st
  | b :: bs, st =>
    match writeAll (SdlRenderer.quad hw hh b.x b.y) st with
    | none => none
    | some st1 => SdlRenderer.encodeAll hw hh bs st1

/-- The frame of the SDL renderer backend written as two passes, as the
bgfx_simple backend is: first the loop "Update the bunnies" over the whole
store, then the encoding pass over the updated store from `vIdx = -1`. -/
def SdlRenderer.frameTwoPass (w h : Int) (dt : ℚ) (bunnies : List Bunny)
    (vertices : List SdlRenderer.Vertex) :
    Option (List Bunny × (Int × List SdlRenderer.Vertex)) :=
  match SdlRenderer.encodeAll (w.tdiv 2) (h.tdiv 2) (updateBunnies dt bunnies) (-1, vertices) with
  | none => none
  | some st => some (updateBunnies dt bunnies, st)

/-! ## Helpers to compare encoded records -/

/-- A record of the SDL3 transfer buffer with its two padding fields set to 0:
the fourteen fields that the encoder assigns. -/
def Sdl3Gpu.SpriteInstance.withoutPadding (s : Sdl3Gpu.SpriteInstance) :
    Sdl3Gpu.SpriteInstance :=
  { s with padding_a := 0, padding_b := 0 }

/-- The two padding fields of a record of the SDL3 transfer buffer. -/
def Sdl3Gpu.SpriteInstance.padding (s : Sdl3Gpu.SpriteInstance) : ℚ × ℚ :=
  (s.padding_a, s.padding_b)

/-- A zeroed record of the SDL3 transfer buffer. -/
def Sdl3Gpu.zeroRecord : Sdl3Gpu.SpriteInstance :=
  { x := 0, y := 0, z := 0, rotation := 0, w := 0, h := 0, padding_a := 0, padding_b := 0,
    tex_u := 0, tex_v := 0, tex_w := 0, tex_h := 0, r := 0, g := 0, b := 0, a := 0 }

/-! ## The slots that the encoders address

The encoders of the source contain no test on the size of their target, so the
sequence of slots that a loop stores into is a function of the loop bounds
alone. The definitions below are the loops above with the stored values left
out: they return the slots addressed, in order. -/

/-- The slots that the per-instance loop stores into, `data[i]` in iteration
`i` of `for (i = 0; i < n; i++)`. -/
def instanceSlots (n : Nat) : List Int :=
  (List.range n).foldl (fun (slots : List Int) (i : Nat) => slots ++ [(i : Int)]) []

/-- The statement `buf[++idx] = v` on the state `(idx, slots addressed so far)`:
the counter is incremented and the new value is the slot addressed. -/
def slotNext (st : Int × List Int) : Int × List Int :=
  (st.1 + 1, st.2 ++ [st.1 + 1])

/-- A run of `k` statements `buf[++idx] = v`. -/
def slotRun : Nat → Int × List Int → Int × List Int
  | 0, st => st
  | k + 1, st => slotRun k (slotNext st)

/-- The final counter and the slots of `vertices` that the loop of the SDL
renderer backend addresses: `int vIdx = -1`, then six statements
`vertices[++vIdx] = ...` for every entity of the store. -/
def SdlRenderer.frameSlots (bunnies : List Bunny) : Int × List Int :=
  bunnies.foldl (fun st _ => slotRun 6 st) (-1, [])

/-- The final counter and the slots of `data` that the encoder loop of the
bgfx_simple backend addresses: `int idx = -1`, then four statements
`data[++idx] = ...` in every iteration of `for (int i = 0; i < n; i++)`. -/
def BgfxSimple.encodeSlots (n : Nat) : Int × List Int :=
  (List.range n).foldl (fun st _ => slotRun 4 st) (-1, [])

/-! ## Rounding to binary32

The `float` of the source is IEEE 754 binary32: 24 significant bits, least
exponent of the unit in the last place `-149`, rounding to nearest with ties to
even. -/

/-- The exponent `e` such that the binary32 numbers of the magnitude of `q > 0`
are the multiples of `2^e`: `floor(log2 q) - 23`, and `-149` for the subnormal
numbers. -/
def F32.ulpExp (q : ℚ) : Int := max (Int.log 2 q - 23) (-149)

/-- The unit in the last place at the magnitude of `q`. -/
def F32.ulp (q : ℚ) : ℚ := (2 : ℚ) ^ F32.ulpExp q

/-- The integer nearest to `t`; half-way between two integers, the even one. -/
def F32.roundHalfEven (t : ℚ) : Int :=
  if t - ⌊t⌋ < 1 / 2 then ⌊t⌋
  else if 1 / 2 < t - ⌊t⌋ then ⌊t⌋ + 1
  else if ⌊t⌋ % 2 = 0 then ⌊t⌋ else ⌊t⌋ + 1

/-- The binary32 number nearest to `q ≥ 0`: the nearest multiple of the unit in
the last place. -/
def F32.roundMag (q : ℚ) : ℚ := (F32.roundHalfEven (q / F32.ulp q) : ℚ) * F32.ulp q

/-- The result of a `float` operation whose exact result is `q` (and of the
conversion of an integer `q` to `float`): `q` rounded to the nearest binary32
number, ties to even, symmetric in the sign. A magnitude of `2^128` or more,
which the program rounds to infinity, is outside the model. -/
def F32.round (q : ℚ) : ℚ := if 0 ≤ q then F32.roundMag q else -F32.roundMag (-q)

/-- The body of the loop `for (auto&[x, y, vx, vy] : bunnies)` in the arithmetic
of the program: `x`, `y`, `vx`, `vy` and `dt` are `float`, so the product
`vx * dt` is rounded to binary32 and so is the sum `x + vx * dt` that is stored
in `x`; the `int` value `W - E` is converted to `float` for the comparison;
`vx *= -1` changes the sign, which is exact. -/
def updateBunnyF32In (W H E : Int) (dt : ℚ) (b : Bunny) : Bunny :=
  let x := F32.round (b.x + F32.round (b.vx * dt))
  let y := F32.round (b.y + F32.round (b.vy * dt))
  let vx := if x < 0 ∨ x > F32.round ((W - E : Int) : ℚ) then b.vx * (-1) else b.vx
  let vy := if y < 0 ∨ y > F32.round ((H - E : Int) : ℚ) then b.vy * (-1) else b.vy
  { x := x, y := y, vx := vx, vy := vy }

/-- The loop body in binary32 with the constants of the source. -/
def updateBunnyF32 (dt : ℚ) (b : Bunny) : Bunny :=
  updateBunnyF32In WINDOW_WIDTH WINDOW_HEIGHT SPRITE_EXTENT dt b

/-- The state of one entity after the frames whose `dt` values are `dts`, in
the arithmetic of the program. -/
def runBunnyF32 : List ℚ → Bunny → Bunny
  | [], b => b
  | dt :: dts, b => runBunnyF32 dts (updateBunnyF32 dt b)

/-! ## The frame clock -/

/-- The constant `NANOS_IN_MILLIS = 1000000.0`. -/
def NANOS_IN_MILLIS : ℚ := 1000000

/-- The function `getMillisElapsed(a, b)`:
`static_cast<float>(duration_cast<nanoseconds>(a - b).count()) / NANOS_IN_MILLIS`.
A time point of `steady_clock` is embedded as its count of nanoseconds; the
count of `a - b` is converted to `float` (rounded to binary32) and the quotient
by the `float` constant is rounded to binary32. -/
def getMillisElapsed (a b : Int) : ℚ :=
  F32.round (F32.round ((a - b : Int) : ℚ) / NANOS_IN_MILLIS)

/-- The clock variables of `main`: `lastTick`, `lastFpsMeasurement` and the
`uint32_t framesInLastSecond`. -/
structure FrameClock where
  lastTick : Int
  lastFpsMeasurement : Int
  framesInLastSecond : Nat
  deriving DecidableEq, Repr

/-- The block "Get delta time": `dt = getMillisElapsed(now, lastTick);
lastTick = now;`. The result is `dt` and the clock. -/
def sampleTime (now : Int) (c : FrameClock) : ℚ × FrameClock :=
  (getMillisElapsed now c.lastTick, { c with lastTick := now })

/-- The block "Measure FPS and report every second": `framesInLastSecond++`
(on `uint32_t`, so modulo `2^32`), and if
`getMillisElapsed(now, lastFpsMeasurement) > 1000` the counter is printed
(the reported value), then set to 0, and `lastFpsMeasurement = now`. -/
def measureFps (now : Int) (c : FrameClock) : Option Nat × FrameClock :=
  let frames := (c.framesInLastSecond + 1) % 2 ^ 32
  if getMillisElapsed now c.lastFpsMeasurement > 1000 then
    (some frames, { c with framesInLastSecond := 0, lastFpsMeasurement := now })
  else
    (none, { c with framesInLastSecond := frames })

/-- The clock part of one iteration of the game loop, at the time point `now`:
the reported FPS value, if any, and the clock. -/
def clockFrame (now : Int) (c : FrameClock) : Option Nat × FrameClock :=
  measureFps now (sampleTime now c).2

/-- The clock after the frames at the time points `nows`, in order. -/
def runClock : List Int → FrameClock → FrameClock
  | [], c => c
  | now :: nows, c => runClock nows (clockFrame now c).2

/-! ## The order of the stages of a frame

The stages that one iteration of `while (running)` goes through. Each loop and
each frame of the source is written once more with a log: a statement that is
a stage of the frame appends its event to the log when it runs, so the log is
the sequence of the stages in the order of execution. The logged loops update
the store with `updateBunny` (exact arithmetic); which stages run, and in which
order, does not depend on the values. -/

/-- A stage event of a frame: the time is sampled (`now`, `dt`), entity `i` is
simulated (its update in "Update the bunnies"), the write buffer is acquired
(`allocInstanceDataBuffer`, `allocTransientVertexBuffer`,
`SDL_MapGPUTransferBuffer`), entity `i` is encoded (its record or vertices are
written), the draw is submitted (`bgfx::submit`, `SDL_SubmitGPUCommandBuffer`,
`SDL_RenderGeometryRaw`); in the SDL2 gpu backend the draw of entity `i` is
requested (`GPU_Blit`) and the frame is flipped (`GPU_Flip`). -/
inductive Stage where
  | timeSampled
  | simulated (entity : Nat)
  | bufferAcquired
  | encoded (entity : Nat)
  | submitted
  | drawRequested (entity : Nat)
  | flipped
  deriving DecidableEq, Repr

/-- The loop "Update the bunnies" with its log: the iteration that updates
entity `i` (the entities are visited in store order, from index `i`) logs
`simulated i`. -/
def updateLog (dt : ℚ) : Nat → List Bunny → List Stage × List Bunny
  | _, [] => ([], [])
  | i, b :: bs =>
    (Stage.simulated i :: (updateLog dt (i + 1) bs).1,
      updateBunny dt b :: (updateLog dt (i + 1) bs).2)

/-- The per-instance encoder loop with its log: iteration `i`, which stores
record `i`, logs `encoded i`. -/
def instanceLog {α : Type} (write : Bunny → α → α) (bunnies : List Bunny) (n : Nat)
    (data : List α) : Option (List Stage × List α) :=
  (List.range n).foldlM (fun st i =>
    match bunnies[i]?, st.2[i]? with
    | some bunny, some old => some (st.1 ++ [Stage.encoded i], st.2.set i (write bunny old))
    | _, _ => none) ([], data)

/-- The encoder loop of `bunnymark_bgfx_simple.cpp` with its log: iteration `i`,
which writes the four vertices of entity `i`, logs `encoded i`. -/
def BgfxSimple.encodeLog (hw hh : Nat) (bunnies : List Bunny) (n : Nat)
    (st : Int × List BgfxSimple.Vertex) :
    Option (List Stage × (Int × List BgfxSimple.Vertex)) :=
  (List.range n).foldlM (fun s i =>
    match bunnies[i]? with
    | some b =>
      match writeAll (BgfxSimple.quad hw hh b) s.2 with
      | some st1 => some (s.1 ++ [Stage.encoded i], st1)
      | none => none
    | none => none) ([], st)

/-- The single loop of `bunnymark_sdl_renderer.cpp` with its log: the iteration
for entity `i` updates it (`simulated i`) and then writes its six vertices
(`encoded i`). -/
def SdlRenderer.frameLoopLog (hw hh : Int) (dt : ℚ) :
    Nat → List Bunny → Int × List SdlRenderer.Vertex →
      Option (List Stage × List Bunny × (Int × List SdlRenderer.Vertex))
  | _, [], st => some ([], [], st)
  | i, b :: bs, st =>
    let b1 := updateBunny dt b
    match writeAll (SdlRenderer.quad hw hh b1.x b1.y) st with
    | none => none
    | some st1 =>
      match SdlRenderer.frameLoopLog hw hh dt (i + 1) bs st1 with
      | none => none
      | some r => some (Stage.simulated i :: Stage.encoded i :: r.1, b1 :: r.2.1, r.2.2)

/-- The single loop of `bunnymark_sdl2_gpu.cpp` with its log: the iteration for
entity `i` updates it (`simulated i`) and then calls
`GPU_Blit(bunnyTexture, nullptr, screen, x, y)` (`drawRequested i`); the blits
requested so far are the positions `blits`. The source has no vertex array. -/
def Sdl2Gpu.frameLoopLog (dt : ℚ) :
    Nat → List Bunny → List (ℚ × ℚ) → List Stage × List Bunny × List (ℚ × ℚ)
  | _, [], blits => ([], [], blits)
  | i, b :: bs, blits =>
    let b1 := updateBunny dt b
    let r := Sdl2Gpu.frameLoopLog dt (i + 1) bs (blits ++ [(b1.x, b1.y)])
    (Stage.simulated i :: Stage.drawRequested i :: r.1, b1 :: r.2.1, r.2.2)

/-- What an iteration of `while (running)` leaves: the FPS value it reported, if
any, the clock variables, the store, and the render target it has filled (the
buffer of instances or vertices, the array `vertices`, or the blits
requested). -/
structure FrameState (τ : Type) where
  report : Option Nat
  clock : FrameClock
  bunnies : List Bunny
  target : τ

/-- One iteration of `while (running)` of `bunnymark_bgfx.cpp`, with its log. The
input is the time point `now` and the buffer `data` that
`bgfx::allocInstanceDataBuffer` hands out in this frame. In program order:
"Get delta time", "Measure FPS", the loop "Update the bunnies",
`bgfx::allocInstanceDataBuffer`, the encoder loop over `n = NUM_BUNNIES`
entities, `bgfx::submit`. -/
def Bgfx.frameLog (w h : ℚ) (n : Nat) (input : Int × List Bgfx.SpriteData)
    (s : FrameState (List Bgfx.SpriteData)) :
    Option (List Stage × FrameState (List Bgfx.SpriteData)) :=
  let t := sampleTime input.1 s.clock
  let log1 := [Stage.timeSampled]
  let m := measureFps input.1 t.2
  let u := updateLog t.1 0 s.bunnies
  let log2 := log1 ++ u.1
  let log3 := log2 ++ [Stage.bufferAcquired]
  match instanceLog (fun bunny _ => Bgfx.spriteRecord w h bunny) u.2 n input.2 with
  | none => none
  | some e =>
    some (log3 ++ e.1 ++ [Stage.submitted],
      { report := m.1, clock := m.2, bunnies := u.2, target := e.2 })

/-- One iteration of `while (running)` of `bunnymark_sdl3_gpu.cpp`, with its
log. The input is the time point `now` and the records `dataPtr` that
`SDL_MapGPUTransferBuffer` hands out in this frame. In program order: "Get
delta time", "Report FPS", "Update the bunnies", `SDL_MapGPUTransferBuffer`,
the encoder loop, `SDL_SubmitGPUCommandBuffer`. -/
def Sdl3Gpu.frameLog (bunnyWidth bunnyHeight : Nat) (n : Nat)
    (input : Int × List Sdl3Gpu.SpriteInstance)
    (s : FrameState (List Sdl3Gpu.SpriteInstance)) :
    Option (List Stage × FrameState (List Sdl3Gpu.SpriteInstance)) :=
  let t := sampleTime input.1 s.clock
  let log1 := [Stage.timeSampled]
  let m := measureFps input.1 t.2
  let u := updateLog t.1 0 s.bunnies
  let log2 := log1 ++ u.1
  let log3 := log2 ++ [Stage.bufferAcquired]
  match instanceLog (Sdl3Gpu.writeInstance bunnyWidth bunnyHeight) u.2 n input.2 with
  | none => none
  | some e =>
    some (log3 ++ e.1 ++ [Stage.submitted],
      { report := m.1, clock := m.2, bunnies := u.2, target := e.2 })

/-- One iteration of `while (running)` of `bunnymark_bgfx_simple.cpp`, with its
log. The input is the time point `now` and the vertices `data` that
`bgfx::allocTransientVertexBuffer` hands out in this frame. In program order:
"Get delta time", "Measure FPS", "Update the bunnies",
`bgfx::allocTransientVertexBuffer`, `int idx = -1` and the encoder loop,
`bgfx::submit`. The target left is the final counter and the vertices. -/
def BgfxSimple.frameLog (w h : Nat) (n : Nat) (input : Int × List BgfxSimple.Vertex)
    (s : FrameState (Int × List BgfxSimple.Vertex)) :
    Option (List Stage × FrameState (Int × List BgfxSimple.Vertex)) :=
  let t := sampleTime input.1 s.clock
  let log1 := [Stage.timeSampled]
  let m := measureFps input.1 t.2
  let u := updateLog t.1 0 s.bunnies
  let log2 := log1 ++ u.1
  let log3 := log2 ++ [Stage.bufferAcquired]
  match BgfxSimple.encodeLog (w / 2) (h / 2) u.2 n (-1, input.2) with
  | none => none
  | some e =>
    some (log3 ++ e.1 ++ [Stage.submitted],
      { report := m.1, clock := m.2, bunnies := u.2, target := e.2 })

/-- One iteration of `while (running)` of `bunnymark_sdl_renderer.cpp` at the
time point `now`, with its log. The array `vertices` is declared before the
game loop, so it is part of the state (with the last value of `vIdx`). In
program order: "Get delta time", "Measure FPS", `int vIdx = -1` and the single
loop, `SDL_RenderGeometryRaw`. No statement of the frame acquires a buffer. -/
def SdlRenderer.frameLog (w h : Int) (now : Int)
    (s : FrameState (Int × List SdlRenderer.Vertex)) :
    Option (List Stage × FrameState (Int × List SdlRenderer.Vertex)) :=
  let t := sampleTime now s.clock
  let log1 := [Stage.timeSampled]
  let m := measureFps now t.2
  match SdlRenderer.frameLoopLog (w.tdiv 2) (h.tdiv 2) t.1 0 s.bunnies (-1, s.target.2) with
  | none => none
  | some r =>
    some (log1 ++ r.1 ++ [Stage.submitted],
      { report := m.1, clock := m.2, bunnies := r.2.1, target := r.2.2 })

/-- One iteration of `while (running)` of `bunnymark_sdl2_gpu.cpp` at the time
point `now`, with its log. In program order: "Get delta time", "Measure FPS",
`GPU_ClearColor`, the single loop that updates and blits each entity,
`GPU_Flip`. The target left is the list of the blits requested in the frame. -/
def Sdl2Gpu.frameLog (now : Int) (s : FrameState (List (ℚ × ℚ))) :
    Option (List Stage × FrameState (List (ℚ × ℚ))) :=
  let t := sampleTime now s.clock
  let log1 := [Stage.timeSampled]
  let m := measureFps now t.2
  let r := Sdl2Gpu.frameLoopLog t.1 0 s.bunnies []
  some (log1 ++ r.1 ++ [Stage.flipped],
    { report := m.1, clock := m.2, bunnies := r.2.1, target := r.2.2 })

/-- The iterations of `while (running)` with their log: the frames run one after
the other, frame `j + 1` on the state that frame `j` left, and the log of the
loop is the logs of the frames in that order. `frame input state` is one
iteration (its log and the state it leaves, or `none`). -/
def runFrames {ι σ : Type} (frame : ι → σ → Option (List Stage × σ)) :
    List ι → σ → Option (List Stage × σ)
  | [], s => some ([], s)
  | i :: rest, s =>
    match frame i s with
    | none => none
    | some r =>
      match runFrames frame rest r.2 with
      | none => none
      | some q => some (r.1 ++ q.1, q.2)

/-- The stage events of a frame in two passes over `n` entities, in order: time
sampled, entity after entity simulated, write buffer acquired, entity after
entity encoded, draw submitted. -/
def twoPassLog (n : Nat) : List Stage :=
  [Stage.timeSampled] ++ (List.range n).map Stage.simulated ++ [Stage.bufferAcquired]
    ++ (List.range n).map Stage.encoded ++ [Stage.submitted]

/-- The stage events of a frame with one loop over `n` entities, in order: time
sampled, then for each entity `simulated i` and at once `second i`, then
`last`. -/
def pairedLog (second : Nat → Stage) (last : Stage) (n : Nat) : List Stage :=
  [Stage.timeSampled]
    ++ (List.range n).flatMap (fun i => [Stage.simulated i, second i]) ++ [last]

/-- The positions of the stages in a frame with one loop over `n` entities: time
sampled, then entity after entity simulated and at once `second` (encoded, or
its draw requested), then `last`, and nothing else: no buffer is acquired. -/
def PairedOrder (second : Nat → Stage) (last : Stage) (l : List Stage) (n : Nat) : Prop :=
  l.length = 2 * n + 2 ∧
  l[0]? = some Stage.timeSampled ∧
  (∀ i, i < n → l[1 + 2 * i]? = some (Stage.simulated i) ∧
    l[2 + 2 * i]? = some (second i)) ∧
  l[1 + 2 * n]? = some last ∧
  Stage.bufferAcquired ∉ l

/-- The positions of the stages in a two-pass frame of `n` entities: time
sampled, all entities simulated in store order, write buffer acquired, all
entities encoded in store order, draw submitted, and nothing else. -/
def TwoPassOrder (l : List Stage) (n : Nat) : Prop :=
  l.length = 2 * n + 3 ∧
  l[0]? = some Stage.timeSampled ∧
  (∀ i, i < n → l[1 + i]? = some (Stage.simulated i)) ∧
  l[1 + n]? = some Stage.bufferAcquired ∧
  (∀ j, j < n → l[2 + n + j]? = some (Stage.encoded j)) ∧
  l[2 + 2 * n]? = some Stage.submitted

/-! ## The camera matrix of the SDL3 GPU backend -/

/-- The `struct Matrix4x4` of `bunnymark_sdl3_gpu.cpp`, row by row. -/
structure Sdl3Gpu.Matrix4x4 where
  m11 : ℚ
  m12 : ℚ
  m13 : ℚ
  m14 : ℚ
  m21 : ℚ
  m22 : ℚ
  m23 : ℚ
  m24 : ℚ
  m31 : ℚ
  m32 : ℚ
  m33 : ℚ
  m34 : ℚ
  m41 : ℚ
  m42 : ℚ
  m43 : ℚ
  m44 : ℚ
  deriving DecidableEq, Repr

/-- The function `Matrix4x4_CreateOrthographicOffCenter` of
`bunnymark_sdl3_gpu.cpp`. -/
def Sdl3Gpu.Matrix4x4_CreateOrthographicOffCenter
    (left right bottom top zNearPlane zFarPlane : ℚ) : Sdl3Gpu.Matrix4x4 :=
  { m11 := 2 / (right - left), m12 := 0, m13 := 0, m14 := 0,
    m21 := 0, m22 := 2 / (top - bottom), m23 := 0, m24 := 0,
    m31 := 0, m32 := 0, m33 := 1 / (zNearPlane - zFarPlane), m34 := 0,
    m41 := (left + right) / (left - right), m42 := (top + bottom) / (bottom - top),
    m43 := zNearPlane / (zNearPlane - zFarPlane), m44 := 1 }

/-- The `cameraMatrix` of `main`:
`Matrix4x4_CreateOrthographicOffCenter(0, WINDOW_WIDTH, WINDOW_HEIGHT, 0, 0, -1)`. -/
def Sdl3Gpu.cameraMatrix : Sdl3Gpu.Matrix4x4 :=
  Sdl3Gpu.Matrix4x4_CreateOrthographicOffCenter 0 (WINDOW_WIDTH : ℚ) (WINDOW_HEIGHT : ℚ) 0 0 (-1)

/-- The product of the row vector `(x, y, z, w)` with the matrix `M`:
component `j` is `x * m1j + y * m2j + z * m3j + w * m4j`. -/
def Sdl3Gpu.Matrix4x4.rowTimes (v : ℚ × ℚ × ℚ × ℚ) (M : Sdl3Gpu.Matrix4x4) :
    ℚ × ℚ × ℚ × ℚ :=
  (v.1 * M.m11 + v.2.1 * M.m21 + v.2.2.1 * M.m31 + v.2.2.2 * M.m41,
   v.1 * M.m12 + v.2.1 * M.m22 + v.2.2.1 * M.m32 + v.2.2.2 * M.m42,
   v.1 * M.m13 + v.2.1 * M.m23 + v.2.2.1 * M.m33 + v.2.2.2 * M.m43,
   v.1 * M.m14 + v.2.1 * M.m24 + v.2.2.1 * M.m34 + v.2.2.2 * M.m44)

/-- The position `(x, y)` of a vertex of the SDL renderer array. -/
def SdlRenderer.Vertex.pos (p : SdlRenderer.Vertex) : ℚ × ℚ := (p.x, p.y)

/-! ## The FPS values reported along a run -/

/-- The values that the frames at the time points `nows` report (print as
"FPS: ..."), in order. -/
def clockReports : List Int → FrameClock → List Nat
  | [], _ => []
  | now :: nows, c =>
    match (clockFrame now c).1 with
    | some v => v :: clockReports nows (clockFrame now c).2
    | none => clockReports nows (clockFrame now c).2

/-- The 32-bit frame counter does not wrap along the frames at the time points
`nows`: at the start of each of them it is below `2^32 - 1`. -/
def NoWrap : List Int → FrameClock → Prop
  | [], _ => True
  | now :: nows, c => c.framesInLastSecond + 1 < 2 ^ 32 ∧ NoWrap nows (clockFrame now c).2

/-- The time points `nows` of the frames of a run that continues from the clock
`c`: readings of `steady_clock::now()`, each later than the reading before it
(a frame takes at least one nanosecond, the unit of `count()`), the first one
later than the two readings held by `c`. -/
def Ticking (c : FrameClock) (nows : List Int) : Prop :=
  List.Chain (· < ·) (max c.lastTick c.lastFpsMeasurement) nows

/-- What the clock variables keep along such a run: the frame counter is at
most the number of nanoseconds from the last measurement to the last reading,
and at most 1000000032, the longest time in nanoseconds after which a frame
still does not report. -/
def ClockInv (c : FrameClock) : Prop :=
  c.lastFpsMeasurement + (c.framesInLastSecond : Int) ≤ max c.lastTick c.lastFpsMeasurement ∧
  c.framesInLastSecond ≤ 1000000032

/-! ## The capacities of the targets -/

theorem updateBunniesIn_length (W H E : Int) (dt : ℚ) (bs : List Bunny) :
    (updateBunniesIn W H E dt bs).length = bs.length := by
  induction bs with
  | nil => rfl
  | cons b bs ih => simp [updateBunniesIn, ih]

theorem updateBunniesIn_getElem? (W H E : Int) (dt : ℚ) (bs : List Bunny) (i : Nat) :
    (updateBunniesIn W H E dt bs)[i]? = (bs[i]?).map (updateBunnyIn W H E dt) := by
  induction bs generalizing i with
  | nil => simp [updateBunniesIn]
  | cons b bs ih =>
    cases i with
    | zero => simp [updateBunniesIn]
    | succ i => simpa [updateBunniesIn] using ih i

theorem updateBunny_x (dt : ℚ) (b : Bunny) : (updateBunny dt b).x = b.x + b.vx * dt := rfl

theorem updateBunny_y (dt : ℚ) (b : Bunny) : (updateBunny dt b).y = b.y + b.vy * dt := rfl

theorem updateBunny_vx (dt : ℚ) (b : Bunny) :
    (updateBunny dt b).vx
      = if b.x + b.vx * dt < 0 ∨ b.x + b.vx * dt > 768 then -b.vx else b.vx := by
  simp [updateBunny, updateBunnyIn, WINDOW_WIDTH, SPRITE_EXTENT]

theorem updateBunny_vy (dt : ℚ) (b : Bunny) :
    (updateBunny dt b).vy
      = if b.y + b.vy * dt < 0 ∨ b.y + b.vy * dt > 568 then -b.vy else b.vy := by
  simp [updateBunny, updateBunnyIn, WINDOW_HEIGHT, SPRITE_EXTENT]

theorem updateBunny_abs_vx (dt : ℚ) (b : Bunny) : |(updateBunny dt b).vx| = |b.vx| := by
  rw [updateBunny_vx]; split_ifs <;> simp

theorem updateBunny_abs_vy (dt : ℚ) (b : Bunny) : |(updateBunny dt b).vy| = |b.vy| := by
  rw [updateBunny_vy]; split_ifs <;> simp

theorem runBunny_abs (dts : List ℚ) (b : Bunny) :
    |(runBunny dts b).vx| = |b.vx| ∧ |(runBunny dts b).vy| = |b.vy| := by
  induction dts generalizing b with
  | nil => exact ⟨rfl, rfl⟩
  | cons dt dts ih =>
    have h := ih (updateBunny dt b)
    rw [updateBunny_abs_vx, updateBunny_abs_vy] at h
    exact h

theorem runBunny_append (l₁ l₂ : List ℚ) (b : Bunny) :
    runBunny (l₁ ++ l₂) b = runBunny l₂ (runBunny l₁ b) := by
  induction l₁ generalizing b with
  | nil => rfl
  | cons d l₁ ih => exact ih (updateBunny d b)

/-! ## Lemmas on entity creation -/

theorem drawState_shift {G : Type} (draw : G → ℚ × G) (rng : G) (a k : Nat) :
    drawState draw (drawState draw rng a) k = drawState draw rng (a + k) := by
  induction k with
  | zero => rfl
  | succ k ih =>
    show (draw (drawState draw (drawState draw rng a) k)).2
      = (draw (drawState draw rng (a + k))).2
    rw [ih]

theorem nthDraw_shift {G : Type} (draw : G → ℚ × G) (rng : G) (a k : Nat) :
    nthDraw draw (drawState draw rng a) k = nthDraw draw rng (a + k) := by
  simp only [nthDraw, drawState_shift]

theorem createLoop_eq {G : Type} (draw : G → ℚ × G) (n : Nat) (rng : G) (acc : List Bunny) :
    createLoop draw n rng acc
      = (acc ++ (List.range n).map (createdBunny draw rng), drawState draw rng (2 * n)) := by
  induction n generalizing rng acc with
  | zero => simp [createLoop, drawState]
  | succ n ih =>
    have hs : (draw (draw rng).2).2 = drawState draw rng 2 := rfl
    have hb : ({ x := (WINDOW_WIDTH : ℚ) / 2, y := (WINDOW_HEIGHT : ℚ) / 2,
                 vx := (draw rng).1, vy := (draw (draw rng).2).1 } : Bunny)
        = createdBunny draw rng 0 := by
      simp only [createdBunny, nthDraw, drawState, WINDOW_WIDTH, WINDOW_HEIGHT]
      norm_num
    simp only [createLoop]
    rw [hb, hs, ih, drawState_shift, List.range_succ_eq_map, List.map_cons, List.map_map,
      List.append_assoc]
    have hf : createdBunny draw (drawState draw rng 2) = createdBunny draw rng ∘ Nat.succ := by
      funext i
      simp only [createdBunny, nthDraw_shift, Function.comp, Nat.succ_eq_add_one]
      have e1 : 2 + 2 * i = 2 * (i + 1) := by ring
      have e2 : 2 + (2 * i + 1) = 2 * (i + 1) + 1 := by ring
      rw [e1, e2]
    rw [hf]
    have e3 : 2 + 2 * n = 2 * (n + 1) := by ring
    rw [e3]
    rfl

theorem createBunnies_eq {G : Type} (draw : G → ℚ × G) (rng : G) (n : Nat) :
    createBunnies draw rng n = (List.range n).map (createdBunny draw rng) := by
  simp [createBunnies, createLoop_eq]

theorem demoDraw_bounded (rng : Nat) (k : Nat) :
    -1 ≤ nthDraw demoDraw rng k ∧ nthDraw demoDraw rng k ≤ 1 := by
  simp only [nthDraw, demoDraw]
  split_ifs <;> norm_num

/-! ## Lemmas on the per-instance loop -/

theorem instanceLoop_spec {α : Type} (write : Bunny → α → α) (bunnies : List Bunny)
    (data : List α) (n : Nat) (hn : n ≤ bunnies.length) (hc : n ≤ data.length) :
    ∃ out, instanceLoop write bunnies n data = some out ∧ out.length = data.length ∧
      (∀ j, n ≤ j → out[j]? = data[j]?) ∧
      (∀ j bunny old, j < n → bunnies[j]? = some bunny → data[j]? = some old →
        out[j]? = some (write bunny old)) := by
  induction n with
  | zero => exact ⟨data, by simp [instanceLoop], rfl, fun _ _ => rfl, fun _ _ _ h => by omega⟩
  | succ n ih =>
    obtain ⟨out, hout, hlen, hrest, hdone⟩ := ih (by omega) (by omega)
    have hb : bunnies[n]? = some bunnies[n] := List.getElem?_eq_getElem (by omega)
    have hd : data[n]? = some data[n] := List.getElem?_eq_getElem (by omega)
    have ho : out[n]? = some data[n] := by rw [hrest n le_rfl, hd]
    refine ⟨out.set n (write bunnies[n] data[n]), ?_, ?_, ?_, ?_⟩
    · unfold instanceLoop at hout ⊢
      rw [List.range_succ, List.foldlM_append, hout]
      simp [hb, ho]
    · rw [List.length_set, hlen]
    · intro j hj
      rw [List.getElem?_set_ne (by omega), hrest j (by omega)]
    · intro j bunny old hj hbj hdj
      by_cases hjn : j = n
      · subst hjn
        rw [hb] at hbj
        rw [hd] at hdj
        cases hbj
        cases hdj
        rw [List.getElem?_set_self (by omega)]
      · rw [List.getElem?_set_ne (fun h => hjn h.symm)]
        exact hdone j bunny old (by omega) hbj hdj

/-! ## Lemmas on the per-vertex loops -/

theorem writeAll_nil {α : Type} (st : Int × List α) : writeAll [] st = some st := rfl

theorem writeAll_cons {α : Type} (v : α) (vs : List α) (st : Int × List α) :
    writeAll (v :: vs) st = (writeNext st v).bind (writeAll vs) := by
  simp only [writeAll, List.foldlM_cons]
  rfl

theorem writeAll_append {α : Type} (us vs : List α) (st : Int × List α) :
    writeAll (us ++ vs) st = (writeAll us st).bind (writeAll vs) := by
  simp only [writeAll, List.foldlM_append]
  rfl

theorem writeNext_eq {α : Type} (idx : Int) (buf : List α) (v : α) (s : Nat)
    (hs : idx + 1 = (s : Int)) (hcap : s < buf.length) :
    writeNext (idx, buf) v = some ((s : Int), buf.set s v) := by
  have h1 : (0 : Int) ≤ (s : Int) ∧ (s : Int) < (buf.length : Int) := by omega
  simp only [writeNext, hs, h1, and_self, if_true, Int.toNat_ofNat]

theorem writeAll_spec {α : Type} (vs : List α) (idx : Int) (buf : List α) (s : Nat)
    (hs : idx + 1 = (s : Int)) (hcap : s + vs.length ≤ buf.length) :
    ∃ out, writeAll vs (idx, buf) = some (idx + (vs.length : Int), out) ∧
      out.length = buf.length ∧
      (∀ j, j < s → out[j]? = buf[j]?) ∧
      (∀ j, j < vs.length → out[s + j]? = vs[j]?) ∧
      (∀ j, s + vs.length ≤ j → out[j]? = buf[j]?) := by
  induction vs generalizing idx buf s with
  | nil =>
    exact ⟨buf, by simp [writeAll_nil], rfl, fun _ _ => rfl, fun _ h => by simp at h,
      fun _ _ => rfl⟩
  | cons v vs ih =>
    simp only [List.length_cons] at hcap
    obtain ⟨out, hout, hlen, hlow, hmid, hhigh⟩ :=
      ih (s : Int) (buf.set s v) (s + 1) (by push_cast; rfl)
        (by rw [List.length_set]; omega)
    refine ⟨out, ?_, ?_, ?_, ?_, ?_⟩
    · rw [writeAll_cons, writeNext_eq idx buf v s hs (by omega), Option.some_bind, hout]
      simp only [List.length_cons]
      congr 2
      push_cast
      omega
    · rw [hlen, List.length_set]
    · intro j hj
      rw [hlow j (by omega), List.getElem?_set_ne (by omega)]
    · intro j hj
      cases j with
      | zero =>
        rw [Nat.add_zero, hlow s (by omega), List.getElem?_set_self (by omega)]
        simp
      | succ j =>
        simp only [List.length_cons] at hj
        have := hmid j (by omega)
        rw [show s + (j + 1) = s + 1 + j by omega, this]
        simp
    · intro j hj
      simp only [List.length_cons] at hj
      rw [hhigh j (by omega), List.getElem?_set_ne (by omega)]

theorem flatMap_const_length {β α : Type} (q : β → List α) (c : Nat)
    (hq : ∀ x, (q x).length = c) (xs : List β) :
    (xs.flatMap q).length = xs.length * c := by
  induction xs with
  | nil => simp
  | cons x xs ih =>
    rw [List.flatMap_cons, List.length_append, hq, ih, List.length_cons]
    ring

theorem flatMap_const_getElem? {β α : Type} (q : β → List α) (c : Nat)
    (hq : ∀ x, (q x).length = c) (xs : List β) (i k : Nat) (hk : k < c) :
    (xs.flatMap q)[c * i + k]? = (xs[i]?).bind (fun x => (q x)[k]?) := by
  induction xs generalizing i with
  | nil => simp
  | cons x xs ih =>
    rw [List.flatMap_cons]
    cases i with
    | zero =>
      rw [Nat.mul_zero, Nat.zero_add, List.getElem?_append_left (by rw [hq]; exact hk)]
      simp
    | succ i =>
      rw [List.getElem?_append_right (by rw [hq, Nat.mul_succ]; omega), hq,
        show c * (i + 1) + k - c = c * i + k by rw [Nat.mul_succ]; omega, ih i]
      simp

theorem SdlRenderer.frameLoop_eq (hw hh : Int) (dt : ℚ) (bs : List Bunny)
    (st : Int × List SdlRenderer.Vertex) :
    SdlRenderer.frameLoop hw hh dt bs st
      = (writeAll ((updateBunnies dt bs).flatMap (fun b => SdlRenderer.quad hw hh b.x b.y))
          st).map (fun st1 => (updateBunnies dt bs, st1)) := by
  induction bs generalizing st with
  | nil => rfl
  | cons b bs ih =>
    have hu : updateBunnies dt (b :: bs) = updateBunny dt b :: updateBunnies dt bs := rfl
    rw [hu, List.flatMap_cons, writeAll_append]
    simp only [SdlRenderer.frameLoop]
    cases h1 : writeAll (SdlRenderer.quad hw hh (updateBunny dt b).x (updateBunny dt b).y) st with
    | none => rfl
    | some st1 =>
      simp only [Option.some_bind]
      rw [ih st1]
      cases h2 : writeAll
          ((updateBunnies dt bs).flatMap (fun b => SdlRenderer.quad hw hh b.x b.y)) st1 with
      | none => rfl
      | some st2 => rfl

theorem BgfxSimple.encodeLoop_eq (hw hh : Nat) (bunnies : List Bunny) (n : Nat)
    (hn : n ≤ bunnies.length) (st : Int × List BgfxSimple.Vertex) :
    BgfxSimple.encodeLoop hw hh bunnies n st
      = writeAll ((bunnies.take n).flatMap (BgfxSimple.quad hw hh)) st := by
  induction n with
  | zero => rfl
  | succ n ih =>
    have hb : bunnies[n]? = some bunnies[n] := List.getElem?_eq_getElem (by omega)
    have ih1 := ih (by omega)
    unfold BgfxSimple.encodeLoop at ih1 ⊢
    rw [List.range_succ, List.foldlM_append, ih1, List.take_succ, hb, List.flatMap_append,
      writeAll_append]
    cases writeAll ((bunnies.take n).flatMap (BgfxSimple.quad hw hh)) st with
    | none => rfl
    | some st1 => simp [hb]

/-! ## The overshoot invariant -/

theorem axisOK_step (hi p v m dt : ℚ) (hhi : 0 ≤ hi) (hdt : 0 ≤ dt)
    (hm : m ≤ |v| * dt) (h : AxisOK hi p v m) :
    AxisOK hi (p + v * dt) (if p + v * dt < 0 ∨ p + v * dt > hi then -v else v)
      (|v| * dt) := by
  unfold AxisOK at h ⊢
  rcases lt_trichotomy v 0 with hv | hv | hv
  · have hvd : v * dt ≤ 0 := mul_nonpos_of_nonpos_of_nonneg hv.le hdt
    rw [abs_of_neg hv] at hm ⊢
    rcases h with h | h | h
    · by_cases hc : p + v * dt < 0 ∨ p + v * dt > hi
      · rw [if_pos hc]
        rcases hc with hc | hc
        · right; right; exact ⟨hc, by linarith, by linarith [h.1]⟩
        · exfalso; linarith [h.2]
      · rw [if_neg hc]; push_neg at hc; left; exact hc
    · by_cases hc : p + v * dt < 0 ∨ p + v * dt > hi
      · rw [if_pos hc]
        rcases hc with hc | hc
        · right; right; exact ⟨hc, by linarith, by linarith [h.1]⟩
        · exfalso; linarith [h.2.2]
      · rw [if_neg hc]; push_neg at hc; left; exact hc
    · exfalso; linarith [h.2.1]
  · subst hv
    simp only [zero_mul, add_zero, abs_zero, neg_zero, ite_self] at hm ⊢
    rcases h with h | h | h
    · left; exact h
    · exfalso; exact lt_irrefl _ h.2.1
    · exfalso; exact lt_irrefl _ h.2.1
  · have hvd : 0 ≤ v * dt := mul_nonneg hv.le hdt
    rw [abs_of_pos hv] at hm ⊢
    rcases h with h | h | h
    · by_cases hc : p + v * dt < 0 ∨ p + v * dt > hi
      · rw [if_pos hc]
        rcases hc with hc | hc
        · exfalso; linarith [h.1]
        · right; left; exact ⟨hc, by linarith, by linarith [h.2]⟩
      · rw [if_neg hc]; push_neg at hc; left; exact hc
    · exfalso; linarith [h.2.1]
    · by_cases hc : p + v * dt < 0 ∨ p + v * dt > hi
      · rw [if_pos hc]
        rcases hc with hc | hc
        · exfalso; linarith [h.2.2]
        · right; left; exact ⟨hc, by linarith, by linarith [h.1]⟩
      · rw [if_neg hc]; push_neg at hc; left; exact hc

theorem axisOK_range (hi p v m : ℚ) (hhi : 0 ≤ hi) (hm : 0 ≤ m) (h : AxisOK hi p v m) :
    -m ≤ p ∧ p ≤ hi + m := by
  rcases h with h | h | h
  · exact ⟨by linarith [h.1], by linarith [h.2]⟩
  · exact ⟨by linarith [h.1, h.2.2], by linarith [h.2.2]⟩
  · exact ⟨by linarith [h.2.2], by linarith [h.1, h.2.2]⟩

theorem axisOK_outsideBy (hi p v m : ℚ) (hhi : 0 ≤ hi) (hm : 0 ≤ m) (h : AxisOK hi p v m) :
    outsideBy hi p ≤ m := by
  have hr := axisOK_range hi p v m hhi hm h
  unfold outsideBy
  split_ifs <;> linarith [hr.1, hr.2]

theorem axisOK_points_back (hi p v m : ℚ) (hhi : 0 ≤ hi) (h : AxisOK hi p v m) :
    (hi < p → v < 0) ∧ (p < 0 → 0 < v) := by
  rcases h with h | h | h
  · exact ⟨fun hp => absurd hp (not_lt.mpr h.2), fun hp => absurd hp (not_lt.mpr h.1)⟩
  · exact ⟨fun _ => h.2.1, fun hp => by linarith [h.1]⟩
  · exact ⟨fun hp => by linarith [h.1], fun _ => h.2.1⟩

theorem SdlRenderer.encodeAll_eq (hw hh : Int) (bs : List Bunny)
    (st : Int × List SdlRenderer.Vertex) :
    SdlRenderer.encodeAll hw hh bs st
      = writeAll (bs.flatMap (fun b => SdlRenderer.quad hw hh b.x b.y)) st := by
  induction bs generalizing st with
  | nil => rfl
  | cons b bs ih =>
    rw [List.flatMap_cons, writeAll_append]
    simp only [SdlRenderer.encodeAll]
    cases writeAll (SdlRenderer.quad hw hh b.x b.y) st with
    | none => rfl
    | some st1 => exact ih st1

/-! ## Lemmas on targets of exactly the encoded size -/

theorem instanceLoop_exact {α : Type} (write : Bunny → α → α) (bunnies : List Bunny)
    (data : List α) (hlen : data.length = bunnies.length) :
    ∃ out, instanceLoop write bunnies bunnies.length data = some out ∧
      out.length = bunnies.length ∧
      ∀ j : Nat, out[j]? = (bunnies[j]?).bind (fun b => (data[j]?).map (write b)) := by
  obtain ⟨out, hout, hl, hrest, hdone⟩ :=
    instanceLoop_spec write bunnies data bunnies.length le_rfl (by omega)
  refine ⟨out, hout, by omega, ?_⟩
  intro j
  by_cases hj : j < bunnies.length
  · have hb : bunnies[j]? = some bunnies[j] := List.getElem?_eq_getElem hj
    have hd : data[j]? = some data[j] := List.getElem?_eq_getElem (by omega)
    rw [hdone j _ _ hj hb hd, hb, hd]
    rfl
  · rw [hrest j (by omega), List.getElem?_eq_none (by omega : data.length ≤ j),
      List.getElem?_eq_none (by omega : bunnies.length ≤ j)]
    rfl

theorem writeAll_exact {α : Type} (vs buf : List α) (hlen : buf.length = vs.length) :
    writeAll vs (-1, buf) = some ((vs.length : Int) - 1, vs) := by
  obtain ⟨out, hout, hl, -, hmid, -⟩ :=
    writeAll_spec vs (-1) buf 0 (by norm_num) (by omega)
  have hov : out = vs := by
    apply List.ext_getElem?
    intro j
    by_cases hj : j < vs.length
    · have := hmid j hj
      rwa [Nat.zero_add] at this
    · rw [List.getElem?_eq_none (by omega : out.length ≤ j),
        List.getElem?_eq_none (by omega : vs.length ≤ j)]
  rw [hout, hov, neg_add_eq_sub]

theorem Bgfx.encodeInstances_exact (w h : ℚ) (bunnies : List Bunny)
    (data : List Bgfx.SpriteData) (hlen : data.length = bunnies.length) :
    Bgfx.encodeInstances w h bunnies bunnies.length data
      = some (bunnies.map (Bgfx.spriteRecord w h)) := by
  obtain ⟨out, hout, hl, hget⟩ :=
    instanceLoop_exact (fun bunny _ => Bgfx.spriteRecord w h bunny) bunnies data hlen
  rw [Bgfx.encodeInstances, hout]
  congr 1
  apply List.ext_getElem?
  intro j
  rw [hget j, List.getElem?_map]
  by_cases hj : j < bunnies.length
  · rw [List.getElem?_eq_getElem hj, List.getElem?_eq_getElem (by omega : j < data.length)]
    rfl
  · rw [List.getElem?_eq_none (by omega : bunnies.length ≤ j)]
    rfl

theorem Sdl3Gpu.encodeInstances_content (bunnyWidth bunnyHeight : Nat) (bunnies : List Bunny)
    (dataPtr : List Sdl3Gpu.SpriteInstance) (hlen : dataPtr.length = bunnies.length) :
    ∃ out, Sdl3Gpu.encodeInstances bunnyWidth bunnyHeight bunnies bunnies.length dataPtr
        = some out ∧
      out.map Sdl3Gpu.SpriteInstance.withoutPadding
        = bunnies.map (fun b => (Sdl3Gpu.writeInstance bunnyWidth bunnyHeight b
            Sdl3Gpu.zeroRecord).withoutPadding) ∧
      out.map Sdl3Gpu.SpriteInstance.padding = dataPtr.map Sdl3Gpu.SpriteInstance.padding := by
  obtain ⟨out, hout, hl, hget⟩ :=
    instanceLoop_exact (Sdl3Gpu.writeInstance bunnyWidth bunnyHeight) bunnies dataPtr hlen
  refine ⟨out, hout, ?_, ?_⟩
  · apply List.ext_getElem?
    intro j
    rw [List.getElem?_map, List.getElem?_map, hget j]
    by_cases hj : j < bunnies.length
    · rw [List.getElem?_eq_getElem hj,
        List.getElem?_eq_getElem (by omega : j < dataPtr.length)]
      rfl
    · rw [List.getElem?_eq_none (by omega : bunnies.length ≤ j)]
      rfl
  · apply List.ext_getElem?
    intro j
    rw [List.getElem?_map, List.getElem?_map, hget j]
    by_cases hj : j < bunnies.length
    · rw [List.getElem?_eq_getElem hj,
        List.getElem?_eq_getElem (by omega : j < dataPtr.length)]
      rfl
    · rw [List.getElem?_eq_none (by omega : bunnies.length ≤ j),
        List.getElem?_eq_none (by omega : dataPtr.length ≤ j)]
      rfl

theorem SdlRenderer.frame_exact (w h : Int) (dt : ℚ) (bunnies : List Bunny)
    (vertices : List SdlRenderer.Vertex) (hlen : vertices.length = bunnies.length * 6) :
    SdlRenderer.frame w h dt bunnies vertices
      = some (updateBunnies dt bunnies, (((bunnies.length * 6 : Nat) : Int) - 1,
          (updateBunnies dt bunnies).flatMap
            (fun b => SdlRenderer.quad (w.tdiv 2) (h.tdiv 2) b.x b.y))) := by
  have hfl := flatMap_const_length
    (fun b : Bunny => SdlRenderer.quad (w.tdiv 2) (h.tdiv 2) b.x b.y) 6 (fun _ => rfl)
    (updateBunnies dt bunnies)
  rw [show (updateBunnies dt bunnies).length = bunnies.length from
    updateBunniesIn_length _ _ _ _ _] at hfl
  rw [SdlRenderer.frame, SdlRenderer.frameLoop_eq, writeAll_exact _ _ (by rw [hfl, hlen]), hfl]
  rfl

theorem BgfxSimple.simpleFrame_exact (w h : Nat) (dt : ℚ) (bunnies : List Bunny)
    (data : List BgfxSimple.Vertex) (hlen : data.length = bunnies.length * 4) :
    BgfxSimple.frame w h dt bunnies bunnies.length data
      = some (updateBunnies dt bunnies, (((bunnies.length * 4 : Nat) : Int) - 1,
          (updateBunnies dt bunnies).flatMap (BgfxSimple.quad (w / 2) (h / 2)))) := by
  have hul : (updateBunnies dt bunnies).length = bunnies.length :=
    updateBunniesIn_length _ _ _ _ _
  have hfl := flatMap_const_length (BgfxSimple.quad (w / 2) (h / 2)) 4 (fun _ => rfl)
    (updateBunnies dt bunnies)
  rw [hul] at hfl
  have htake : (updateBunnies dt bunnies).take bunnies.length = updateBunnies dt bunnies := by
    rw [← hul]; exact List.take_length _
  rw [BgfxSimple.frame, BgfxSimple.encodeLoop_eq _ _ _ _ (by rw [hul]), htake,
    writeAll_exact _ _ (by rw [hfl, hlen]), hfl]

/-! ## Lemmas on the addressed slots -/

theorem foldl_slots_eq (l : List Nat) (acc : List Int) :
    l.foldl (fun (slots : List Int) (i : Nat) => slots ++ [(i : Int)]) acc = acc ++ l.map (fun i : Nat => (i : Int)) := by
  induction l generalizing acc with
  | nil => simp
  | cons i l ih => rw [List.foldl_cons, ih, List.map_cons, List.append_assoc]; rfl

theorem instanceSlots_eq (n : Nat) :
    instanceSlots n = (List.range n).map (fun i : Nat => (i : Int)) := by
  rw [instanceSlots, foldl_slots_eq, List.nil_append]

theorem slotRun_eq (k : Nat) (idx : Int) (slots : List Int) :
    slotRun k (idx, slots)
      = (idx + (k : Int), slots ++ (List.range k).map (fun j : Nat => idx + 1 + (j : Int))) := by
  induction k generalizing idx slots with
  | zero => simp [slotRun]
  | succ k ih =>
    rw [slotRun, slotNext, ih, List.range_succ_eq_map, List.map_cons, List.map_map,
      List.append_assoc]
    refine Prod.ext (by push_cast; ring) ?_
    simp only [List.singleton_append, Nat.cast_zero, add_zero]
    congr 2
    apply List.map_congr_left
    intro j _
    simp only [Function.comp, Nat.succ_eq_add_one]
    push_cast
    ring

theorem foldl_slotRun_eq {β : Type} (c : Nat) (l : List β) (idx : Int) (slots : List Int) :
    l.foldl (fun st _ => slotRun c st) (idx, slots)
      = (idx + ((c * l.length : Nat) : Int),
          slots ++ (List.range (c * l.length)).map (fun j : Nat => idx + 1 + (j : Int))) := by
  induction l generalizing idx slots with
  | nil => simp
  | cons b l ih =>
    rw [List.foldl_cons, slotRun_eq, ih, List.length_cons, Nat.mul_succ, Nat.add_comm (c * l.length) c,
      List.range_add, List.map_append, List.map_map, List.append_assoc]
    refine Prod.ext (by push_cast; ring) ?_
    simp only
    congr 2
    apply List.map_congr_left
    intro j _
    simp only [Function.comp]
    push_cast
    ring

theorem SdlRenderer.frameSlots_eq (bunnies : List Bunny) :
    SdlRenderer.frameSlots bunnies
      = (((bunnies.length * 6 : Nat) : Int) - 1,
          (List.range (bunnies.length * 6)).map (fun j : Nat => (j : Int))) := by
  rw [SdlRenderer.frameSlots, foldl_slotRun_eq, Nat.mul_comm 6]
  refine Prod.ext (by ring) ?_
  simp only [List.nil_append]
  apply List.map_congr_left
  intro j _
  ring

theorem BgfxSimple.encodeSlots_eq (n : Nat) :
    BgfxSimple.encodeSlots n
      = (((n * 4 : Nat) : Int) - 1, (List.range (n * 4)).map (fun j : Nat => (j : Int))) := by
  rw [BgfxSimple.encodeSlots, foldl_slotRun_eq, List.length_range, Nat.mul_comm 4]
  refine Prod.ext (by ring) ?_
  simp only [List.nil_append]
  apply List.map_congr_left
  intro j _
  ring

theorem range_slots_nodup (m : Nat) : ((List.range m).map (fun j : Nat => (j : Int))).Nodup :=
  (List.nodup_range m).map (fun _ _ h => Int.ofNat.inj h)

theorem mem_range_slots (m : Nat) (k : Int) :
    k ∈ (List.range m).map (fun j : Nat => (j : Int)) ↔ 0 ≤ k ∧ k < (m : Int) := by
  rw [List.mem_map]
  constructor
  · rintro ⟨j, hj, rfl⟩
    rw [List.mem_range] at hj
    omega
  · rintro ⟨h0, hk⟩
    refine ⟨k.toNat, ?_, ?_⟩
    · rw [List.mem_range]; omega
    · omega

theorem instanceLoop_none {α : Type} (write : Bunny → α → α) (bunnies : List Bunny)
    (data : List α) (n : Nat) (hn : n ≤ bunnies.length) (hc : data.length < n) :
    instanceLoop write bunnies n data = none := by
  induction n with
  | zero => omega
  | succ n ih =>
    unfold instanceLoop at ih ⊢
    rw [List.range_succ, List.foldlM_append]
    by_cases hlt : data.length < n
    · rw [ih (by omega) hlt]
      rfl
    · obtain ⟨out, hout, hlen, -, -⟩ :=
        instanceLoop_spec write bunnies data n (by omega) (by omega)
      unfold instanceLoop at hout
      have ho : out[n]? = none := List.getElem?_eq_none (by omega)
      rw [hout]
      simp [ho]

theorem instanceLoop_isSome_iff {α : Type} (write : Bunny → α → α) (bunnies : List Bunny)
    (data : List α) (n : Nat) (hn : n ≤ bunnies.length) :
    (instanceLoop write bunnies n data).isSome ↔ n ≤ data.length := by
  constructor
  · intro h
    by_contra hlt
    rw [instanceLoop_none write bunnies data n hn (by omega)] at h
    simp at h
  · intro hle
    obtain ⟨out, hout, -⟩ := instanceLoop_spec write bunnies data n hn hle
    rw [hout]
    rfl

theorem writeAll_none {α : Type} (vs : List α) (idx : Int) (buf : List α) (s : Nat)
    (hs : idx + 1 = (s : Int)) (hle : s ≤ buf.length) (hc : buf.length < s + vs.length) :
    writeAll vs (idx, buf) = none := by
  induction vs generalizing idx buf s with
  | nil => simp at hc; omega
  | cons v vs ih =>
    simp only [List.length_cons] at hc
    rw [writeAll_cons]
    by_cases hlt : s < buf.length
    · rw [writeNext_eq idx buf v s hs hlt, Option.some_bind]
      exact ih (s : Int) (buf.set s v) (s + 1) (by push_cast; rfl)
        (by rw [List.length_set]; omega) (by rw [List.length_set]; omega)
    · have hno : ¬ (0 ≤ idx + 1 ∧ idx + 1 < (buf.length : Int)) := by omega
      simp only [writeNext, hno, if_false]
      rfl

theorem writeAll_isSome_iff {α : Type} (vs buf : List α) :
    (writeAll vs (-1, buf)).isSome ↔ vs.length ≤ buf.length := by
  constructor
  · intro h
    by_contra hlt
    rw [writeAll_none vs (-1) buf 0 (by norm_num) (by omega) (by omega)] at h
    simp at h
  · intro hle
    obtain ⟨out, hout, -⟩ := writeAll_spec vs (-1) buf 0 (by norm_num) (by omega)
    rw [hout]
    rfl

theorem SdlRenderer.frame_isSome_iff (w h : Int) (dt : ℚ) (bunnies : List Bunny)
    (vertices : List SdlRenderer.Vertex) :
    (SdlRenderer.frame w h dt bunnies vertices).isSome
      ↔ bunnies.length * 6 ≤ vertices.length := by
  have hfl := flatMap_const_length
    (fun b : Bunny => SdlRenderer.quad (w.tdiv 2) (h.tdiv 2) b.x b.y) 6 (fun _ => rfl)
    (updateBunnies dt bunnies)
  rw [show (updateBunnies dt bunnies).length = bunnies.length from
    updateBunniesIn_length _ _ _ _ _] at hfl
  rw [SdlRenderer.frame, SdlRenderer.frameLoop_eq, Option.isSome_map', writeAll_isSome_iff, hfl]

/-! ## Lemmas on the clock -/

theorem clockFrame_quiet (now : Int) (c : FrameClock)
    (h : getMillisElapsed now c.lastFpsMeasurement ≤ 1000) :
    clockFrame now c
      = (none, { lastTick := now, lastFpsMeasurement := c.lastFpsMeasurement,
                 framesInLastSecond := (c.framesInLastSecond + 1) % 2 ^ 32 }) := by
  simp only [clockFrame, measureFps, sampleTime, not_lt.mpr h, if_false]

theorem clockFrame_report (now : Int) (c : FrameClock)
    (h : getMillisElapsed now c.lastFpsMeasurement > 1000) :
    clockFrame now c
      = (some ((c.framesInLastSecond + 1) % 2 ^ 32),
          { lastTick := now, lastFpsMeasurement := now, framesInLastSecond := 0 }) := by
  simp only [clockFrame, measureFps, sampleTime, h, if_true]

theorem runClock_quiet (nows : List Int) (c : FrameClock)
    (hc : c.framesInLastSecond < 2 ^ 32)
    (h : ∀ t ∈ nows, getMillisElapsed t c.lastFpsMeasurement ≤ 1000) :
    (runClock nows c).lastFpsMeasurement = c.lastFpsMeasurement ∧
    (runClock nows c).framesInLastSecond = (c.framesInLastSecond + nows.length) % 2 ^ 32 := by
  induction nows generalizing c with
  | nil =>
    refine ⟨rfl, ?_⟩
    simp only [runClock, List.length_nil]
    omega
  | cons now nows ih =>
    have hq := clockFrame_quiet now c (h now (by simp))
    have := ih (clockFrame now c).2 (by rw [hq]; exact Nat.mod_lt _ (by norm_num)) (by
      intro t ht
      rw [hq]
      exact h t (by simp [ht]))
    simp only [runClock]
    rw [this.1, this.2, hq]
    refine ⟨rfl, ?_⟩
    simp only [List.length_cons]
    omega

/-! ## Lemmas on the order of the stages -/

theorem getElem?_append_add {α : Type} (l₁ l₂ : List α) (k : Nat) :
    (l₁ ++ l₂)[l₁.length + k]? = l₂[k]? := by
  rw [List.getElem?_append_right (Nat.le_add_right _ _), Nat.add_sub_cancel_left]

theorem twoPassLog_assoc (n : Nat) :
    twoPassLog n = [Stage.timeSampled] ++ ((List.range n).map Stage.simulated ++
      ([Stage.bufferAcquired] ++ ((List.range n).map Stage.encoded ++ [Stage.submitted]))) := by
  simp only [twoPassLog, List.append_assoc]

theorem twoPassLog_order (n : Nat) : TwoPassOrder (twoPassLog n) n := by
  have hS : ((List.range n).map Stage.simulated).length = n := by simp
  have hE : ((List.range n).map Stage.encoded).length = n := by simp
  unfold TwoPassOrder
  rw [twoPassLog_assoc]
  refine ⟨?_, by simp, ?_, ?_, ?_, ?_⟩
  · simp only [List.length_append, List.length_map, List.length_range, List.length_singleton]
    omega
  · intro i hi
    have h1 := getElem?_append_add [Stage.timeSampled] ((List.range n).map Stage.simulated ++
      ([Stage.bufferAcquired] ++ ((List.range n).map Stage.encoded ++ [Stage.submitted]))) i
    rw [List.length_singleton] at h1
    rw [h1, List.getElem?_append_left (by rw [hS]; exact hi), List.getElem?_map,
      List.getElem?_range hi]
    rfl
  · have h1 := getElem?_append_add [Stage.timeSampled] ((List.range n).map Stage.simulated ++
      ([Stage.bufferAcquired] ++ ((List.range n).map Stage.encoded ++ [Stage.submitted]))) n
    have h2 := getElem?_append_add ((List.range n).map Stage.simulated)
      ([Stage.bufferAcquired] ++ ((List.range n).map Stage.encoded ++ [Stage.submitted])) 0
    rw [List.length_singleton] at h1
    rw [hS, Nat.add_zero] at h2
    rw [h1, h2]
    simp
  · intro j hj
    have h1 := getElem?_append_add [Stage.timeSampled] ((List.range n).map Stage.simulated ++
      ([Stage.bufferAcquired] ++ ((List.range n).map Stage.encoded ++ [Stage.submitted])))
      (n + (1 + j))
    have h2 := getElem?_append_add ((List.range n).map Stage.simulated)
      ([Stage.bufferAcquired] ++ ((List.range n).map Stage.encoded ++ [Stage.submitted])) (1 + j)
    have h3 := getElem?_append_add [Stage.bufferAcquired]
      ((List.range n).map Stage.encoded ++ [Stage.submitted]) j
    rw [List.length_singleton] at h1 h3
    rw [hS] at h2
    rw [show 2 + n + j = 1 + (n + (1 + j)) by omega, h1, h2, h3,
      List.getElem?_append_left (by rw [hE]; exact hj), List.getElem?_map,
      List.getElem?_range hj]
    rfl
  · have h1 := getElem?_append_add [Stage.timeSampled] ((List.range n).map Stage.simulated ++
      ([Stage.bufferAcquired] ++ ((List.range n).map Stage.encoded ++ [Stage.submitted])))
      (n + (1 + n))
    have h2 := getElem?_append_add ((List.range n).map Stage.simulated)
      ([Stage.bufferAcquired] ++ ((List.range n).map Stage.encoded ++ [Stage.submitted])) (1 + n)
    have h3 := getElem?_append_add [Stage.bufferAcquired]
      ((List.range n).map Stage.encoded ++ [Stage.submitted]) n
    have h4 := getElem?_append_add ((List.range n).map Stage.encoded) [Stage.submitted] 0
    rw [List.length_singleton] at h1 h3
    rw [hS] at h2
    rw [hE, Nat.add_zero] at h4
    rw [show 2 + 2 * n = 1 + (n + (1 + n)) by omega, h1, h2, h3, h4]
    rfl

theorem updateLog_fst (dt : ℚ) (i : Nat) (bs : List Bunny) :
    (updateLog dt i bs).1 = (List.range' i bs.length).map Stage.simulated := by
  induction bs generalizing i with
  | nil => rfl
  | cons b bs ih =>
    simp only [updateLog, List.length_cons, List.range'_succ, List.map_cons, ih]

theorem updateLog_snd (dt : ℚ) (i : Nat) (bs : List Bunny) :
    (updateLog dt i bs).2 = updateBunnies dt bs := by
  induction bs generalizing i with
  | nil => rfl
  | cons b bs ih =>
    simp only [updateLog, ih]
    rfl

theorem instanceLoop_succ {α : Type} (write : Bunny → α → α) (bunnies : List Bunny)
    (n : Nat) (data : List α) :
    instanceLoop write bunnies (n + 1) data
      = (instanceLoop write bunnies n data).bind (fun d =>
          match bunnies[n]?, d[n]? with
          | some bunny, some old => some (d.set n (write bunny old))
          | _, _ => none) := by
  unfold instanceLoop
  rw [List.range_succ, List.foldlM_append]
  congr 1
  funext d
  simp only [List.foldlM_cons, List.foldlM_nil]
  cases bunnies[n]? <;> cases d[n]? <;> rfl

theorem instanceLog_succ {α : Type} (write : Bunny → α → α) (bunnies : List Bunny)
    (n : Nat) (data : List α) :
    instanceLog write bunnies (n + 1) data
      = (instanceLog write bunnies n data).bind (fun st =>
          match bunnies[n]?, st.2[n]? with
          | some bunny, some old =>
            some (st.1 ++ [Stage.encoded n], st.2.set n (write bunny old))
          | _, _ => none) := by
  unfold instanceLog
  rw [List.range_succ, List.foldlM_append]
  congr 1
  funext st
  simp only [List.foldlM_cons, List.foldlM_nil]
  cases bunnies[n]? <;> cases st.2[n]? <;> rfl

theorem instanceLog_eq {α : Type} (write : Bunny → α → α) (bunnies : List Bunny) (n : Nat)
    (data : List α) :
    instanceLog write bunnies n data
      = (instanceLoop write bunnies n data).map
          (fun out => ((List.range n).map Stage.encoded, out)) := by
  induction n with
  | zero => rfl
  | succ n ih =>
    rw [instanceLog_succ, instanceLoop_succ, ih]
    cases instanceLoop write bunnies n data with
    | none => rfl
    | some out =>
      simp only [Option.map_some', Option.some_bind, List.range_succ, List.map_append,
        List.map_cons, List.map_nil]
      cases bunnies[n]? <;> cases out[n]? <;> rfl

theorem BgfxSimple.encodeLoop_succ (hw hh : Nat) (bunnies : List Bunny) (n : Nat)
    (st : Int × List BgfxSimple.Vertex) :
    BgfxSimple.encodeLoop hw hh bunnies (n + 1) st
      = (BgfxSimple.encodeLoop hw hh bunnies n st).bind (fun st1 =>
          match bunnies[n]? with
          | some b => writeAll (BgfxSimple.quad hw hh b) st1
          | none => none) := by
  unfold BgfxSimple.encodeLoop
  rw [List.range_succ, List.foldlM_append]
  congr 1
  funext st1
  simp only [List.foldlM_cons, List.foldlM_nil]
  cases bunnies[n]? with
  | none => rfl
  | some b => simp

theorem BgfxSimple.encodeLog_succ (hw hh : Nat) (bunnies : List Bunny) (n : Nat)
    (st : Int × List BgfxSimple.Vertex) :
    BgfxSimple.encodeLog hw hh bunnies (n + 1) st
      = (BgfxSimple.encodeLog hw hh bunnies n st).bind (fun s =>
          match bunnies[n]? with
          | some b =>
            match writeAll (BgfxSimple.quad hw hh b) s.2 with
            | some st1 => some (s.1 ++ [Stage.encoded n], st1)
            | none => none
          | none => none) := by
  unfold BgfxSimple.encodeLog
  rw [List.range_succ, List.foldlM_append]
  congr 1
  funext s
  simp only [List.foldlM_cons, List.foldlM_nil]
  cases bunnies[n]? with
  | none => rfl
  | some b => simp

theorem BgfxSimple.encodeLog_eq (hw hh : Nat) (bunnies : List Bunny) (n : Nat)
    (st : Int × List BgfxSimple.Vertex) :
    BgfxSimple.encodeLog hw hh bunnies n st
      = (BgfxSimple.encodeLoop hw hh bunnies n st).map
          (fun st1 => ((List.range n).map Stage.encoded, st1)) := by
  induction n with
  | zero => rfl
  | succ n ih =>
    rw [BgfxSimple.encodeLog_succ, BgfxSimple.encodeLoop_succ, ih]
    cases BgfxSimple.encodeLoop hw hh bunnies n st with
    | none => rfl
    | some out =>
      simp only [Option.map_some', Option.some_bind, List.range_succ, List.map_append,
        List.map_cons, List.map_nil]
      cases bunnies[n]? with
      | none => rfl
      | some b =>
        simp only
        cases writeAll (BgfxSimple.quad hw hh b) out <;> rfl

theorem SdlRenderer.rendererLoopLog_eq (hw hh : Int) (dt : ℚ) (i : Nat) (bs : List Bunny)
    (st : Int × List SdlRenderer.Vertex) :
    SdlRenderer.frameLoopLog hw hh dt i bs st
      = (SdlRenderer.frameLoop hw hh dt bs st).map (fun r =>
          ((List.range' i bs.length).flatMap (fun j => [Stage.simulated j, Stage.encoded j]),
            r.1, r.2)) := by
  induction bs generalizing i st with
  | nil => rfl
  | cons b bs ih =>
    simp only [SdlRenderer.frameLoopLog, SdlRenderer.frameLoop]
    cases writeAll (SdlRenderer.quad hw hh (updateBunny dt b).x (updateBunny dt b).y) st with
    | none => rfl
    | some st1 =>
      simp only [ih]
      cases SdlRenderer.frameLoop hw hh dt bs st1 with
      | none => rfl
      | some r =>
        simp only [Option.map_some', List.length_cons, List.range'_succ, List.flatMap_cons,
          List.cons_append, List.nil_append]

theorem Sdl2Gpu.blitLoopLog_eq (dt : ℚ) (i : Nat) (bs : List Bunny) (blits : List (ℚ × ℚ)) :
    Sdl2Gpu.frameLoopLog dt i bs blits
      = ((List.range' i bs.length).flatMap
            (fun j => [Stage.simulated j, Stage.drawRequested j]),
          updateBunnies dt bs,
          blits ++ (updateBunnies dt bs).map (fun b => (b.x, b.y))) := by
  induction bs generalizing i blits with
  | nil => simp [Sdl2Gpu.frameLoopLog, updateBunnies, updateBunniesIn]
  | cons b bs ih =>
    simp only [Sdl2Gpu.frameLoopLog, ih, List.length_cons, List.range'_succ,
      List.flatMap_cons, List.cons_append, List.nil_append, List.append_assoc]
    rfl

theorem pairedLog_order (second : Nat → Stage) (last : Stage) (n : Nat)
    (hs : ∀ i, second i ≠ Stage.bufferAcquired) (hl : last ≠ Stage.bufferAcquired) :
    PairedOrder second last (pairedLog second last n) n := by
  have hq : ∀ i : Nat, ([Stage.simulated i, second i] : List Stage).length = 2 :=
    fun _ => rfl
  have hF := flatMap_const_length (fun i => [Stage.simulated i, second i]) 2 hq
    (List.range n)
  rw [List.length_range] at hF
  have hassoc : pairedLog second last n = [Stage.timeSampled] ++
      ((List.range n).flatMap (fun i => [Stage.simulated i, second i]) ++ [last]) := by
    simp only [pairedLog, List.append_assoc]
  unfold PairedOrder
  rw [hassoc]
  refine ⟨?_, by simp, ?_, ?_, ?_⟩
  · simp only [List.length_append, hF, List.length_singleton]
    omega
  · intro i hi
    have h1 := fun k => getElem?_append_add [Stage.timeSampled]
      ((List.range n).flatMap (fun i => [Stage.simulated i, second i]) ++ [last]) k
    simp only [List.length_singleton] at h1
    constructor
    · rw [show 1 + 2 * i = 1 + (2 * i + 0) by omega, h1,
        List.getElem?_append_left (by rw [hF]; omega),
        flatMap_const_getElem? _ 2 hq _ i 0 (by norm_num), List.getElem?_range hi]
      rfl
    · rw [show 2 + 2 * i = 1 + (2 * i + 1) by omega, h1,
        List.getElem?_append_left (by rw [hF]; omega),
        flatMap_const_getElem? _ 2 hq _ i 1 (by norm_num), List.getElem?_range hi]
      rfl
  · have h1 := getElem?_append_add [Stage.timeSampled]
      ((List.range n).flatMap (fun i => [Stage.simulated i, second i]) ++ [last]) (2 * n)
    have h2 := getElem?_append_add
      ((List.range n).flatMap (fun i => [Stage.simulated i, second i])) [last] 0
    rw [List.length_singleton] at h1
    rw [hF, Nat.add_zero, Nat.mul_comm] at h2
    rw [h1, h2]
    rfl
  · simp only [List.mem_append, List.mem_singleton, List.mem_flatMap, List.mem_range,
      List.mem_cons, List.mem_nil_iff, or_false, not_or, not_exists, not_and]
    exact ⟨by simp, fun i _ => ⟨by simp, fun h => hs i h.symm⟩, fun h => hl h.symm⟩

/-- The frame of `bunnymark_bgfx.cpp` on a buffer with room for the store: it
completes, its log is the two-pass sequence, and what it leaves is what the
clock, the update loop and the encoder compute. -/
theorem Bgfx.bgfxFrameLog_spec (w h : ℚ) (input : Int × List Bgfx.SpriteData)
    (s : FrameState (List Bgfx.SpriteData)) (hcap : s.bunnies.length ≤ input.2.length) :
    ∃ out, Bgfx.encodeInstances w h
          (updateBunnies (getMillisElapsed input.1 s.clock.lastTick) s.bunnies)
          s.bunnies.length input.2 = some out ∧
      Bgfx.frameLog w h s.bunnies.length input s
        = some (twoPassLog s.bunnies.length,
            { report := (clockFrame input.1 s.clock).1, clock := (clockFrame input.1 s.clock).2,
              bunnies := updateBunnies (getMillisElapsed input.1 s.clock.lastTick) s.bunnies,
              target := out }) := by
  obtain ⟨out, hout, -⟩ := instanceLoop_spec (fun bunny _ => Bgfx.spriteRecord w h bunny)
    (updateBunnies (getMillisElapsed input.1 s.clock.lastTick) s.bunnies) input.2
    s.bunnies.length (by rw [updateBunnies, updateBunniesIn_length]) hcap
  refine ⟨out, hout, ?_⟩
  simp only [Bgfx.frameLog, updateLog_snd, updateLog_fst, instanceLog_eq, sampleTime]
  rw [hout]
  simp only [Option.map_some', twoPassLog, ← List.range_eq_range', clockFrame, sampleTime]

/-- The frame of `bunnymark_sdl3_gpu.cpp` on records with room for the store. -/
theorem Sdl3Gpu.gpuFrameLog_spec (bunnyWidth bunnyHeight : Nat)
    (input : Int × List Sdl3Gpu.SpriteInstance)
    (s : FrameState (List Sdl3Gpu.SpriteInstance))
    (hcap : s.bunnies.length ≤ input.2.length) :
    ∃ out, Sdl3Gpu.encodeInstances bunnyWidth bunnyHeight
          (updateBunnies (getMillisElapsed input.1 s.clock.lastTick) s.bunnies)
          s.bunnies.length input.2 = some out ∧
      Sdl3Gpu.frameLog bunnyWidth bunnyHeight s.bunnies.length input s
        = some (twoPassLog s.bunnies.length,
            { report := (clockFrame input.1 s.clock).1, clock := (clockFrame input.1 s.clock).2,
              bunnies := updateBunnies (getMillisElapsed input.1 s.clock.lastTick) s.bunnies,
              target := out }) := by
  obtain ⟨out, hout, -⟩ := instanceLoop_spec (Sdl3Gpu.writeInstance bunnyWidth bunnyHeight)
    (updateBunnies (getMillisElapsed input.1 s.clock.lastTick) s.bunnies) input.2
    s.bunnies.length (by rw [updateBunnies, updateBunniesIn_length]) hcap
  refine ⟨out, hout, ?_⟩
  simp only [Sdl3Gpu.frameLog, updateLog_snd, updateLog_fst, instanceLog_eq, sampleTime]
  rw [hout]
  simp only [Option.map_some', twoPassLog, ← List.range_eq_range', clockFrame, sampleTime]

/-- The frame of `bunnymark_bgfx_simple.cpp` on a buffer of four vertices per
entity. -/
theorem BgfxSimple.simpleFrameLog_spec (w h : Nat) (input : Int × List BgfxSimple.Vertex)
    (s : FrameState (Int × List BgfxSimple.Vertex))
    (hcap : input.2.length = s.bunnies.length * 4) :
    ∃ out, BgfxSimple.frame w h (getMillisElapsed input.1 s.clock.lastTick) s.bunnies
          s.bunnies.length input.2 = some out ∧
      BgfxSimple.frameLog w h s.bunnies.length input s
        = some (twoPassLog s.bunnies.length,
            { report := (clockFrame input.1 s.clock).1, clock := (clockFrame input.1 s.clock).2,
              bunnies := out.1, target := out.2 }) := by
  have hex := BgfxSimple.simpleFrame_exact w h (getMillisElapsed input.1 s.clock.lastTick)
    s.bunnies input.2 hcap
  refine ⟨_, hex, ?_⟩
  unfold BgfxSimple.frame at hex
  simp only [BgfxSimple.frameLog, updateLog_snd, updateLog_fst, BgfxSimple.encodeLog_eq,
    sampleTime]
  cases he : BgfxSimple.encodeLoop (w / 2) (h / 2)
      (updateBunnies (getMillisElapsed input.1 s.clock.lastTick) s.bunnies)
      s.bunnies.length (-1, input.2) with
  | none => rw [he] at hex; cases hex
  | some st =>
    rw [he] at hex
    cases hex
    simp only [Option.map_some', twoPassLog, ← List.range_eq_range', clockFrame, sampleTime]

/-- The frame of `bunnymark_sdl_renderer.cpp` on an array of six vertices per
entity. -/
theorem SdlRenderer.rendererFrameLog_spec (w h : Int) (now : Int)
    (s : FrameState (Int × List SdlRenderer.Vertex))
    (hcap : s.target.2.length = s.bunnies.length * 6) :
    ∃ out, SdlRenderer.frame w h (getMillisElapsed now s.clock.lastTick) s.bunnies
          s.target.2 = some out ∧
      SdlRenderer.frameLog w h now s
        = some (pairedLog Stage.encoded Stage.submitted s.bunnies.length,
            { report := (clockFrame now s.clock).1, clock := (clockFrame now s.clock).2,
              bunnies := out.1, target := out.2 }) := by
  have hex := SdlRenderer.frame_exact w h (getMillisElapsed now s.clock.lastTick)
    s.bunnies s.target.2 hcap
  refine ⟨_, hex, ?_⟩
  unfold SdlRenderer.frame at hex
  simp only [SdlRenderer.frameLog, SdlRenderer.rendererLoopLog_eq, sampleTime]
  rw [hex]
  simp only [Option.map_some', pairedLog, ← List.range_eq_range', clockFrame, sampleTime]

/-- The frame of `bunnymark_sdl2_gpu.cpp`: it blits the updated entities in store
order. -/
theorem Sdl2Gpu.blitFrameLog_spec (now : Int) (s : FrameState (List (ℚ × ℚ))) :
    Sdl2Gpu.frameLog now s
      = some (pairedLog Stage.drawRequested Stage.flipped s.bunnies.length,
          { report := (clockFrame now s.clock).1, clock := (clockFrame now s.clock).2,
            bunnies := updateBunnies (getMillisElapsed now s.clock.lastTick) s.bunnies,
            target := (updateBunnies (getMillisElapsed now s.clock.lastTick) s.bunnies).map
              (fun b => (b.x, b.y)) }) := by
  simp only [Sdl2Gpu.frameLog, Sdl2Gpu.blitLoopLog_eq, sampleTime, pairedLog,
    ← List.range_eq_range', clockFrame, List.nil_append]

/-- One more iteration of `while (running)`: the log is the log of the earlier
iterations followed by the whole log of the new one. -/
theorem runFrames_append {ι σ : Type} (frame : ι → σ → Option (List Stage × σ))
    (pre : List ι) (i : ι) (s : σ) :
    runFrames frame (pre ++ [i]) s
      = (runFrames frame pre s).bind (fun q =>
          (frame i q.2).map (fun r => (q.1 ++ r.1, r.2))) := by
  induction pre generalizing s with
  | nil =>
    simp only [List.nil_append, runFrames, Option.some_bind]
    cases frame i s with
    | none => rfl
    | some r => simp
  | cons j pre ih =>
    cases hj : frame j s with
    | none => simp [runFrames, hj]
    | some r =>
      have h1 : runFrames frame (j :: (pre ++ [i])) s
          = match runFrames frame (pre ++ [i]) r.2 with
            | none => none
            | some q => some (r.1 ++ q.1, q.2) := by
        simp only [runFrames, hj]
      have h2 : runFrames frame (j :: pre) s
          = match runFrames frame pre r.2 with
            | none => none
            | some q => some (r.1 ++ q.1, q.2) := by
        simp only [runFrames, hj]
      rw [List.cons_append, h1, h2, ih]
      cases runFrames frame pre r.2 with
      | none => rfl
      | some q =>
        simp only [Option.some_bind]
        cases frame i q.2 with
        | none => rfl
        | some r2 => simp [List.append_assoc]

/-! ## Lemmas on the camera matrix -/

theorem Sdl3Gpu.rowTimes_ortho (left right bottom top zNear zFar x y z : ℚ) :
    Sdl3Gpu.Matrix4x4.rowTimes (x, y, z, 1)
        (Sdl3Gpu.Matrix4x4_CreateOrthographicOffCenter left right bottom top zNear zFar)
      = (x * (2 / (right - left)) + (left + right) / (left - right),
         y * (2 / (top - bottom)) + (top + bottom) / (bottom - top),
         z * (1 / (zNear - zFar)) + zNear / (zNear - zFar),
         1) := by
  simp [Sdl3Gpu.Matrix4x4.rowTimes, Sdl3Gpu.Matrix4x4_CreateOrthographicOffCenter]

/-! ## Lemmas on the quad of the SDL renderer -/

theorem SdlRenderer.mem_quad (hw hh : Int) (x y : ℚ) (p : SdlRenderer.Vertex)
    (hp : p ∈ SdlRenderer.quad hw hh x y) :
    (p.u = 0 ∧ p.x = x - hw ∨ p.u = 1 ∧ p.x = x + hw) ∧
    (p.v = 0 ∧ p.y = y - hh ∨ p.v = 1 ∧ p.y = y + hh) := by
  simp only [SdlRenderer.quad, List.mem_cons, List.mem_singleton, List.mem_nil_iff,
    or_false] at hp
  rcases hp with rfl | rfl | rfl | rfl | rfl | rfl <;> simp

/-! ## Lemmas on the index buffer -/

theorem writeNextU32_eq (idx : Nat) (buf : List Nat) (v s : Nat)
    (hs : (idx + 1) % 2 ^ 32 = s) (hcap : s < buf.length) :
    writeNextU32 (idx, buf) v = some (s, buf.set s v) := by
  simp only [writeNextU32, hs, hcap, if_true]

theorem writeU32_spec (vs : List Nat) (idx : Nat) (buf : List Nat) (s : Nat)
    (hs : (idx + 1) % 2 ^ 32 = s) (hcap : s + vs.length ≤ buf.length)
    (hmax : buf.length < 2 ^ 32) (hidx : idx < 2 ^ 32) :
    ∃ idx1 out, vs.foldlM writeNextU32 (idx, buf) = some (idx1, out) ∧
      (idx1 + 1) % 2 ^ 32 = s + vs.length ∧ idx1 < 2 ^ 32 ∧
      out.length = buf.length ∧
      (∀ j, j < s → out[j]? = buf[j]?) ∧
      (∀ j, j < vs.length → out[s + j]? = vs[j]?) ∧
      (∀ j, s + vs.length ≤ j → out[j]? = buf[j]?) := by
  induction vs generalizing idx buf s with
  | nil =>
    exact ⟨idx, buf, rfl, by simpa using hs, hidx, rfl, fun _ _ => rfl,
      fun _ h => by simp at h, fun _ _ => rfl⟩
  | cons v vs ih =>
    simp only [List.length_cons] at hcap
    obtain ⟨idx1, out, hout, hc, hlt, hlen, hlow, hmid, hhigh⟩ :=
      ih s (buf.set s v) (s + 1) (Nat.mod_eq_of_lt (by omega))
        (by rw [List.length_set]; omega) (by rw [List.length_set]; exact hmax) (by omega)
    refine ⟨idx1, out, ?_, ?_, hlt, ?_, ?_, ?_, ?_⟩
    · rw [List.foldlM_cons, writeNextU32_eq idx buf v s hs (by omega)]
      exact hout
    · rw [hc, List.length_cons]; omega
    · rw [hlen, List.length_set]
    · intro j hj
      rw [hlow j (by omega), List.getElem?_set_ne (by omega)]
    · intro j hj
      cases j with
      | zero =>
        rw [Nat.add_zero, hlow s (by omega), List.getElem?_set_self (by omega)]
        simp
      | succ j =>
        simp only [List.length_cons] at hj
        have := hmid j (by omega)
        rw [show s + (j + 1) = s + 1 + j by omega, this]
        simp
    · intro j hj
      simp only [List.length_cons] at hj
      rw [hhigh j (by omega), List.getElem?_set_ne (by omega)]

theorem BgfxSimple.buildIndices_spec (n : Nat) (indices : List Nat)
    (hlen : n * 6 ≤ indices.length) (hmax : indices.length < 2 ^ 32) :
    ∃ idx out, BgfxSimple.buildIndices n indices = some (idx, out) ∧
      (idx + 1) % 2 ^ 32 = n * 6 ∧ idx < 2 ^ 32 ∧
      out.length = indices.length ∧
      (∀ i k : Nat, i < n → k < 6 →
        out[6 * i + k]? = (([0, 1, 2, 0, 2, 3] : List Nat)[k]?).map (fun t => 4 * i + t)) ∧
      (∀ j, n * 6 ≤ j → out[j]? = indices[j]?) := by
  induction n with
  | zero =>
    exact ⟨2 ^ 32 - 1, indices, rfl, by norm_num, by norm_num, rfl,
      fun i k hi _ => absurd hi (Nat.not_lt_zero i), fun _ _ => rfl⟩
  | succ n ih =>
    obtain ⟨idx, out, hout, hc, hlt, hl, htab, hrest⟩ := ih (by omega)
    have hb : (n * 4) % 2 ^ 32 = n * 4 := Nat.mod_eq_of_lt (by omega)
    have hv : ∀ t, t < 4 → (n * 4 + t) % 2 ^ 32 = n * 4 + t :=
      fun t ht => Nat.mod_eq_of_lt (by omega)
    obtain ⟨idx1, out1, hout1, hc1, hlt1, hl1, hlow, hmid, hhigh⟩ :=
      writeU32_spec [n * 4 + 0, n * 4 + 1, n * 4 + 2, n * 4 + 0, n * 4 + 2, n * 4 + 3]
        idx out (n * 6) hc (by rw [hl]; simp only [List.length_cons, List.length_nil]; omega)
        (by rw [hl]; exact hmax) hlt
    refine ⟨idx1, out1, ?_, ?_, hlt1, by rw [hl1, hl], ?_, ?_⟩
    · unfold BgfxSimple.buildIndices at hout ⊢
      rw [List.range_succ, List.foldlM_append, hout]
      simp only [List.foldlM_cons, List.foldlM_nil, hb, hv 0 (by norm_num),
        hv 1 (by norm_num), hv 2 (by norm_num), hv 3 (by norm_num), Option.bind_eq_bind,
        Option.some_bind, Option.pure_def, Option.bind_some] at hout1 ⊢
      exact hout1
    · rw [hc1]; simp only [List.length_cons, List.length_nil]; omega
    · intro i k hi hk
      by_cases hin : i < n
      · rw [hlow (6 * i + k) (by omega)]
        exact htab i k hin hk
      · have hie : i = n := by omega
        subst hie
        have := hmid k (by simpa using hk)
        rw [show 6 * i + k = i * 6 + k by omega, this]
        interval_cases k <;> simp <;> omega
    · intro j hj
      rw [hhigh j (by simp only [List.length_cons, List.length_nil]; omega),
        hrest j (by omega)]

/-! ## Lemmas on the reported FPS values -/

theorem clockReports_quiet (nows : List Int) (c : FrameClock)
    (h : ∀ t ∈ nows, getMillisElapsed t c.lastFpsMeasurement ≤ 1000) :
    clockReports nows c = [] := by
  induction nows generalizing c with
  | nil => rfl
  | cons now nows ih =>
    have hq := clockFrame_quiet now c (h now (by simp))
    simp only [clockReports, hq]
    exact ih _ (fun t ht => h t (by simp [ht]))

theorem clockFrame_cases (now : Int) (c : FrameClock) :
    ((clockFrame now c).1 = none ∧
        (clockFrame now c).2.framesInLastSecond = (c.framesInLastSecond + 1) % 2 ^ 32) ∨
    ((clockFrame now c).1 = some ((c.framesInLastSecond + 1) % 2 ^ 32) ∧
        (clockFrame now c).2.framesInLastSecond = 0) := by
  by_cases h : getMillisElapsed now c.lastFpsMeasurement > 1000
  · right; rw [clockFrame_report now c h]; exact ⟨rfl, rfl⟩
  · left; rw [clockFrame_quiet now c (not_lt.mp h)]; exact ⟨rfl, rfl⟩

theorem noWrap_initial (l₁ l₂ : List Int) (c : FrameClock) (h : NoWrap (l₁ ++ l₂) c) :
    NoWrap l₁ c := by
  induction l₁ generalizing c with
  | nil => trivial
  | cons now l₁ ih => exact ⟨h.1, ih _ h.2⟩

theorem clockReports_sum (nows : List Int) (c : FrameClock) (h : NoWrap nows c) :
    (clockReports nows c).sum + (runClock nows c).framesInLastSecond
      = c.framesInLastSecond + nows.length := by
  induction nows generalizing c with
  | nil => simp [clockReports, runClock]
  | cons now nows ih =>
    have hi := ih _ h.2
    have hlt := h.1
    simp only [clockReports, runClock, List.length_cons]
    rcases clockFrame_cases now c with ⟨hr, hf⟩ | ⟨hr, hf⟩
    · rw [hr]
      simp only
      rw [hi, hf, Nat.mod_eq_of_lt hlt]
      omega
    · rw [hr]
      simp only [List.sum_cons]
      rw [Nat.add_assoc, hi, hf, Nat.mod_eq_of_lt hlt]
      omega

theorem clockReports_pos (nows : List Int) (c : FrameClock) (h : NoWrap nows c) :
    ∀ v ∈ clockReports nows c, 1 ≤ v := by
  induction nows generalizing c with
  | nil => intro v hv; simp [clockReports] at hv
  | cons now nows ih =>
    have hi := ih _ h.2
    have hlt := h.1
    intro v hv
    simp only [clockReports] at hv
    rcases clockFrame_cases now c with ⟨hr, -⟩ | ⟨hr, -⟩
    · rw [hr] at hv
      exact hi v hv
    · rw [hr] at hv
      simp only [List.mem_cons] at hv
      rcases hv with rfl | hv
      · rw [Nat.mod_eq_of_lt hlt]; omega
      · exact hi v hv

/-! ## Lemmas on the rounding to binary32 -/

theorem F32.floor_le_roundHalfEven (t : ℚ) : ⌊t⌋ ≤ F32.roundHalfEven t := by
  unfold F32.roundHalfEven
  split_ifs <;> omega

theorem F32.roundHalfEven_le_floor_succ (t : ℚ) : F32.roundHalfEven t ≤ ⌊t⌋ + 1 := by
  unfold F32.roundHalfEven
  split_ifs <;> omega

theorem F32.roundHalfEven_intCast (z : Int) : F32.roundHalfEven (z : ℚ) = z := by
  unfold F32.roundHalfEven
  rw [Int.floor_intCast]
  norm_num

theorem F32.roundHalfEven_mono {s t : ℚ} (h : s ≤ t) :
    F32.roundHalfEven s ≤ F32.roundHalfEven t := by
  rcases (Int.floor_mono h).lt_or_eq with hlt | heq
  · calc F32.roundHalfEven s ≤ ⌊s⌋ + 1 := F32.roundHalfEven_le_floor_succ s
      _ ≤ ⌊t⌋ := hlt
      _ ≤ F32.roundHalfEven t := F32.floor_le_roundHalfEven t
  · unfold F32.roundHalfEven
    rw [heq]
    split_ifs <;> first | omega | (exfalso; linarith)

/-- The integer nearest to `t`, when `t` is not half-way between two integers. -/
theorem F32.roundHalfEven_eq_of_near (t : ℚ) (m : Int) (h1 : (m : ℚ) - 1 / 2 < t)
    (h2 : t < (m : ℚ) + 1 / 2) : F32.roundHalfEven t = m := by
  unfold F32.roundHalfEven
  rcases lt_or_le t (m : ℚ) with hlt | hge
  · have hf : ⌊t⌋ = m - 1 := by
      rw [Int.floor_eq_iff]
      push_cast
      constructor <;> linarith
    rw [hf]
    push_cast
    rw [if_neg (by linarith), if_pos (by linarith)]
    omega
  · have hf : ⌊t⌋ = m := by
      rw [Int.floor_eq_iff]
      constructor <;> linarith
    rw [hf, if_pos (by linarith)]

/-- Half-way between `m` and `m + 1` the even one is taken. -/
theorem F32.roundHalfEven_tie (t : ℚ) (m : Int) (h : t = (m : ℚ) + 1 / 2) :
    F32.roundHalfEven t = if m % 2 = 0 then m else m + 1 := by
  unfold F32.roundHalfEven
  have hf : ⌊t⌋ = m := by
    rw [Int.floor_eq_iff]
    constructor <;> linarith
  rw [hf, if_neg (by linarith), if_neg (by linarith)]

theorem F32.ulp_pos (q : ℚ) : 0 < F32.ulp q := by
  unfold F32.ulp
  positivity

theorem F32.roundMag_zero : F32.roundMag 0 = 0 := by
  unfold F32.roundMag
  rw [zero_div]
  have := F32.roundHalfEven_intCast 0
  rw [Int.cast_zero] at this
  rw [this]
  simp

theorem F32.roundMag_nonneg (q : ℚ) (h : 0 ≤ q) : 0 ≤ F32.roundMag q := by
  unfold F32.roundMag
  apply mul_nonneg _ (F32.ulp_pos q).le
  have h0 : F32.roundHalfEven ((0 : Int) : ℚ) ≤ F32.roundHalfEven (q / F32.ulp q) :=
    F32.roundHalfEven_mono (by
      rw [Int.cast_zero]
      exact div_nonneg h (F32.ulp_pos q).le)
  rw [F32.roundHalfEven_intCast] at h0
  exact_mod_cast h0


theorem F32.ulpExp_mono {p q : ℚ} (hp : 0 < p) (h : p ≤ q) : F32.ulpExp p ≤ F32.ulpExp q := by
  unfold F32.ulpExp
  have := Int.log_mono_right (b := 2) hp h
  omega

/-- A positive number is rounded to at least the power of two below it. -/
theorem F32.zpow_le_roundMag (q : ℚ) (L : Int) (hL : F32.ulpExp q = L - 23)
    (h : (2 : ℚ) ^ L ≤ q) : (2 : ℚ) ^ L ≤ F32.roundMag q := by
  unfold F32.roundMag F32.ulp
  rw [hL]
  have hpos : (0 : ℚ) < 2 ^ (L - 23) := by positivity
  have hsplit : (2 : ℚ) ^ L = ((2 ^ 23 : Int) : ℚ) * 2 ^ (L - 23) := by
    have h23 : ((2 ^ 23 : Int) : ℚ) = (2 : ℚ) ^ (23 : Int) := by norm_num
    rw [h23, ← zpow_add₀ (by norm_num : (2 : ℚ) ≠ 0)]
    congr 1
    omega
  have h1 : (((2 ^ 23 : Int)) : ℚ) ≤ q / 2 ^ (L - 23) := by
    rw [le_div_iff₀ hpos, ← hsplit]
    exact h
  have h2 := F32.roundHalfEven_mono h1
  rw [F32.roundHalfEven_intCast] at h2
  have h3 : (((2 ^ 23 : Int)) : ℚ) ≤ (F32.roundHalfEven (q / 2 ^ (L - 23)) : ℚ) := by
    exact_mod_cast h2
  rw [hsplit]
  exact mul_le_mul_of_nonneg_right h3 hpos.le

/-- A number below a power of two, fine enough for the grid, is rounded to at
most that power. -/
theorem F32.roundMag_le_zpow (p : ℚ) (L : Int) (hL : F32.ulpExp p ≤ L)
    (h : p ≤ (2 : ℚ) ^ L) : F32.roundMag p ≤ (2 : ℚ) ^ L := by
  unfold F32.roundMag F32.ulp
  have hpos : (0 : ℚ) < 2 ^ F32.ulpExp p := by positivity
  obtain ⟨k, hk⟩ : ∃ k : Nat, L - F32.ulpExp p = k := ⟨(L - F32.ulpExp p).toNat, by omega⟩
  have hpow : (2 : ℚ) ^ L = ((2 ^ k : Int) : ℚ) * 2 ^ F32.ulpExp p := by
    have hk2 : ((2 ^ k : Int) : ℚ) = (2 : ℚ) ^ (k : Int) := by
      rw [zpow_natCast]
      norm_num
    rw [hk2, ← zpow_add₀ (by norm_num : (2 : ℚ) ≠ 0)]
    congr 1
    omega
  have h1 : p / 2 ^ F32.ulpExp p ≤ ((2 ^ k : Int) : ℚ) := by
    rw [div_le_iff₀ hpos, ← hpow]
    exact h
  have h2 := F32.roundHalfEven_mono h1
  rw [F32.roundHalfEven_intCast] at h2
  have h3 : (F32.roundHalfEven (p / 2 ^ F32.ulpExp p) : ℚ) ≤ ((2 ^ k : Int) : ℚ) := by
    exact_mod_cast h2
  rw [hpow]
  exact mul_le_mul_of_nonneg_right h3 hpos.le

theorem F32.roundMag_mono {p q : ℚ} (hp : 0 ≤ p) (h : p ≤ q) :
    F32.roundMag p ≤ F32.roundMag q := by
  rcases hp.lt_or_eq with hp | rfl
  swap
  · rw [F32.roundMag_zero]
    exact F32.roundMag_nonneg q h
  have hq : 0 < q := lt_of_lt_of_le hp h
  rcases (F32.ulpExp_mono hp h).lt_or_eq with hlt | heq
  · -- a power of two lies between them
    have hL : F32.ulpExp q = Int.log 2 q - 23 := by
      unfold F32.ulpExp at hlt ⊢
      omega
    have hlog : Int.log 2 p + 1 ≤ Int.log 2 q := by
      unfold F32.ulpExp at hlt
      omega
    have h1 : (2 : ℚ) ^ Int.log 2 q ≤ F32.roundMag q :=
      F32.zpow_le_roundMag q _ hL (by exact_mod_cast Int.zpow_log_le_self (by norm_num) hq)
    have hp2 : p ≤ (2 : ℚ) ^ Int.log 2 q := by
      have := Int.lt_zpow_succ_log_self (b := 2) (by norm_num) p
      have h3 : ((2 : Nat) : ℚ) ^ (Int.log 2 p + 1) ≤ ((2 : Nat) : ℚ) ^ Int.log 2 q :=
        zpow_le_zpow_right₀ (by norm_num) hlog
      have h4 := (this.trans_le h3).le
      exact_mod_cast h4
    have h2 : F32.roundMag p ≤ (2 : ℚ) ^ Int.log 2 q :=
      F32.roundMag_le_zpow p _ (by omega) hp2
    exact h2.trans h1
  · unfold F32.roundMag F32.ulp
    rw [heq]
    have hpos : (0 : ℚ) < 2 ^ F32.ulpExp q := by positivity
    have := F32.roundHalfEven_mono (div_le_div_of_nonneg_right h hpos.le)
    exact mul_le_mul_of_nonneg_right (by exact_mod_cast this) hpos.le

/-- Rounding to binary32 is monotone. -/
theorem F32.round_mono {p q : ℚ} (h : p ≤ q) : F32.round p ≤ F32.round q := by
  unfold F32.round
  by_cases hp : 0 ≤ p
  · rw [if_pos hp, if_pos (hp.trans h)]
    exact F32.roundMag_mono hp h
  · rw [if_neg hp]
    push_neg at hp
    by_cases hq : 0 ≤ q
    · rw [if_pos hq]
      have := F32.roundMag_nonneg (-p) (by linarith)
      have := F32.roundMag_nonneg q hq
      linarith
    · rw [if_neg hq]
      push_neg at hq
      have := F32.roundMag_mono (p := -q) (q := -p) (by linarith) (by linarith)
      linarith

theorem F32.round_zero : F32.round 0 = 0 := by
  unfold F32.round
  rw [if_pos le_rfl, F32.roundMag_zero]

theorem F32.round_neg (q : ℚ) : F32.round (-q) = -F32.round q := by
  unfold F32.round
  rcases lt_trichotomy q 0 with h | rfl | h
  · rw [if_pos (by linarith), if_neg (by linarith), neg_neg]
  · simp [F32.roundMag_zero]
  · rw [if_neg (by linarith), if_pos h.le, neg_neg]

/-- The exponent of the unit in the last place of a normal number. -/
theorem F32.ulpExp_eq (q : ℚ) (e : Int) (he : -149 ≤ e) (hlo : (2 : ℚ) ^ (e + 23) ≤ q)
    (hhi : q < (2 : ℚ) ^ (e + 24)) : F32.ulpExp q = e := by
  have hq : 0 < q := lt_of_lt_of_le (by positivity) hlo
  have h1 : e + 23 ≤ Int.log 2 q :=
    (Int.zpow_le_iff_le_log (by norm_num) hq).mp (by exact_mod_cast hlo)
  have h2 : Int.log 2 q < e + 24 :=
    (Int.lt_zpow_iff_log_lt (by norm_num) hq).mp (by exact_mod_cast hhi)
  unfold F32.ulpExp
  omega

/-- Evaluation of the rounding at a positive normal number that is not half-way
between two binary32 numbers: `m * 2^e` is the nearest one. -/
theorem F32.round_eq_of_near (q : ℚ) (e m : Int) (he : -149 ≤ e)
    (hlo : (2 : ℚ) ^ (e + 23) ≤ q) (hhi : q < (2 : ℚ) ^ (e + 24))
    (h1 : (m : ℚ) - 1 / 2 < q / 2 ^ e) (h2 : q / 2 ^ e < (m : ℚ) + 1 / 2) :
    F32.round q = (m : ℚ) * 2 ^ e := by
  have hq : 0 < q := lt_of_lt_of_le (by positivity) hlo
  unfold F32.round F32.roundMag F32.ulp
  rw [if_pos hq.le, F32.ulpExp_eq q e he hlo hhi, F32.roundHalfEven_eq_of_near _ m h1 h2]

/-- Evaluation of the rounding at a positive normal number half-way between
the binary32 numbers `m * 2^e` and `(m + 1) * 2^e`, `m` even. -/
theorem F32.round_eq_of_tie (q : ℚ) (e m : Int) (he : -149 ≤ e)
    (hlo : (2 : ℚ) ^ (e + 23) ≤ q) (hhi : q < (2 : ℚ) ^ (e + 24))
    (h : q / 2 ^ e = (m : ℚ) + 1 / 2) (hm : m % 2 = 0) :
    F32.round q = (m : ℚ) * 2 ^ e := by
  have hq : 0 < q := lt_of_lt_of_le (by positivity) hlo
  unfold F32.round F32.roundMag F32.ulp
  rw [if_pos hq.le, F32.ulpExp_eq q e he hlo hhi, F32.roundHalfEven_tie _ m h, if_pos hm]

/-- A binary32 number `m * 2^e` with `2^23 ≤ m < 2^24` is rounded to itself. -/
theorem F32.round_repr (q : ℚ) (e m : Int) (he : -149 ≤ e)
    (hlo : (2 : ℚ) ^ (e + 23) ≤ q) (hhi : q < (2 : ℚ) ^ (e + 24))
    (hq : q / 2 ^ e = (m : ℚ)) : F32.round q = q := by
  rw [F32.round_eq_of_near q e m he hlo hhi (by rw [hq]; linarith) (by rw [hq]; linarith),
    ← hq]
  have : (2 : ℚ) ^ e ≠ 0 := by positivity
  field_simp

theorem F32.round_768 : F32.round 768 = 768 :=
  F32.round_repr 768 (-14) 12582912 (by norm_num) (by norm_num) (by norm_num) (by norm_num)

theorem F32.round_568 : F32.round 568 = 568 :=
  F32.round_repr 568 (-14) 9306112 (by norm_num) (by norm_num) (by norm_num) (by norm_num)

theorem F32.round_300 : F32.round 300 = 300 :=
  F32.round_repr 300 (-15) 9830400 (by norm_num) (by norm_num) (by norm_num) (by norm_num)

theorem F32.round_400 : F32.round 400 = 400 :=
  F32.round_repr 400 (-15) 13107200 (by norm_num) (by norm_num) (by norm_num) (by norm_num)

theorem F32.round_dt167 : F32.round (4377805 / 262144) = 4377805 / 262144 :=
  F32.round_repr (4377805 / 262144) (-19) 8755610 (by norm_num) (by norm_num) (by norm_num)
    (by norm_num)

/-- The `dt` of a frame of 16.7 ms: `16700000 ns` is a `float`, and the quotient
by `1000000.0f` is rounded to `16.700000762939453125`. -/
theorem getMillisElapsed_167 : getMillisElapsed 16700000 0 = 4377805 / 262144 := by
  unfold getMillisElapsed NANOS_IN_MILLIS
  rw [show (((16700000 - 0 : Int)) : ℚ) = 16700000 by norm_num,
    F32.round_repr 16700000 0 16700000 (by norm_num) (by norm_num) (by norm_num) (by norm_num),
    F32.round_eq_of_near (16700000 / 1000000) (-19) 8755610 (by norm_num) (by norm_num)
      (by norm_num) (by norm_num) (by norm_num)]
  norm_num

/-- Rounding of the sum `768 + 16.700000762939453125`. -/
theorem F32.round_768_dt : F32.round (205704397 / 262144) = 12856525 / 16384 := by
  rw [F32.round_eq_of_near (205704397 / 262144) (-14) 12856525 (by norm_num) (by norm_num)
    (by norm_num) (by norm_num) (by norm_num)]
  norm_num


theorem F32.round_one : F32.round 1 = 1 :=
  F32.round_repr 1 (-23) 8388608 (by norm_num) (by norm_num) (by norm_num) (by norm_num)

theorem F32.round_neg_one : F32.round (-1) = -1 := by
  rw [F32.round_neg, F32.round_one]

theorem F32.round_100 : F32.round 100 = 100 :=
  F32.round_repr 100 (-17) 13107200 (by norm_num) (by norm_num) (by norm_num) (by norm_num)

theorem F32.round_368 : F32.round 368 = 368 :=
  F32.round_repr 368 (-15) 12058624 (by norm_num) (by norm_num) (by norm_num) (by norm_num)

theorem F32.round_700 : F32.round 700 = 700 :=
  F32.round_repr 700 (-14) 11468800 (by norm_num) (by norm_num) (by norm_num) (by norm_num)

theorem F32.round_799 : F32.round 799 = 799 :=
  F32.round_repr 799 (-14) 13090816 (by norm_num) (by norm_num) (by norm_num) (by norm_num)

theorem F32.round_800 : F32.round 800 = 800 :=
  F32.round_repr 800 (-14) 13107200 (by norm_num) (by norm_num) (by norm_num) (by norm_num)

/-- Rounding of the sum `568 + 16.700000762939453125`. -/
theorem F32.round_568_dt : F32.round (153275597 / 262144) = 9579725 / 16384 := by
  rw [F32.round_eq_of_near (153275597 / 262144) (-14) 9579725 (by norm_num) (by norm_num)
    (by norm_num) (by norm_num) (by norm_num)]
  norm_num

/-- A displacement `d` changes the distance outside `[0, hi]` by at most `|d|`. -/
theorem outsideBy_add_le (hi p d : ℚ) (hhi : 0 ≤ hi) :
    outsideBy hi (p + d) ≤ outsideBy hi p + |d| := by
  unfold outsideBy
  rcases abs_cases d with ⟨h1, _⟩ | ⟨h1, _⟩ <;> rw [h1] <;> split_ifs <;> linarith

/-- A displacement back toward `[0, hi]` from outside: the distance outside
shrinks by the displacement, or the coordinate reaches or crosses the range and
is then outside by at most the displacement. -/
theorem outsideBy_back (hi p v dt : ℚ) (hhi : 0 ≤ hi) (hdt : 0 ≤ dt)
    (hback : (hi < p ∧ v ≤ 0) ∨ (p < 0 ∧ 0 ≤ v)) :
    outsideBy hi (p + v * dt) ≤ max |v * dt| (outsideBy hi p - |v * dt|) := by
  rw [le_max_iff]
  unfold outsideBy
  rcases hback with ⟨hp, hv⟩ | ⟨hp, hv⟩
  · have hvd : v * dt ≤ 0 := mul_nonpos_of_nonpos_of_nonneg hv hdt
    rw [abs_of_nonpos hvd]
    split_ifs <;> first | (left; linarith) | (right; linarith)
  · have hvd : 0 ≤ v * dt := mul_nonneg hv hdt
    rw [abs_of_nonneg hvd]
    split_ifs <;> first | (left; linarith) | (right; linarith)

/-! ## Lemmas on the clock of a run -/

theorem F32.round_1000000032 : F32.round 1000000032 = 1000000000 := by
  rw [F32.round_eq_of_tie 1000000032 6 15625000 (by norm_num) (by norm_num) (by norm_num)
    (by norm_num) (by norm_num)]
  norm_num

theorem F32.round_1000000033 : F32.round 1000000033 = 1000000064 := by
  rw [F32.round_eq_of_near 1000000033 6 15625001 (by norm_num) (by norm_num) (by norm_num)
    (by norm_num) (by norm_num)]
  norm_num

theorem F32.round_1000 : F32.round 1000 = 1000 := by
  rw [F32.round_eq_of_near 1000 (-14) 16384000 (by norm_num) (by norm_num) (by norm_num)
    (by norm_num) (by norm_num)]
  norm_num

theorem F32.round_1000_000064 : F32.round (1000000064 / 1000000) = 16384001 / 16384 := by
  rw [F32.round_eq_of_near (1000000064 / 1000000) (-14) 16384001 (by norm_num) (by norm_num)
    (by norm_num) (by norm_num) (by norm_num)]
  norm_num

/-- The test `getMillisElapsed(now, lastFpsMeasurement) > 1000` of the source,
in nanoseconds: it holds from 1000000033 ns on. -/
theorem getMillisElapsed_gt_iff (a b : Int) :
    getMillisElapsed a b > 1000 ↔ 1000000033 ≤ a - b := by
  unfold getMillisElapsed NANOS_IN_MILLIS
  constructor
  · intro h
    by_contra hlt
    push_neg at hlt
    have h1 : ((a - b : Int) : ℚ) ≤ 1000000032 := by exact_mod_cast (by omega : a - b ≤ 1000000032)
    have h2 := F32.round_mono h1
    rw [F32.round_1000000032] at h2
    have h3 : F32.round ((a - b : Int) : ℚ) / 1000000 ≤ 1000 := by
      rw [div_le_iff₀ (by norm_num)]
      linarith
    have h4 := F32.round_mono h3
    rw [F32.round_1000] at h4
    linarith
  · intro h
    have h1 : (1000000033 : ℚ) ≤ ((a - b : Int) : ℚ) := by exact_mod_cast h
    have h2 := F32.round_mono h1
    rw [F32.round_1000000033] at h2
    have h3 : (1000000064 : ℚ) / 1000000 ≤ F32.round ((a - b : Int) : ℚ) / 1000000 :=
      div_le_div_of_nonneg_right h2 (by norm_num)
    have h4 := F32.round_mono h3
    rw [F32.round_1000_000064] at h4
    have : (1000 : ℚ) < 16384001 / 16384 := by norm_num
    linarith

theorem getMillisElapsed_le_iff (a b : Int) :
    getMillisElapsed a b ≤ 1000 ↔ a - b ≤ 1000000032 := by
  rw [← not_lt, ← gt_iff_lt, getMillisElapsed_gt_iff]
  omega

/-- One frame of a ticking run keeps the clock invariant, does not wrap the
counter, and leaves `now` as the later of the two readings. -/
theorem clockInv_step (now : Int) (c : FrameClock) (hinv : ClockInv c)
    (hnow : max c.lastTick c.lastFpsMeasurement < now) :
    c.framesInLastSecond + 1 < 2 ^ 32 ∧ ClockInv (clockFrame now c).2 ∧
    max (clockFrame now c).2.lastTick (clockFrame now c).2.lastFpsMeasurement = now := by
  obtain ⟨h1, h2⟩ := hinv
  have hfps : c.lastFpsMeasurement < now := lt_of_le_of_lt (le_max_right _ _) hnow
  refine ⟨by omega, ?_⟩
  by_cases h : getMillisElapsed now c.lastFpsMeasurement > 1000
  · rw [clockFrame_report now c h]
    refine ⟨⟨?_, ?_⟩, ?_⟩
    · simp
    · simp
    · simp
  · rw [clockFrame_quiet now c (not_lt.mp h)]
    have hq := (getMillisElapsed_le_iff now c.lastFpsMeasurement).mp (not_lt.mp h)
    have hmod : (c.framesInLastSecond + 1) % 2 ^ 32 = c.framesInLastSecond + 1 :=
      Nat.mod_eq_of_lt (by omega)
    refine ⟨⟨?_, ?_⟩, ?_⟩
    · simp only [hmod]
      rw [max_eq_left hfps.le]
      push_cast
      omega
    · simp only [hmod]
      omega
    · simp only
      exact max_eq_left hfps.le

theorem ticking_cons (now : Int) (nows : List Int) (c : FrameClock) (hinv : ClockInv c)
    (h : Ticking c (now :: nows)) :
    max c.lastTick c.lastFpsMeasurement < now ∧ Ticking (clockFrame now c).2 nows := by
  unfold Ticking at h ⊢
  rw [List.chain_cons] at h
  refine ⟨h.1, ?_⟩
  rw [(clockInv_step now c hinv h.1).2.2]
  exact h.2

/-- Along a ticking run the 32-bit counter never wraps. -/
theorem noWrap_of_ticking (nows : List Int) (c : FrameClock) (hinv : ClockInv c)
    (h : Ticking c nows) : NoWrap nows c := by
  induction nows generalizing c with
  | nil => trivial
  | cons now nows ih =>
    obtain ⟨hnow, ht⟩ := ticking_cons now nows c hinv h
    obtain ⟨hlt, hinv2, -⟩ := clockInv_step now c hinv hnow
    exact ⟨hlt, ih _ hinv2 ht⟩

/-- The clock after the frames `pre` of a ticking run `pre ++ post`: it keeps
the invariant and the rest of the run is ticking from it. -/
theorem ticking_run (pre post : List Int) (c : FrameClock) (hinv : ClockInv c)
    (h : Ticking c (pre ++ post)) :
    ClockInv (runClock pre c) ∧ Ticking (runClock pre c) post := by
  induction pre generalizing c with
  | nil => exact ⟨hinv, h⟩
  | cons now pre ih =>
    obtain ⟨hnow, ht⟩ := ticking_cons now (pre ++ post) c hinv h
    exact ih _ (clockInv_step now c hinv hnow).2.1 ht

theorem clockInv_of_reset (c : FrameClock) (h : c.framesInLastSecond = 0) : ClockInv c := by
  unfold ClockInv
  rw [h]
  refine ⟨?_, by norm_num⟩
  push_cast
  rw [add_zero]
  exact le_max_right _ _

/-- The frames of a ticking run that come before a report do not report and
count themselves: the counter is their number. -/
theorem runClock_early (c : FrameClock) (pre post : List Int)
    (hreset : c.framesInLastSecond = 0) (htick : Ticking c (pre ++ post))
    (hearly : ∀ t ∈ pre, t - c.lastFpsMeasurement ≤ 1000000032) :
    (runClock pre c).lastFpsMeasurement = c.lastFpsMeasurement ∧
    (runClock pre c).framesInLastSecond = pre.length ∧
    pre.length + 1 < 2 ^ 32 := by
  have hq : ∀ t ∈ pre, getMillisElapsed t c.lastFpsMeasurement ≤ 1000 :=
    fun t ht => (getMillisElapsed_le_iff t c.lastFpsMeasurement).mpr (hearly t ht)
  have hinv := clockInv_of_reset c hreset
  have hnw := noWrap_initial pre post c (noWrap_of_ticking _ c hinv htick)
  have hsum := clockReports_sum pre c hnw
  rw [clockReports_quiet pre c hq, hreset] at hsum
  simp only [List.sum_nil, Nat.zero_add] at hsum
  have hbound := (ticking_run pre post c hinv htick).1.2
  refine ⟨(runClock_quiet pre c (by rw [hreset]; norm_num) hq).1, hsum, ?_⟩
  rw [hsum] at hbound
  omega

/-! ## Lemmas on the writes of the encoders -/

/-- C1: one simulation step moves every entity by `velocity * dt` and then,
on each axis on its own, negates the velocity exactly when the updated
coordinate is `< 0` or `> bound - 32`; the store keeps its length and its
order (entity `i` of the result is the update of entity `i`). -/
theorem C1_step_contract (dt : ℚ) (bunnies : List Bunny) :
    (∀ b : Bunny,
      (updateBunny dt b).x = b.x + b.vx * dt ∧
      (updateBunny dt b).y = b.y + b.vy * dt ∧
      (updateBunny dt b).vx
        = (if (updateBunny dt b).x < 0 ∨ (updateBunny dt b).x > 800 - 32
            then -b.vx else b.vx) ∧
      (updateBunny dt b).vy
        = (if (updateBunny dt b).y < 0 ∨ (updateBunny dt b).y > 600 - 32
            then -b.vy else b.vy)) ∧
    (updateBunnies dt bunnies).length = bunnies.length ∧
    (∀ i : Nat, (updateBunnies dt bunnies)[i]? = (bunnies[i]?).map (updateBunny dt)) := by
  refine ⟨fun b => ⟨rfl, rfl, ?_, ?_⟩, updateBunniesIn_length _ _ _ _ _,
    fun i => updateBunniesIn_getElem? _ _ _ _ _ i⟩
  · rw [updateBunny_vx, updateBunny_x]; norm_num
  · rw [updateBunny_vy, updateBunny_y]; norm_num

/-- C2: after one simulation step, on each axis the updated coordinate lies in
`[0, bound - 32]` or the velocity on that axis was negated in this step. -/
theorem C2_inside_or_negated (dt : ℚ) (b : Bunny) :
    ((0 ≤ (updateBunny dt b).x ∧ (updateBunny dt b).x ≤ 800 - 32) ∨
        (updateBunny dt b).vx = -b.vx) ∧
    ((0 ≤ (updateBunny dt b).y ∧ (updateBunny dt b).y ≤ 600 - 32) ∨
        (updateBunny dt b).vy = -b.vy) := by
  rw [updateBunny_vx, updateBunny_vy, updateBunny_x, updateBunny_y]
  constructor
  · by_cases h : b.x + b.vx * dt < 0 ∨ b.x + b.vx * dt > 768
    · right; rw [if_pos h]
    · left
      push_neg at h
      exact ⟨h.1, by linarith [h.2]⟩
  · by_cases h : b.y + b.vy * dt < 0 ∨ b.y + b.vy * dt > 568
    · right; rw [if_pos h]
    · left
      push_neg at h
      exact ⟨h.1, by linarith [h.2]⟩

/-- C3 (as stated) fails. In the arithmetic of the program (and in exact
arithmetic alike, the values being binary32 numbers): the entity `(700, 300)`
with velocity `(1, 0)` starts inside; the frame `dt = 100` takes it to `x = 800`
and negates `vx`; the next frame `dt = 1` takes it to `x = 799`, still 31
beyond `800 - 32`, while that frame's displacement is `|-1 * 1| = 1`. And by
rounding alone: the entity `(400, 568)` with velocity `(0, 1)`, inside, ends
the frame of 16.7 ms at `y = 584.70001220703125`, outside by more than
`|vy * dt| = 16.700000762939453125`. -/
theorem C3_counterexample :
    ((0 : ℚ) ≤ 700 ∧ (700 : ℚ) ≤ 800 - 32 ∧ (0 : ℚ) ≤ 300 ∧ (300 : ℚ) ≤ 600 - 32) ∧
    (∀ d ∈ [(100 : ℚ), 1], 0 ≤ d) ∧
    runBunnyF32 [100] ⟨700, 300, 1, 0⟩ = ⟨800, 300, -1, 0⟩ ∧
    runBunnyF32 [100, 1] ⟨700, 300, 1, 0⟩ = ⟨799, 300, 1, 0⟩ ∧
    ¬ (outsideBy (800 - 32) (runBunnyF32 [100, 1] ⟨700, 300, 1, 0⟩).x
        ≤ |(runBunnyF32 [100] ⟨700, 300, 1, 0⟩).vx * 1|) ∧
    runBunny [100, 1] ⟨700, 300, 1, 0⟩ = ⟨799, 300, 1, 0⟩ ∧
    ¬ (outsideBy (800 - 32) (runBunny [100, 1] ⟨700, 300, 1, 0⟩).x
        ≤ |(runBunny [100] ⟨700, 300, 1, 0⟩).vx * 1|) ∧
    ((0 : ℚ) ≤ 400 ∧ (400 : ℚ) ≤ 800 - 32 ∧ (0 : ℚ) ≤ 568 ∧ (568 : ℚ) ≤ 600 - 32) ∧
    runBunnyF32 [4377805 / 262144] ⟨400, 568, 0, 1⟩ = ⟨400, 9579725 / 16384, 0, -1⟩ ∧
    ¬ (outsideBy (600 - 32) (runBunnyF32 [4377805 / 262144] ⟨400, 568, 0, 1⟩).y
        ≤ |(1 : ℚ) * (4377805 / 262144)|) := by
  have f1 : runBunnyF32 [100] ⟨700, 300, 1, 0⟩ = ⟨800, 300, -1, 0⟩ := by
    norm_num [runBunnyF32, updateBunnyF32, updateBunnyF32In, WINDOW_WIDTH, WINDOW_HEIGHT,
      SPRITE_EXTENT, F32.round_zero, F32.round_768, F32.round_568, F32.round_300,
      F32.round_100, F32.round_800]
  have f2 : runBunnyF32 [100, 1] ⟨700, 300, 1, 0⟩ = ⟨799, 300, 1, 0⟩ := by
    norm_num [runBunnyF32, updateBunnyF32, updateBunnyF32In, WINDOW_WIDTH, WINDOW_HEIGHT,
      SPRITE_EXTENT, F32.round_zero, F32.round_768, F32.round_568, F32.round_300,
      F32.round_100, F32.round_800, F32.round_neg_one, F32.round_799]
  have h1 : runBunny [100] ⟨700, 300, 1, 0⟩ = ⟨800, 300, -1, 0⟩ := by
    norm_num [runBunny, updateBunny, updateBunnyIn, WINDOW_WIDTH, WINDOW_HEIGHT,
      SPRITE_EXTENT]
  have h2 : runBunny [100, 1] ⟨700, 300, 1, 0⟩ = ⟨799, 300, 1, 0⟩ := by
    norm_num [runBunny, updateBunny, updateBunnyIn, WINDOW_WIDTH, WINDOW_HEIGHT,
      SPRITE_EXTENT]
  have f3 : runBunnyF32 [4377805 / 262144] ⟨400, 568, 0, 1⟩
      = ⟨400, 9579725 / 16384, 0, -1⟩ := by
    norm_num [runBunnyF32, updateBunnyF32, updateBunnyF32In, WINDOW_WIDTH, WINDOW_HEIGHT,
      SPRITE_EXTENT, F32.round_zero, F32.round_768, F32.round_568, F32.round_400,
      F32.round_dt167, F32.round_568_dt]
  have habs : |(4377805 : ℚ) / 262144| = 4377805 / 262144 := abs_of_pos (by norm_num)
  refine ⟨by norm_num, by simp, f1, f2, ?_, h2, ?_, by norm_num, f3, ?_⟩
  · rw [f1, f2]; norm_num [outsideBy]
  · rw [h1, h2]; norm_num [outsideBy]
  · rw [f3]; norm_num [outsideBy, habs]

/-- C3 (amended): over exact arithmetic, for every entity and every sequence of
`dt` values with the step `dt ≥ 0` that follows the steps `pre`: on each axis,
with `d` the distance by which the position lies outside `[0, bound - 32]`
before the step, the distance after the step is at most `d + |velocity * dt|`;
it is at most `|velocity * dt|` when the position was inside before the step;
and it is at most the larger of `|velocity * dt|` and `d - |velocity * dt|`
when the position was outside with the velocity pointing back to the range. -/
theorem C3_overshoot_bound (b : Bunny) (pre : List ℚ) (dt : ℚ) (hdt : 0 ≤ dt) :
    (outsideBy (800 - 32) (runBunny (pre ++ [dt]) b).x
        ≤ outsideBy (800 - 32) (runBunny pre b).x + |(runBunny pre b).vx * dt| ∧
      (0 ≤ (runBunny pre b).x ∧ (runBunny pre b).x ≤ 800 - 32 →
        outsideBy (800 - 32) (runBunny (pre ++ [dt]) b).x ≤ |(runBunny pre b).vx * dt|) ∧
      ((800 - 32 < (runBunny pre b).x ∧ (runBunny pre b).vx ≤ 0) ∨
          ((runBunny pre b).x < 0 ∧ 0 ≤ (runBunny pre b).vx) →
        outsideBy (800 - 32) (runBunny (pre ++ [dt]) b).x
          ≤ max |(runBunny pre b).vx * dt|
              (outsideBy (800 - 32) (runBunny pre b).x - |(runBunny pre b).vx * dt|))) ∧
    (outsideBy (600 - 32) (runBunny (pre ++ [dt]) b).y
        ≤ outsideBy (600 - 32) (runBunny pre b).y + |(runBunny pre b).vy * dt| ∧
      (0 ≤ (runBunny pre b).y ∧ (runBunny pre b).y ≤ 600 - 32 →
        outsideBy (600 - 32) (runBunny (pre ++ [dt]) b).y ≤ |(runBunny pre b).vy * dt|) ∧
      ((600 - 32 < (runBunny pre b).y ∧ (runBunny pre b).vy ≤ 0) ∨
          ((runBunny pre b).y < 0 ∧ 0 ≤ (runBunny pre b).vy) →
        outsideBy (600 - 32) (runBunny (pre ++ [dt]) b).y
          ≤ max |(runBunny pre b).vy * dt|
              (outsideBy (600 - 32) (runBunny pre b).y - |(runBunny pre b).vy * dt|))) := by
  have hrun : runBunny (pre ++ [dt]) b = updateBunny dt (runBunny pre b) := by
    rw [runBunny_append]; rfl
  rw [hrun, updateBunny_x, updateBunny_y]
  have hx := outsideBy_add_le (800 - 32) (runBunny pre b).x ((runBunny pre b).vx * dt)
    (by norm_num)
  have hy := outsideBy_add_le (600 - 32) (runBunny pre b).y ((runBunny pre b).vy * dt)
    (by norm_num)
  refine ⟨⟨hx, fun hin => ?_, outsideBy_back _ _ _ _ (by norm_num) hdt⟩,
    ⟨hy, fun hin => ?_, outsideBy_back _ _ _ _ (by norm_num) hdt⟩⟩
  · have h0 : outsideBy (800 - 32) (runBunny pre b).x = 0 := by
      unfold outsideBy
      rw [if_neg (by linarith [hin.1]), if_neg (by linarith [hin.2])]
    linarith
  · have h0 : outsideBy (600 - 32) (runBunny pre b).y = 0 := by
      unfold outsideBy
      rw [if_neg (by linarith [hin.1]), if_neg (by linarith [hin.2])]
    linarith

/-- Witness of C3 (amended): the frames `100, 1` from `(700, 300)` with velocity
`(1, 0)`; before the second frame `x = 800` is 32 outside, after it `x = 799`
is 31 outside, and `31 ≤ 32 + 1`. -/
theorem C3_overshoot_bound_witness :
    outsideBy (800 - 32) (runBunny ([100] ++ [1]) ⟨700, 300, 1, 0⟩).x
      ≤ outsideBy (800 - 32) (runBunny [100] ⟨700, 300, 1, 0⟩).x
          + |(runBunny [100] ⟨700, 300, 1, 0⟩).vx * 1| :=
  (C3_overshoot_bound ⟨700, 300, 1, 0⟩ [100] 1 (by norm_num)).1.1

/-- C4 (as stated) fails. In the arithmetic of the program (and in exact
arithmetic alike): an entity created at `(400, 300)` with velocity `(1, 1)` is
at `(800, 700)` after one frame of `dt = 400`, beyond `800 - 32` and beyond
`600 - 32`. And by rounding: with velocity `(1, 0)` the frame `dt = 368` ends at
`x = 768`, inside, and the next frame of 16.7 ms at `x = 784.70001220703125`,
beyond `800 - 32` by more than that frame's `dt = 16.700000762939453125`. -/
theorem C4_counterexample :
    ((-1 : ℚ) ≤ 1 ∧ (1 : ℚ) ≤ 1) ∧ (∀ d ∈ [(400 : ℚ)], 0 ≤ d) ∧
    runBunnyF32 [400] ⟨400, 300, 1, 1⟩ = ⟨800, 700, -1, -1⟩ ∧
    ¬ ((runBunnyF32 [400] ⟨400, 300, 1, 1⟩).x ≤ 800 - 32) ∧
    ¬ ((runBunnyF32 [400] ⟨400, 300, 1, 1⟩).y ≤ 600 - 32) ∧
    runBunny [400] ⟨400, 300, 1, 1⟩ = ⟨800, 700, -1, -1⟩ ∧
    runBunnyF32 [368] ⟨400, 300, 1, 0⟩ = ⟨768, 300, 1, 0⟩ ∧
    runBunnyF32 [368, 4377805 / 262144] ⟨400, 300, 1, 0⟩
      = ⟨12856525 / 16384, 300, -1, 0⟩ ∧
    ¬ ((runBunnyF32 [368, 4377805 / 262144] ⟨400, 300, 1, 0⟩).x
        ≤ 800 - 32 + 4377805 / 262144) := by
  have f1 : runBunnyF32 [400] ⟨400, 300, 1, 1⟩ = ⟨800, 700, -1, -1⟩ := by
    norm_num [runBunnyF32, updateBunnyF32, updateBunnyF32In, WINDOW_WIDTH, WINDOW_HEIGHT,
      SPRITE_EXTENT, F32.round_768, F32.round_568, F32.round_400, F32.round_800,
      F32.round_700]
  have h1 : runBunny [400] ⟨400, 300, 1, 1⟩ = ⟨800, 700, -1, -1⟩ := by
    norm_num [runBunny, updateBunny, updateBunnyIn, WINDOW_WIDTH, WINDOW_HEIGHT,
      SPRITE_EXTENT]
  have f2 : runBunnyF32 [368] ⟨400, 300, 1, 0⟩ = ⟨768, 300, 1, 0⟩ := by
    norm_num [runBunnyF32, updateBunnyF32, updateBunnyF32In, WINDOW_WIDTH, WINDOW_HEIGHT,
      SPRITE_EXTENT, F32.round_zero, F32.round_768, F32.round_568, F32.round_300,
      F32.round_368]
  have f3 : runBunnyF32 [368, 4377805 / 262144] ⟨400, 300, 1, 0⟩
      = ⟨12856525 / 16384, 300, -1, 0⟩ := by
    norm_num [runBunnyF32, updateBunnyF32, updateBunnyF32In, WINDOW_WIDTH, WINDOW_HEIGHT,
      SPRITE_EXTENT, F32.round_zero, F32.round_768, F32.round_568, F32.round_300,
      F32.round_368, F32.round_dt167, F32.round_768_dt]
  refine ⟨by norm_num, by simp, f1, ?_, ?_, h1, f2, f3, ?_⟩
  · rw [f1]; norm_num
  · rw [f1]; norm_num
  · rw [f3]; norm_num

/-- C4 (amended): over exact arithmetic, for an entity created at the viewport
centre `(400, 300)` with velocity components in `[-1, 1]` and every sequence of
`dt` values with the step `dt ≥ 0` that follows the steps `pre`: when the
position before the step is within the viewport bounds minus the sprite extent
on an axis, after the step it is within them widened by `dt`
(`-dt <= x <= 800 - 32 + dt`, `-dt <= y <= 600 - 32 + dt`); and in every case
it lies outside them by at most `dt` more than before the step. -/
theorem C4_position_range (vx vy : ℚ) (pre : List ℚ) (dt : ℚ)
    (hvx : -1 ≤ vx ∧ vx ≤ 1) (hvy : -1 ≤ vy ∧ vy ≤ 1) (hdt : 0 ≤ dt) :
    ((0 ≤ (runBunny pre ⟨400, 300, vx, vy⟩).x ∧
          (runBunny pre ⟨400, 300, vx, vy⟩).x ≤ 800 - 32 →
        -dt ≤ (runBunny (pre ++ [dt]) ⟨400, 300, vx, vy⟩).x ∧
          (runBunny (pre ++ [dt]) ⟨400, 300, vx, vy⟩).x ≤ 800 - 32 + dt) ∧
      outsideBy (800 - 32) (runBunny (pre ++ [dt]) ⟨400, 300, vx, vy⟩).x
        ≤ outsideBy (800 - 32) (runBunny pre ⟨400, 300, vx, vy⟩).x + dt) ∧
    ((0 ≤ (runBunny pre ⟨400, 300, vx, vy⟩).y ∧
          (runBunny pre ⟨400, 300, vx, vy⟩).y ≤ 600 - 32 →
        -dt ≤ (runBunny (pre ++ [dt]) ⟨400, 300, vx, vy⟩).y ∧
          (runBunny (pre ++ [dt]) ⟨400, 300, vx, vy⟩).y ≤ 600 - 32 + dt) ∧
      outsideBy (600 - 32) (runBunny (pre ++ [dt]) ⟨400, 300, vx, vy⟩).y
        ≤ outsideBy (600 - 32) (runBunny pre ⟨400, 300, vx, vy⟩).y + dt) := by
  have hrun : runBunny (pre ++ [dt]) ⟨400, 300, vx, vy⟩
      = updateBunny dt (runBunny pre ⟨400, 300, vx, vy⟩) := by
    rw [runBunny_append]; rfl
  have habs := runBunny_abs pre ⟨400, 300, vx, vy⟩
  simp only at habs
  have hax : |(runBunny pre ⟨400, 300, vx, vy⟩).vx * dt| ≤ dt := by
    rw [abs_mul, habs.1, abs_of_nonneg hdt]
    have : |vx| ≤ 1 := abs_le.mpr hvx
    nlinarith
  have hay : |(runBunny pre ⟨400, 300, vx, vy⟩).vy * dt| ≤ dt := by
    rw [abs_mul, habs.2, abs_of_nonneg hdt]
    have : |vy| ≤ 1 := abs_le.mpr hvy
    nlinarith
  rw [hrun, updateBunny_x, updateBunny_y]
  have hx := outsideBy_add_le (800 - 32) (runBunny pre ⟨400, 300, vx, vy⟩).x
    ((runBunny pre ⟨400, 300, vx, vy⟩).vx * dt) (by norm_num)
  have hy := outsideBy_add_le (600 - 32) (runBunny pre ⟨400, 300, vx, vy⟩).y
    ((runBunny pre ⟨400, 300, vx, vy⟩).vy * dt) (by norm_num)
  have ax := abs_le.mp hax
  have ay := abs_le.mp hay
  refine ⟨⟨fun hin => ⟨by linarith [hin.1, ax.1], by linarith [hin.2, ax.2]⟩, by linarith⟩,
    ⟨fun hin => ⟨by linarith [hin.1, ay.1], by linarith [hin.2, ay.2]⟩, by linarith⟩⟩

/-- Witness of C4 (amended): velocity `(1, -1/2)` and the frames `16, 16`. -/
theorem C4_position_range_witness :
    outsideBy (800 - 32) (runBunny ([16] ++ [16]) ⟨400, 300, 1, -1 / 2⟩).x
        ≤ outsideBy (800 - 32) (runBunny [16] ⟨400, 300, 1, -1 / 2⟩).x + 16 ∧
    outsideBy (600 - 32) (runBunny ([16] ++ [16]) ⟨400, 300, 1, -1 / 2⟩).y
        ≤ outsideBy (600 - 32) (runBunny [16] ⟨400, 300, 1, -1 / 2⟩).y + 16 :=
  ⟨(C4_position_range 1 (-1 / 2) [16] 16 (by norm_num) (by norm_num) (by norm_num)).1.2,
    (C4_position_range 1 (-1 / 2) [16] 16 (by norm_num) (by norm_num) (by norm_num)).2.2⟩

/-- C5: with bounds 100 x 100 and extent 10, stepping three entities at
`(50, 50)` with velocity `(1, 1)` by `dt = 60` leaves each of them at the raw
position `(110, 110)` (not clamped to 90) with velocity `(-1, -1)`. -/
theorem C5_end_to_end :
    updateBunniesIn 100 100 10 60
        [⟨50, 50, 1, 1⟩, ⟨50, 50, 1, 1⟩, ⟨50, 50, 1, 1⟩]
      = [⟨110, 110, -1, -1⟩, ⟨110, 110, -1, -1⟩, ⟨110, 110, -1, -1⟩] := by
  norm_num [updateBunniesIn, updateBunnyIn]

/-- C6: one simulation step preserves the absolute value of each velocity
component, and so does every sequence of steps: the magnitude of the velocity
on each axis stays what it was at creation. -/
theorem C6_speed_preserved (dt : ℚ) (dts : List ℚ) (b : Bunny) :
    (|(updateBunny dt b).vx| = |b.vx| ∧ |(updateBunny dt b).vy| = |b.vy|) ∧
    (|(runBunny dts b).vx| = |b.vx| ∧ |(runBunny dts b).vy| = |b.vy|) :=
  ⟨⟨updateBunny_abs_vx dt b, updateBunny_abs_vy dt b⟩, runBunny_abs dts b⟩

/-! ## Entity creation -/

/-- C7: entity creation yields exactly `n = NUM_BUNNIES` entities (70000 in the
bgfx backend), each at `(WINDOW_WIDTH / 2, WINDOW_HEIGHT / 2) = (400, 300)`;
entity `i` takes `vx` from draw `2i` and `vy` from draw `2i + 1` of the one
stream that starts in the initial generator state; so whenever every draw lies
in `[-1, 1]`, every velocity component lies in `[-1, 1]`. -/
theorem C7_creation {G : Type} (draw : G → ℚ × G) (rng : G) (n : Nat) :
    (createBunnies draw rng n).length = n ∧
    (createBunnies draw rng Bgfx.NUM_BUNNIES).length = 70000 ∧
    (∀ i, i < n →
      (createBunnies draw rng n)[i]?
        = some { x := 400, y := 300,
                 vx := nthDraw draw rng (2 * i), vy := nthDraw draw rng (2 * i + 1) }) ∧
    ((∀ k, -1 ≤ nthDraw draw rng k ∧ nthDraw draw rng k ≤ 1) →
      ∀ b ∈ createBunnies draw rng n,
        (-1 ≤ b.vx ∧ b.vx ≤ 1) ∧ (-1 ≤ b.vy ∧ b.vy ≤ 1)) := by
  refine ⟨by simp [createBunnies_eq], by simp [createBunnies_eq, Bgfx.NUM_BUNNIES], ?_, ?_⟩
  · intro i hi
    rw [createBunnies_eq, List.getElem?_map, List.getElem?_range hi]
    rfl
  · intro hb b hmem
    rw [createBunnies_eq, List.mem_map] at hmem
    obtain ⟨i, _, rfl⟩ := hmem
    exact ⟨hb (2 * i), hb (2 * i + 1)⟩

/-- Witness of C7: three entities from the generator `demoDraw` started at 0;
entity 2 takes draws 4 and 5, and every velocity component is in `[-1, 1]`. -/
theorem C7_creation_witness :
    (createBunnies demoDraw 0 3)[2]?
        = some { x := 400, y := 300, vx := nthDraw demoDraw 0 4, vy := nthDraw demoDraw 0 5 } ∧
    (∀ b ∈ createBunnies demoDraw 0 3, (-1 ≤ b.vx ∧ b.vx ≤ 1) ∧ (-1 ≤ b.vy ∧ b.vy ≤ 1)) :=
  ⟨(C7_creation demoDraw 0 3).2.2.1 2 (by decide),
    (C7_creation demoDraw 0 3).2.2.2 (demoDraw_bounded 0)⟩

/-! ## The batch encoders -/

/-- C8: for a store of `N` entities and a target of at least `N` records, the
per-instance encoders of the bgfx backend and of the SDL3 GPU backend succeed
and write exactly `N` records (records from `N` on are untouched); record `i`
has the position of entity `i`, size `(w, h)`, rotation 0, texture region
`(0, 0, 1, 1)` and tint `(1, 1, 1, 1)`. -/
theorem C8_instance_records (w h : ℚ) (bunnyWidth bunnyHeight : Nat) (bunnies : List Bunny)
    (data : List Bgfx.SpriteData) (dataPtr : List Sdl3Gpu.SpriteInstance)
    (hdata : bunnies.length ≤ data.length) (hptr : bunnies.length ≤ dataPtr.length) :
    (∃ out, Bgfx.encodeInstances w h bunnies bunnies.length data = some out ∧
      out.length = data.length ∧
      (∀ j, bunnies.length ≤ j → out[j]? = data[j]?) ∧
      (∀ (i : Nat) (bunny : Bunny), bunnies[i]? = some bunny → ∃ s : Bgfx.SpriteData, out[i]? = some s ∧
        s.x = bunny.x ∧ s.y = bunny.y ∧ s.w = w ∧ s.h = h ∧ s.rotation = 0 ∧
        (s.tu = 0 ∧ s.tv = 0 ∧ s.tw = 1 ∧ s.th = 1) ∧
        (s.r = 1 ∧ s.g = 1 ∧ s.b = 1 ∧ s.a = 1))) ∧
    (∃ out, Sdl3Gpu.encodeInstances bunnyWidth bunnyHeight bunnies bunnies.length dataPtr
        = some out ∧
      out.length = dataPtr.length ∧
      (∀ j, bunnies.length ≤ j → out[j]? = dataPtr[j]?) ∧
      (∀ (i : Nat) (bunny : Bunny), bunnies[i]? = some bunny → ∃ s : Sdl3Gpu.SpriteInstance, out[i]? = some s ∧
        s.x = bunny.x ∧ s.y = bunny.y ∧ s.w = bunnyWidth ∧ s.h = bunnyHeight ∧
        s.rotation = 0 ∧
        (s.tex_u = 0 ∧ s.tex_v = 0 ∧ s.tex_w = 1 ∧ s.tex_h = 1) ∧
        (s.r = 1 ∧ s.g = 1 ∧ s.b = 1 ∧ s.a = 1))) := by
  constructor
  · obtain ⟨out, hout, hlen, hrest, hdone⟩ :=
      instanceLoop_spec (fun bunny _ => Bgfx.spriteRecord w h bunny) bunnies data
        bunnies.length le_rfl hdata
    refine ⟨out, hout, hlen, hrest, ?_⟩
    intro i bunny hb
    have hi : i < bunnies.length := (List.getElem?_eq_some.mp hb).1
    have hd : data[i]? = some data[i] := List.getElem?_eq_getElem (by omega)
    refine ⟨_, hdone i bunny _ hi hb hd, ?_⟩
    simp [Bgfx.spriteRecord]
  · obtain ⟨out, hout, hlen, hrest, hdone⟩ :=
      instanceLoop_spec (Sdl3Gpu.writeInstance bunnyWidth bunnyHeight) bunnies dataPtr
        bunnies.length le_rfl hptr
    refine ⟨out, hout, hlen, hrest, ?_⟩
    intro i bunny hb
    have hi : i < bunnies.length := (List.getElem?_eq_some.mp hb).1
    have hd : dataPtr[i]? = some dataPtr[i] := List.getElem?_eq_getElem (by omega)
    refine ⟨_, hdone i bunny _ hi hb hd, ?_⟩
    simp [Sdl3Gpu.writeInstance]

/-- Witness of C8: a store of two entities, a 26 x 37 sprite, and targets of
three and of two stale records. -/
theorem C8_instance_records_witness :
    (∃ out, Bgfx.encodeInstances 26 37 [⟨400, 300, 1, -1⟩, ⟨10, 20, 0, 1⟩] 2
        [Bgfx.staleRecord, Bgfx.staleRecord, Bgfx.staleRecord] = some out ∧
      out.length = 3 ∧
      (∀ j, 2 ≤ j → out[j]? = [Bgfx.staleRecord, Bgfx.staleRecord, Bgfx.staleRecord][j]?) ∧
      (∀ (i : Nat) (bunny : Bunny),
        [(⟨400, 300, 1, -1⟩ : Bunny), ⟨10, 20, 0, 1⟩][i]? = some bunny →
        ∃ s : Bgfx.SpriteData, out[i]? = some s ∧
        s.x = bunny.x ∧ s.y = bunny.y ∧ s.w = 26 ∧ s.h = 37 ∧ s.rotation = 0 ∧
        (s.tu = 0 ∧ s.tv = 0 ∧ s.tw = 1 ∧ s.th = 1) ∧
        (s.r = 1 ∧ s.g = 1 ∧ s.b = 1 ∧ s.a = 1))) ∧
    (∃ out, Sdl3Gpu.encodeInstances 26 37 [⟨400, 300, 1, -1⟩, ⟨10, 20, 0, 1⟩] 2
        [Sdl3Gpu.staleRecord, Sdl3Gpu.staleRecord] = some out ∧
      out.length = 2 ∧
      (∀ j, 2 ≤ j → out[j]? = [Sdl3Gpu.staleRecord, Sdl3Gpu.staleRecord][j]?) ∧
      (∀ (i : Nat) (bunny : Bunny),
        [(⟨400, 300, 1, -1⟩ : Bunny), ⟨10, 20, 0, 1⟩][i]? = some bunny →
        ∃ s : Sdl3Gpu.SpriteInstance, out[i]? = some s ∧
        s.x = bunny.x ∧ s.y = bunny.y ∧ s.w = ((26 : Nat) : ℚ) ∧ s.h = ((37 : Nat) : ℚ) ∧
        s.rotation = 0 ∧
        (s.tex_u = 0 ∧ s.tex_v = 0 ∧ s.tex_w = 1 ∧ s.tex_h = 1) ∧
        (s.r = 1 ∧ s.g = 1 ∧ s.b = 1 ∧ s.a = 1))) :=
  C8_instance_records 26 37 26 37 [⟨400, 300, 1, -1⟩, ⟨10, 20, 0, 1⟩]
    [Bgfx.staleRecord, Bgfx.staleRecord, Bgfx.staleRecord]
    [Sdl3Gpu.staleRecord, Sdl3Gpu.staleRecord] (by decide) (by decide)

/-- C9 (as stated) fails for the bgfx_simple backend: for a store of one entity
and a 26 x 37 sprite its encoder writes 4 vertices (final counter 3), not 6,
and its draw binds an index buffer (`0, 1, 2, 0, 2, 3` for one entity). -/
theorem C9_counterexample :
    BgfxSimple.frame 26 37 10 [⟨400, 300, 1, 1⟩] 1
        [BgfxSimple.staleVertex, BgfxSimple.staleVertex, BgfxSimple.staleVertex,
          BgfxSimple.staleVertex]
      = some ([⟨410, 310, 1, 1⟩],
          (3, [⟨397, 328, 0, 1, 0xffffffff⟩, ⟨423, 328, 1, 1, 0xffffffff⟩,
               ⟨423, 292, 1, 0, 0xffffffff⟩, ⟨397, 292, 0, 0, 0xffffffff⟩])) ∧
    (BgfxSimple.quad 13 18 ⟨410, 310, 1, 1⟩).length ≠ 6 ∧
    BgfxSimple.buildIndices 1 [0, 0, 0, 0, 0, 0] = some (5, [0, 1, 2, 0, 2, 3]) ∧
    (BgfxSimple.submit 1 [0, 1, 2, 0, 2, 3]).indexBuffer ≠ none := by
  refine ⟨?_, by decide, by decide, by decide⟩
  norm_num [BgfxSimple.frame, BgfxSimple.encodeLoop, BgfxSimple.quad, writeAll, writeNext,
    updateBunnies, updateBunniesIn, updateBunnyIn, WINDOW_WIDTH, WINDOW_HEIGHT, SPRITE_EXTENT,
    List.range, List.range.loop, BgfxSimple.staleVertex]
  rfl

/-- C9 (amended): for a store of `N` entities, the SDL renderer backend emits
exactly 6 vertices per entity, `N * 6` in all (final counter `6N - 1`), in store
order, vertices `6i .. 6i+5` being those of the updated entity `i`, and its
draw passes no index buffer; the bgfx_simple backend emits exactly 4 vertices
per entity, `N * 4` in all (final counter `4N - 1`), vertices `4i .. 4i+3` being
those of the updated entity `i`, and its draw binds an index buffer. -/
theorem C9_vertex_layout (w h : Int) (w2 h2 : Nat) (dt : ℚ) (bunnies : List Bunny)
    (vertices : List SdlRenderer.Vertex) (data : List BgfxSimple.Vertex)
    (indices : List Nat)
    (hv : vertices.length = bunnies.length * 6) (hd : data.length = bunnies.length * 4) :
    ((∀ x y : ℚ, (SdlRenderer.quad (w.tdiv 2) (h.tdiv 2) x y).length = 6) ∧
      (∃ out, SdlRenderer.frame w h dt bunnies vertices
          = some (updateBunnies dt bunnies, (((bunnies.length * 6 : Nat) : Int) - 1, out)) ∧
        out.length = bunnies.length * 6 ∧
        (∀ (i k : Nat) (b : Bunny), bunnies[i]? = some b → k < 6 →
          out[6 * i + k]?
            = (SdlRenderer.quad (w.tdiv 2) (h.tdiv 2)
                (updateBunny dt b).x (updateBunny dt b).y)[k]?)) ∧
      (SdlRenderer.renderGeometryRaw bunnies.length).num_vertices = bunnies.length * 6 ∧
      (SdlRenderer.renderGeometryRaw bunnies.length).indices = none ∧
      (SdlRenderer.renderGeometryRaw bunnies.length).num_indices = 0) ∧
    ((∀ b : Bunny, (BgfxSimple.quad (w2 / 2) (h2 / 2) b).length = 4) ∧
      (∃ out, BgfxSimple.frame w2 h2 dt bunnies bunnies.length data
          = some (updateBunnies dt bunnies, (((bunnies.length * 4 : Nat) : Int) - 1, out)) ∧
        out.length = bunnies.length * 4 ∧
        (∀ (i k : Nat) (b : Bunny), bunnies[i]? = some b → k < 4 →
          out[4 * i + k]? = (BgfxSimple.quad (w2 / 2) (h2 / 2) (updateBunny dt b))[k]?)) ∧
      (BgfxSimple.submit bunnies.length indices).num_vertices = bunnies.length * 4 ∧
      (BgfxSimple.submit bunnies.length indices).indexBuffer = some indices) := by
  have hul : (updateBunnies dt bunnies).length = bunnies.length :=
    updateBunniesIn_length _ _ _ _ _
  have hug : ∀ (i : Nat) (b : Bunny), bunnies[i]? = some b →
      (updateBunnies dt bunnies)[i]? = some (updateBunny dt b) := by
    intro i b hb
    have := updateBunniesIn_getElem? WINDOW_WIDTH WINDOW_HEIGHT SPRITE_EXTENT dt bunnies i
    rw [hb] at this
    exact this
  refine ⟨⟨fun _ _ => rfl, ?_, rfl, rfl, rfl⟩, ⟨fun _ => rfl, ?_, rfl, rfl⟩⟩
  · have hq : ∀ b : Bunny, (SdlRenderer.quad (w.tdiv 2) (h.tdiv 2) b.x b.y).length = 6 :=
      fun _ => rfl
    have hfl := flatMap_const_length
      (fun b : Bunny => SdlRenderer.quad (w.tdiv 2) (h.tdiv 2) b.x b.y) 6 hq
      (updateBunnies dt bunnies)
    rw [hul] at hfl
    obtain ⟨out, hout, hlen, -, hmid, -⟩ :=
      writeAll_spec ((updateBunnies dt bunnies).flatMap
        (fun b : Bunny => SdlRenderer.quad (w.tdiv 2) (h.tdiv 2) b.x b.y)) (-1) vertices 0
        (by norm_num) (by rw [hfl, hv]; omega)
    refine ⟨out, ?_, by rw [hlen, hv], ?_⟩
    · rw [SdlRenderer.frame, SdlRenderer.frameLoop_eq, hout, hfl, Option.map_some',
        neg_add_eq_sub]
    · intro i k b hb hk
      have hi : i < bunnies.length := (List.getElem?_eq_some.mp hb).1
      have := hmid (6 * i + k) (by rw [hfl]; omega)
      rw [Nat.zero_add] at this
      rw [this, flatMap_const_getElem? _ 6 hq _ i k hk, hug i b hb, Option.some_bind]
  · have hq : ∀ b : Bunny, (BgfxSimple.quad (w2 / 2) (h2 / 2) b).length = 4 := fun _ => rfl
    have hfl := flatMap_const_length (BgfxSimple.quad (w2 / 2) (h2 / 2)) 4 hq
      (updateBunnies dt bunnies)
    rw [hul] at hfl
    obtain ⟨out, hout, hlen, -, hmid, -⟩ :=
      writeAll_spec ((updateBunnies dt bunnies).flatMap (BgfxSimple.quad (w2 / 2) (h2 / 2)))
        (-1) data 0 (by norm_num) (by rw [hfl, hd]; omega)
    have htake : (updateBunnies dt bunnies).take bunnies.length = updateBunnies dt bunnies := by
      rw [← hul]; exact List.take_length _
    refine ⟨out, ?_, by rw [hlen, hd], ?_⟩
    · rw [BgfxSimple.frame, BgfxSimple.encodeLoop_eq _ _ _ _ (by rw [hul]), htake, hout, hfl,
        neg_add_eq_sub]
    · intro i k b hb hk
      have hi : i < bunnies.length := (List.getElem?_eq_some.mp hb).1
      have := hmid (4 * i + k) (by rw [hfl]; omega)
      rw [Nat.zero_add] at this
      rw [this, flatMap_const_getElem? _ 4 hq _ i k hk, hug i b hb, Option.some_bind]

/-- Witness of C9 (amended): a store of two entities with a 26 x 37 sprite, an
array of 12 vertices and a transient buffer of 8 vertices. -/
theorem C9_vertex_layout_witness :
    (∃ out, SdlRenderer.frame 26 37 10 [⟨400, 300, 1, 1⟩, ⟨760, 20, 1, -1 / 2⟩]
          (List.replicate 12 SdlRenderer.staleVertex)
        = some (updateBunnies 10 [⟨400, 300, 1, 1⟩, ⟨760, 20, 1, -1 / 2⟩],
            (((2 * 6 : Nat) : Int) - 1, out)) ∧ out.length = 2 * 6) ∧
    (∃ out, BgfxSimple.frame 26 37 10 [⟨400, 300, 1, 1⟩, ⟨760, 20, 1, -1 / 2⟩] 2
          (List.replicate 8 BgfxSimple.staleVertex)
        = some (updateBunnies 10 [⟨400, 300, 1, 1⟩, ⟨760, 20, 1, -1 / 2⟩],
            (((2 * 4 : Nat) : Int) - 1, out)) ∧ out.length = 2 * 4) := by
  have h := C9_vertex_layout 26 37 26 37 10 [⟨400, 300, 1, 1⟩, ⟨760, 20, 1, -1 / 2⟩]
    (List.replicate 12 SdlRenderer.staleVertex) (List.replicate 8 BgfxSimple.staleVertex)
    [0, 1, 2, 0, 2, 3, 4, 5, 6, 4, 6, 7] (by decide) (by decide)
  obtain ⟨⟨-, ⟨o1, h1, l1, -⟩, -⟩, ⟨-, ⟨o2, h2, l2, -⟩, -⟩⟩ := h
  exact ⟨⟨o1, h1, l1⟩, ⟨o2, h2, l2⟩⟩

/-- C10 (as stated) fails: the base geometry of the bgfx backend has 6
vertices, not 4, and the corners `(0, 0)` and `(1, 1)` occur twice each. -/
theorem C10_counterexample :
    Bgfx.vertexBufferData.length = 6 ∧ Bgfx.vertexBufferData.length ≠ 4 ∧
    (Bgfx.vertexBufferData.map Bgfx.Vertex.pos).count (0, 0) = 2 ∧
    (Bgfx.vertexBufferData.map Bgfx.Vertex.pos).count (1, 1) = 2 := by
  decide

/-- C10 (amended): the base geometry of the bgfx backend is a constant array of
exactly 6 vertices, two triangles that cover the unit quad: the vertex
positions are exactly the four corners `(0,0)`, `(1,0)`, `(0,1)`, `(1,1)`;
`(0,1)` and `(1,0)` occur once, `(0,0)` and `(1,1)`, the diagonal that the two
triangles (vertices 0..2 and 3..5) share, occur twice; and every vertex has
texture coordinates equal to its position. -/
theorem C10_base_geometry :
    Bgfx.vertexBufferData.length = 6 ∧
    (∀ p : ℚ × ℚ, p ∈ Bgfx.vertexBufferData.map Bgfx.Vertex.pos ↔
      p = (0, 0) ∨ p = (1, 0) ∨ p = (0, 1) ∨ p = (1, 1)) ∧
    ((Bgfx.vertexBufferData.map Bgfx.Vertex.pos).count (0, 1) = 1 ∧
      (Bgfx.vertexBufferData.map Bgfx.Vertex.pos).count (1, 0) = 1 ∧
      (Bgfx.vertexBufferData.map Bgfx.Vertex.pos).count (0, 0) = 2 ∧
      (Bgfx.vertexBufferData.map Bgfx.Vertex.pos).count (1, 1) = 2) ∧
    ((Bgfx.vertexBufferData.take 3).map Bgfx.Vertex.pos = [(0, 1), (0, 0), (1, 1)] ∧
      (Bgfx.vertexBufferData.drop 3).map Bgfx.Vertex.pos = [(1, 1), (0, 0), (1, 0)]) ∧
    Bgfx.vertexBufferData.map (fun p => (p.u, p.v))
      = Bgfx.vertexBufferData.map Bgfx.Vertex.pos := by
  refine ⟨by decide, ?_, by decide, by decide, by decide⟩
  intro p
  simp only [Bgfx.vertexBufferData, Bgfx.Vertex.pos, List.map_cons, List.map_nil,
    List.mem_cons, List.mem_nil_iff, or_false]
  tauto

/-- C19 (as stated) fails in the arithmetic of the program: the entity at
`x = 768 = 800 - 32`, inside the range, with `vx = 1` and the `dt` of a frame
of 16.7 ms ends at `x = 784.70001220703125` (the sum is rounded to binary32),
which is outside by `16.70001220703125`, more than
`|vx * dt| = 16.700000762939453125`. -/
theorem C19_counterexample :
    getMillisElapsed 16700000 0 = 4377805 / 262144 ∧
    ((0 : ℚ) < 4377805 / 262144 ∧ (0 : ℚ) ≤ 768 ∧ (768 : ℚ) ≤ 800 - 32) ∧
    updateBunnyF32 (4377805 / 262144) ⟨768, 300, 1, 0⟩ = ⟨12856525 / 16384, 300, -1, 0⟩ ∧
    ¬ (outsideBy (800 - 32) (updateBunnyF32 (4377805 / 262144) ⟨768, 300, 1, 0⟩).x
        ≤ |(1 : ℚ) * (4377805 / 262144)|) := by
  have h : updateBunnyF32 (4377805 / 262144) ⟨768, 300, 1, 0⟩
      = ⟨12856525 / 16384, 300, -1, 0⟩ := by
    norm_num [updateBunnyF32, updateBunnyF32In, WINDOW_WIDTH, WINDOW_HEIGHT, SPRITE_EXTENT,
      F32.round_zero, F32.round_768, F32.round_568, F32.round_300, F32.round_dt167,
      F32.round_768_dt]
  have habs : |(4377805 : ℚ) / 262144| = 4377805 / 262144 := abs_of_pos (by norm_num)
  refine ⟨getMillisElapsed_167, by norm_num, h, ?_⟩
  rw [h]
  norm_num [outsideBy, habs]

/-- C19 (amended): over exact arithmetic, for an entity whose position on an axis
lies inside `[0, bound - 32]` before a step and every `dt > 0`: after the step
the position lies outside that range by at most `|velocity * dt|`, and whenever
it lies outside, the velocity after the step points back toward the range
(negative above `bound - 32`, positive below 0). -/
theorem C19_reflect_points_back (dt : ℚ) (b : Bunny) (hdt : 0 < dt) :
    (0 ≤ b.x ∧ b.x ≤ 800 - 32 →
      outsideBy (800 - 32) (updateBunny dt b).x ≤ |b.vx * dt| ∧
      ((updateBunny dt b).x > 800 - 32 → (updateBunny dt b).vx < 0) ∧
      ((updateBunny dt b).x < 0 → 0 < (updateBunny dt b).vx)) ∧
    (0 ≤ b.y ∧ b.y ≤ 600 - 32 →
      outsideBy (600 - 32) (updateBunny dt b).y ≤ |b.vy * dt| ∧
      ((updateBunny dt b).y > 600 - 32 → (updateBunny dt b).vy < 0) ∧
      ((updateBunny dt b).y < 0 → 0 < (updateBunny dt b).vy)) := by
  have e1 : (800 : ℚ) - 32 = 768 := by norm_num
  have e2 : (600 : ℚ) - 32 = 568 := by norm_num
  rw [e1, e2, updateBunny_vx, updateBunny_vy, updateBunny_x, updateBunny_y, abs_mul, abs_mul,
    abs_of_pos hdt]
  constructor
  · intro hin
    have hs := axisOK_step 768 b.x b.vx 0 dt (by norm_num) hdt.le
      (mul_nonneg (abs_nonneg _) hdt.le) (Or.inl hin)
    have hb := axisOK_points_back 768 _ _ _ (by norm_num) hs
    exact ⟨axisOK_outsideBy 768 _ _ _ (by norm_num) (mul_nonneg (abs_nonneg _) hdt.le) hs,
      hb.1, hb.2⟩
  · intro hin
    have hs := axisOK_step 568 b.y b.vy 0 dt (by norm_num) hdt.le
      (mul_nonneg (abs_nonneg _) hdt.le) (Or.inl hin)
    have hb := axisOK_points_back 568 _ _ _ (by norm_num) hs
    exact ⟨axisOK_outsideBy 568 _ _ _ (by norm_num) (mul_nonneg (abs_nonneg _) hdt.le) hs,
      hb.1, hb.2⟩

/-- Witness of C19 (amended): the entity `(760, 5)` with velocity `(1, -1)` and `dt = 16`
ends at `(776, -11)`, outside on both axes, with velocity `(-1, 1)`. -/
theorem C19_reflect_points_back_witness :
    (outsideBy (800 - 32) (updateBunny 16 ⟨760, 5, 1, -1⟩).x ≤ |(1 : ℚ) * 16| ∧
      ((updateBunny 16 ⟨760, 5, 1, -1⟩).x > 800 - 32 → (updateBunny 16 ⟨760, 5, 1, -1⟩).vx < 0) ∧
      ((updateBunny 16 ⟨760, 5, 1, -1⟩).x < 0 → 0 < (updateBunny 16 ⟨760, 5, 1, -1⟩).vx)) ∧
    (outsideBy (600 - 32) (updateBunny 16 ⟨760, 5, 1, -1⟩).y ≤ |(-1 : ℚ) * 16| ∧
      ((updateBunny 16 ⟨760, 5, 1, -1⟩).y > 600 - 32 → (updateBunny 16 ⟨760, 5, 1, -1⟩).vy < 0) ∧
      ((updateBunny 16 ⟨760, 5, 1, -1⟩).y < 0 → 0 < (updateBunny 16 ⟨760, 5, 1, -1⟩).vy)) :=
  ⟨(C19_reflect_points_back 16 ⟨760, 5, 1, -1⟩ (by norm_num)).1 (by norm_num),
    (C19_reflect_points_back 16 ⟨760, 5, 1, -1⟩ (by norm_num)).2 (by norm_num)⟩

/-- C20: in the SDL renderer backend, for every store, `dt` and vertex array,
the single loop that updates one entity and at once emits its 6 vertices
gives the same result (the same final store, the same counter and the same
vertex array) as first stepping every entity and then encoding every entity in
store order; both complete exactly when the array holds at least 6 vertices
per entity, as the array of the source does. -/
theorem C20_fused_equals_two_pass (w h : Int) (dt : ℚ) (bunnies : List Bunny)
    (vertices : List SdlRenderer.Vertex) :
    SdlRenderer.frame w h dt bunnies vertices
        = SdlRenderer.frameTwoPass w h dt bunnies vertices ∧
    ((SdlRenderer.frameTwoPass w h dt bunnies vertices).isSome
        ↔ bunnies.length * 6 ≤ vertices.length) := by
  have heq : SdlRenderer.frame w h dt bunnies vertices
      = SdlRenderer.frameTwoPass w h dt bunnies vertices := by
    rw [SdlRenderer.frame, SdlRenderer.frameTwoPass, SdlRenderer.frameLoop_eq,
      SdlRenderer.encodeAll_eq]
    cases writeAll ((updateBunnies dt bunnies).flatMap
        (fun b => SdlRenderer.quad (w.tdiv 2) (h.tdiv 2) b.x b.y)) (-1, vertices) with
    | none => rfl
    | some st => rfl
  exact ⟨heq, by rw [← heq]; exact SdlRenderer.frame_isSome_iff w h dt bunnies vertices⟩

/-- C13 (as stated) fails for the SDL3 GPU encoder: encoding the same store of
one entity into a target that held the stale record (all fields 7) and into a
zeroed target leaves different padding fields, 7 and 0. -/
theorem C13_counterexample :
    Sdl3Gpu.encodeInstances 26 37 [⟨400, 300, 1, 1⟩] 1 [Sdl3Gpu.staleRecord]
      = some [⟨400, 300, 0, 0, 26, 37, 7, 7, 0, 0, 1, 1, 1, 1, 1, 1⟩] ∧
    Sdl3Gpu.encodeInstances 26 37 [⟨400, 300, 1, 1⟩] 1 [Sdl3Gpu.zeroRecord]
      = some [⟨400, 300, 0, 0, 26, 37, 0, 0, 0, 0, 1, 1, 1, 1, 1, 1⟩] ∧
    Sdl3Gpu.encodeInstances 26 37 [⟨400, 300, 1, 1⟩] 1 [Sdl3Gpu.staleRecord]
      ≠ Sdl3Gpu.encodeInstances 26 37 [⟨400, 300, 1, 1⟩] 1 [Sdl3Gpu.zeroRecord] := by
  have h1 : Sdl3Gpu.encodeInstances 26 37 [⟨400, 300, 1, 1⟩] 1 [Sdl3Gpu.staleRecord]
      = some [⟨400, 300, 0, 0, 26, 37, 7, 7, 0, 0, 1, 1, 1, 1, 1, 1⟩] := by
    norm_num [Sdl3Gpu.encodeInstances, instanceLoop, Sdl3Gpu.writeInstance,
      Sdl3Gpu.staleRecord, List.range, List.range.loop]
  have h2 : Sdl3Gpu.encodeInstances 26 37 [⟨400, 300, 1, 1⟩] 1 [Sdl3Gpu.zeroRecord]
      = some [⟨400, 300, 0, 0, 26, 37, 0, 0, 0, 0, 1, 1, 1, 1, 1, 1⟩] := by
    norm_num [Sdl3Gpu.encodeInstances, instanceLoop, Sdl3Gpu.writeInstance,
      Sdl3Gpu.zeroRecord, List.range, List.range.loop]
  refine ⟨h1, h2, ?_⟩
  rw [h1, h2]
  decide

/-- C13 (amended): for a store of `N` entities and targets of exactly the encoded
size, the content after encode is a function of the store (with the sprite
size, and `dt` for the per-vertex encoders) alone in every field of every
record for the bgfx instance encoder (padding `p1..p3` included, they are 0),
for the SDL renderer encoder and for the bgfx_simple encoder; for the SDL3 GPU
encoder it is so in the fourteen assigned fields, while `padding_a` and
`padding_b` keep what the target held before. -/
theorem C13_content_from_store (w h : ℚ) (bunnyWidth bunnyHeight : Nat) (tw th : Int)
    (w2 h2 : Nat) (dt : ℚ) (bunnies : List Bunny)
    (d1 d2 : List Bgfx.SpriteData) (p1 p2 : List Sdl3Gpu.SpriteInstance)
    (v1 v2 : List SdlRenderer.Vertex) (t1 t2 : List BgfxSimple.Vertex)
    (hd1 : d1.length = bunnies.length) (hd2 : d2.length = bunnies.length)
    (hp1 : p1.length = bunnies.length) (hp2 : p2.length = bunnies.length)
    (hv1 : v1.length = bunnies.length * 6) (hv2 : v2.length = bunnies.length * 6)
    (ht1 : t1.length = bunnies.length * 4) (ht2 : t2.length = bunnies.length * 4) :
    (Bgfx.encodeInstances w h bunnies bunnies.length d1
        = some (bunnies.map (Bgfx.spriteRecord w h)) ∧
      Bgfx.encodeInstances w h bunnies bunnies.length d2
        = some (bunnies.map (Bgfx.spriteRecord w h))) ∧
    (∃ o1 o2,
      Sdl3Gpu.encodeInstances bunnyWidth bunnyHeight bunnies bunnies.length p1 = some o1 ∧
      Sdl3Gpu.encodeInstances bunnyWidth bunnyHeight bunnies bunnies.length p2 = some o2 ∧
      o1.map Sdl3Gpu.SpriteInstance.withoutPadding
        = o2.map Sdl3Gpu.SpriteInstance.withoutPadding ∧
      o1.map Sdl3Gpu.SpriteInstance.padding = p1.map Sdl3Gpu.SpriteInstance.padding ∧
      o2.map Sdl3Gpu.SpriteInstance.padding = p2.map Sdl3Gpu.SpriteInstance.padding) ∧
    (∃ out, SdlRenderer.frame tw th dt bunnies v1 = some out ∧
      SdlRenderer.frame tw th dt bunnies v2 = some out) ∧
    (∃ out, BgfxSimple.frame w2 h2 dt bunnies bunnies.length t1 = some out ∧
      BgfxSimple.frame w2 h2 dt bunnies bunnies.length t2 = some out) := by
  refine ⟨⟨Bgfx.encodeInstances_exact w h bunnies d1 hd1,
    Bgfx.encodeInstances_exact w h bunnies d2 hd2⟩, ?_,
    ⟨_, SdlRenderer.frame_exact tw th dt bunnies v1 hv1,
      SdlRenderer.frame_exact tw th dt bunnies v2 hv2⟩,
    ⟨_, BgfxSimple.simpleFrame_exact w2 h2 dt bunnies t1 ht1,
      BgfxSimple.simpleFrame_exact w2 h2 dt bunnies t2 ht2⟩⟩
  obtain ⟨o1, ho1, hw1, hpad1⟩ :=
    Sdl3Gpu.encodeInstances_content bunnyWidth bunnyHeight bunnies p1 hp1
  obtain ⟨o2, ho2, hw2, hpad2⟩ :=
    Sdl3Gpu.encodeInstances_content bunnyWidth bunnyHeight bunnies p2 hp2
  exact ⟨o1, o2, ho1, ho2, hw1.trans hw2.symm, hpad1, hpad2⟩

/-- Witness of C13 (amended): a store of one entity, a 26 x 37 sprite, and for
each encoder a stale target and a target with other content. -/
theorem C13_content_from_store_witness :
    (Bgfx.encodeInstances 26 37 [⟨400, 300, 1, 1⟩] 1 [Bgfx.staleRecord]
        = some ([(⟨400, 300, 1, 1⟩ : Bunny)].map (Bgfx.spriteRecord 26 37)) ∧
      Bgfx.encodeInstances 26 37 [⟨400, 300, 1, 1⟩] 1 [Bgfx.spriteRecord 1 1 ⟨0, 0, 0, 0⟩]
        = some ([(⟨400, 300, 1, 1⟩ : Bunny)].map (Bgfx.spriteRecord 26 37))) ∧
    (∃ o1 o2,
      Sdl3Gpu.encodeInstances 26 37 [⟨400, 300, 1, 1⟩] 1 [Sdl3Gpu.staleRecord] = some o1 ∧
      Sdl3Gpu.encodeInstances 26 37 [⟨400, 300, 1, 1⟩] 1 [Sdl3Gpu.zeroRecord] = some o2 ∧
      o1.map Sdl3Gpu.SpriteInstance.withoutPadding
        = o2.map Sdl3Gpu.SpriteInstance.withoutPadding ∧
      o1.map Sdl3Gpu.SpriteInstance.padding
        = [Sdl3Gpu.staleRecord].map Sdl3Gpu.SpriteInstance.padding ∧
      o2.map Sdl3Gpu.SpriteInstance.padding
        = [Sdl3Gpu.zeroRecord].map Sdl3Gpu.SpriteInstance.padding) ∧
    (∃ out, SdlRenderer.frame 26 37 10 [⟨400, 300, 1, 1⟩]
          (List.replicate 6 SdlRenderer.staleVertex) = some out ∧
      SdlRenderer.frame 26 37 10 [⟨400, 300, 1, 1⟩]
          (List.replicate 6 ⟨0, 0, 0, 0⟩) = some out) ∧
    (∃ out, BgfxSimple.frame 26 37 10 [⟨400, 300, 1, 1⟩] 1
          (List.replicate 4 BgfxSimple.staleVertex) = some out ∧
      BgfxSimple.frame 26 37 10 [⟨400, 300, 1, 1⟩] 1
          (List.replicate 4 ⟨0, 0, 0, 0, 0⟩) = some out) :=
  C13_content_from_store 26 37 26 37 26 37 26 37 10 [⟨400, 300, 1, 1⟩]
    [Bgfx.staleRecord] [Bgfx.spriteRecord 1 1 ⟨0, 0, 0, 0⟩]
    [Sdl3Gpu.staleRecord] [Sdl3Gpu.zeroRecord]
    (List.replicate 6 SdlRenderer.staleVertex) (List.replicate 6 ⟨0, 0, 0, 0⟩)
    (List.replicate 4 BgfxSimple.staleVertex) (List.replicate 4 ⟨0, 0, 0, 0, 0⟩)
    (by decide) (by decide) (by decide) (by decide) (by decide) (by decide) (by decide)
    (by decide)

/-- C12: for every `N`, every slot an encoder writes lies inside the target it
was sized for, and each slot is written exactly once: the instance encoders
address the records `0 .. N-1`, in order and without repetition; the SDL
renderer encoder, whose counter starts at -1 and is incremented before each
write, addresses the vertices `0 .. 6N-1` and ends with counter `6N - 1`; the
bgfx_simple encoder addresses the vertices `0 .. 4N-1` and ends with counter
`4N - 1`; and on targets of `N` records, `6N` and `4N` vertices the runs
complete without an out-of-range access, with those final counters. -/
theorem C12_each_slot_once (w h : ℚ) (bunnyWidth bunnyHeight : Nat) (tw th : Int)
    (w2 h2 : Nat) (dt : ℚ) (bunnies : List Bunny)
    (data : List Bgfx.SpriteData) (dataPtr : List Sdl3Gpu.SpriteInstance)
    (vertices : List SdlRenderer.Vertex) (tdata : List BgfxSimple.Vertex)
    (hd : data.length = bunnies.length) (hp : dataPtr.length = bunnies.length)
    (hv : vertices.length = bunnies.length * 6) (ht : tdata.length = bunnies.length * 4) :
    (instanceSlots bunnies.length = (List.range bunnies.length).map (fun i : Nat => (i : Int)) ∧
      (instanceSlots bunnies.length).Nodup ∧
      (∀ k : Int, k ∈ instanceSlots bunnies.length ↔ 0 ≤ k ∧ k < (data.length : Int)) ∧
      (∀ k : Int, k ∈ instanceSlots bunnies.length ↔ 0 ≤ k ∧ k < (dataPtr.length : Int)) ∧
      (Bgfx.encodeInstances w h bunnies bunnies.length data).isSome ∧
      (Sdl3Gpu.encodeInstances bunnyWidth bunnyHeight bunnies bunnies.length
        dataPtr).isSome) ∧
    (SdlRenderer.frameSlots bunnies
        = (((bunnies.length * 6 : Nat) : Int) - 1,
            (List.range (bunnies.length * 6)).map (fun j : Nat => (j : Int))) ∧
      (SdlRenderer.frameSlots bunnies).2.Nodup ∧
      (∀ k : Int, k ∈ (SdlRenderer.frameSlots bunnies).2
        ↔ 0 ≤ k ∧ k < (vertices.length : Int)) ∧
      (∃ bs out, SdlRenderer.frame tw th dt bunnies vertices
        = some (bs, ((SdlRenderer.frameSlots bunnies).1, out)))) ∧
    (BgfxSimple.encodeSlots bunnies.length
        = (((bunnies.length * 4 : Nat) : Int) - 1,
            (List.range (bunnies.length * 4)).map (fun j : Nat => (j : Int))) ∧
      (BgfxSimple.encodeSlots bunnies.length).2.Nodup ∧
      (∀ k : Int, k ∈ (BgfxSimple.encodeSlots bunnies.length).2
        ↔ 0 ≤ k ∧ k < (tdata.length : Int)) ∧
      (∃ bs out, BgfxSimple.frame w2 h2 dt bunnies bunnies.length tdata
        = some (bs, ((BgfxSimple.encodeSlots bunnies.length).1, out)))) := by
  refine ⟨⟨instanceSlots_eq _, ?_, ?_, ?_, ?_, ?_⟩, ⟨SdlRenderer.frameSlots_eq _, ?_, ?_, ?_⟩,
    ⟨BgfxSimple.encodeSlots_eq _, ?_, ?_, ?_⟩⟩
  · rw [instanceSlots_eq]; exact range_slots_nodup _
  · intro k; rw [instanceSlots_eq, hd]; exact mem_range_slots _ k
  · intro k; rw [instanceSlots_eq, hp]; exact mem_range_slots _ k
  · exact (instanceLoop_isSome_iff _ bunnies data _ le_rfl).mpr (by omega)
  · exact (instanceLoop_isSome_iff _ bunnies dataPtr _ le_rfl).mpr (by omega)
  · rw [SdlRenderer.frameSlots_eq]; exact range_slots_nodup _
  · intro k; rw [SdlRenderer.frameSlots_eq, hv]; exact mem_range_slots _ k
  · rw [SdlRenderer.frameSlots_eq]
    exact ⟨_, _, SdlRenderer.frame_exact tw th dt bunnies vertices hv⟩
  · rw [BgfxSimple.encodeSlots_eq]; exact range_slots_nodup _
  · intro k; rw [BgfxSimple.encodeSlots_eq, ht]; exact mem_range_slots _ k
  · rw [BgfxSimple.encodeSlots_eq]
    exact ⟨_, _, BgfxSimple.simpleFrame_exact w2 h2 dt bunnies tdata ht⟩

/-- Witness of C12: a store of two entities with targets of 2 records, 12
vertices and 8 vertices; the slots addressed are `0, 1`, `0 .. 11`, `0 .. 7`. -/
theorem C12_each_slot_once_witness :
    instanceSlots 2 = [0, 1] ∧
    SdlRenderer.frameSlots [⟨400, 300, 1, 1⟩, ⟨10, 20, 0, 1⟩]
      = (11, [0, 1, 2, 3, 4, 5, 6, 7, 8, 9, 10, 11]) ∧
    BgfxSimple.encodeSlots 2 = (7, [0, 1, 2, 3, 4, 5, 6, 7]) := by
  have h := C12_each_slot_once 26 37 26 37 26 37 26 37 10 [⟨400, 300, 1, 1⟩, ⟨10, 20, 0, 1⟩]
    [Bgfx.staleRecord, Bgfx.staleRecord] [Sdl3Gpu.staleRecord, Sdl3Gpu.staleRecord]
    (List.replicate 12 SdlRenderer.staleVertex) (List.replicate 8 BgfxSimple.staleVertex)
    (by decide) (by decide) (by decide) (by decide)
  exact ⟨h.1.1, h.2.1.1, h.2.2.1⟩

/-! ## The frame clock -/

/-- C15 (as stated) fails at exactly 1000 ms, and up to 32 ns later: from a clock
just measured at time 0 (counter 0), a first frame at 1000000000 ns has "at
least 1000 ms" elapsed, yet nothing is reported: the counter goes to 1 and the
last-measurement time stays 0; the same at 1000000032 ns, where more than
1000 ms have elapsed but the `float` quotient is exactly 1000. -/
theorem C15_counterexample :
    ((1000 : Int) * 1000000 ≤ 1000000000 - (⟨0, 0, 0⟩ : FrameClock).lastFpsMeasurement) ∧
    getMillisElapsed 1000000000 0 = 1000 ∧
    clockFrame 1000000000 ⟨0, 0, 0⟩ = (none, ⟨1000000000, 0, 1⟩) ∧
    getMillisElapsed 1000000032 0 = 1000 ∧
    clockFrame 1000000032 ⟨0, 0, 0⟩ = (none, ⟨1000000032, 0, 1⟩) := by
  have h0 : getMillisElapsed 1000000000 0 ≤ 1000 :=
    (getMillisElapsed_le_iff _ _).mpr (by norm_num)
  have h1 : getMillisElapsed 1000000032 0 ≤ 1000 :=
    (getMillisElapsed_le_iff _ _).mpr (by norm_num)
  have e0 : getMillisElapsed 1000000000 0 = 1000 := by
    unfold getMillisElapsed NANOS_IN_MILLIS
    rw [show (((1000000000 - 0 : Int)) : ℚ) = 1000000000 by norm_num,
      F32.round_eq_of_near 1000000000 6 15625000 (by norm_num) (by norm_num) (by norm_num)
        (by norm_num) (by norm_num),
      show ((15625000 : Int) : ℚ) * 2 ^ (6 : Int) / 1000000 = 1000 by norm_num, F32.round_1000]
  have e1 : getMillisElapsed 1000000032 0 = 1000 := by
    unfold getMillisElapsed NANOS_IN_MILLIS
    rw [show (((1000000032 - 0 : Int)) : ℚ) = 1000000032 by norm_num, F32.round_1000000032,
      show (1000000000 : ℚ) / 1000000 = 1000 by norm_num, F32.round_1000]
  refine ⟨by decide, e0, ?_, e1, ?_⟩
  · rw [clockFrame_quiet 1000000000 ⟨0, 0, 0⟩ h0]
    norm_num
  · rw [clockFrame_quiet 1000000032 ⟨0, 0, 0⟩ h1]
    norm_num

/-- C15 (amended): if exactly `F` frames have occurred since the last FPS
measurement (the counter was 0 after it; `F = pre.length + 1`), and at the
`F`-th of them at least 1000000033 ns have elapsed since that measurement while
at each earlier one at most 1000000032 ns had (the elapsed times that
`getMillisElapsed`, computed in `float`, makes greater than 1000 and not greater
than 1000), then the `F`-th frame reports the value `F`, resets the frame
counter to 0 and sets the last-measurement time to the current time. The time
points are those of a run: each later than the one before. -/
theorem C15_report_after_F_frames (c : FrameClock) (pre : List Int) (now : Int)
    (hreset : c.framesInLastSecond = 0) (htick : Ticking c (pre ++ [now]))
    (hearly : ∀ t ∈ pre, t - c.lastFpsMeasurement ≤ 1000000032)
    (hlate : 1000000033 ≤ now - c.lastFpsMeasurement) :
    (∀ t ∈ pre, ¬ getMillisElapsed t c.lastFpsMeasurement > 1000) ∧
    getMillisElapsed now c.lastFpsMeasurement > 1000 ∧
    clockFrame now (runClock pre c)
      = (some (pre.length + 1),
          { lastTick := now, lastFpsMeasurement := now, framesInLastSecond := 0 }) := by
  obtain ⟨hl, hf, hF⟩ := runClock_early c pre [now] hreset htick hearly
  have hgt := (getMillisElapsed_gt_iff now c.lastFpsMeasurement).mpr hlate
  refine ⟨fun t ht => not_lt.mpr ((getMillisElapsed_le_iff t _).mpr (hearly t ht)), hgt, ?_⟩
  rw [clockFrame_report now (runClock pre c) (by rw [hl]; exact hgt), hf,
    Nat.mod_eq_of_lt hF]

/-- Witness of C15 (amended): frames at 400 ms, 800 ms and 1200 ms after a
measurement at time 0; the third frame reports 3. -/
theorem C15_report_after_F_frames_witness :
    clockFrame 1200000000 (runClock [400000000, 800000000] ⟨0, 0, 0⟩)
      = (some 3, { lastTick := 1200000000, lastFpsMeasurement := 1200000000,
                   framesInLastSecond := 0 }) :=
  (C15_report_after_F_frames ⟨0, 0, 0⟩ [400000000, 800000000] 1200000000 rfl
    (by norm_num [Ticking])
    (by
      intro t ht
      simp only [List.mem_cons, List.mem_singleton, List.mem_nil_iff, or_false] at ht
      rcases ht with rfl | rfl <;> norm_num)
    (by norm_num)).2.2

/-- C16: on every frame of a run at which less than 1000 ms (1000000000 ns) have
elapsed since the last FPS measurement, the FPS sampler reports nothing, the
frame counter grows by exactly one (the 32-bit counter does not wrap) and the
last-measurement time is unchanged. The frame is the one at `now` that follows
the frames `pre` of a run started with the counter at 0, the time points of
the run each later than the one before. -/
theorem C16_quiet_frame (c : FrameClock) (pre : List Int) (now : Int)
    (hreset : c.framesInLastSecond = 0) (htick : Ticking c (pre ++ [now]))
    (h : now - (runClock pre c).lastFpsMeasurement < 1000000000) :
    (clockFrame now (runClock pre c)).1 = none ∧
    (clockFrame now (runClock pre c)).2.framesInLastSecond
      = (runClock pre c).framesInLastSecond + 1 ∧
    (clockFrame now (runClock pre c)).2.lastFpsMeasurement
      = (runClock pre c).lastFpsMeasurement := by
  obtain ⟨hinv, ht⟩ := ticking_run pre [now] c (clockInv_of_reset c hreset) htick
  obtain ⟨hlt, -, -⟩ := clockInv_step now _ hinv (ticking_cons now [] _ hinv ht).1
  rw [clockFrame_quiet now (runClock pre c)
    ((getMillisElapsed_le_iff _ _).mpr (by omega))]
  exact ⟨rfl, Nat.mod_eq_of_lt hlt, rfl⟩

/-- Witness of C16: the frames at 16 ms and 32 ms of a run started at time 0;
the second one reports nothing and takes the counter from 1 to 2. -/
theorem C16_quiet_frame_witness :
    (clockFrame 32000000 (runClock [16000000] ⟨0, 0, 0⟩)).1 = none ∧
    (clockFrame 32000000 (runClock [16000000] ⟨0, 0, 0⟩)).2.framesInLastSecond
      = (runClock [16000000] ⟨0, 0, 0⟩).framesInLastSecond + 1 ∧
    (clockFrame 32000000 (runClock [16000000] ⟨0, 0, 0⟩)).2.lastFpsMeasurement
      = (runClock [16000000] ⟨0, 0, 0⟩).lastFpsMeasurement :=
  C16_quiet_frame ⟨0, 0, 0⟩ [16000000] 32000000 rfl (by norm_num [Ticking])
    (by
      rw [(runClock_early ⟨0, 0, 0⟩ [16000000] [32000000] rfl (by norm_num [Ticking])
        (by simp)).1]
      norm_num)

/-! ## The order of the stages -/

/-- C17 (as stated) fails. In the bgfx frame (one entity) the write buffer is
acquired before the entity is encoded, so "encoded, then buffer acquired" does
not occur. In the SDL renderer frame (two entities) entity 0 is encoded before
entity 1 is simulated, and no buffer is acquired at all. In the SDL2 gpu frame
the draw of entity 0 is requested before entity 1 is simulated. -/
theorem C17_counterexample :
    (∃ s1, Bgfx.frameLog 26 37 1 (16000000, [Bgfx.staleRecord])
          ⟨none, ⟨0, 0, 0⟩, [⟨400, 300, 1, 1⟩], []⟩
        = some ([Stage.timeSampled, Stage.simulated 0, Stage.bufferAcquired, Stage.encoded 0,
            Stage.submitted], s1)) ∧
    ¬ List.Sublist [Stage.encoded 0, Stage.bufferAcquired]
        [Stage.timeSampled, Stage.simulated 0, Stage.bufferAcquired, Stage.encoded 0,
          Stage.submitted] ∧
    (∃ s2, SdlRenderer.frameLog 26 37 16000000
          ⟨none, ⟨0, 0, 0⟩, [⟨400, 300, 1, 1⟩, ⟨10, 20, 0, 1⟩],
            (-1, List.replicate 12 SdlRenderer.staleVertex)⟩
        = some ([Stage.timeSampled, Stage.simulated 0, Stage.encoded 0, Stage.simulated 1,
            Stage.encoded 1, Stage.submitted], s2)) ∧
    ¬ List.Sublist [Stage.simulated 1, Stage.encoded 0]
        [Stage.timeSampled, Stage.simulated 0, Stage.encoded 0, Stage.simulated 1,
          Stage.encoded 1, Stage.submitted] ∧
    Stage.bufferAcquired ∉
        [Stage.timeSampled, Stage.simulated 0, Stage.encoded 0, Stage.simulated 1,
          Stage.encoded 1, Stage.submitted] ∧
    (∃ s3, Sdl2Gpu.frameLog 16000000
          ⟨none, ⟨0, 0, 0⟩, [⟨400, 300, 1, 1⟩, ⟨10, 20, 0, 1⟩], []⟩
        = some ([Stage.timeSampled, Stage.simulated 0, Stage.drawRequested 0,
            Stage.simulated 1, Stage.drawRequested 1, Stage.flipped], s3)) ∧
    ¬ List.Sublist [Stage.simulated 1, Stage.drawRequested 0]
        [Stage.timeSampled, Stage.simulated 0, Stage.drawRequested 0,
          Stage.simulated 1, Stage.drawRequested 1, Stage.flipped] := by
  refine ⟨?_, by decide, ?_, by decide, by decide, ?_, by decide⟩
  · obtain ⟨out, -, h⟩ := Bgfx.bgfxFrameLog_spec 26 37 (16000000, [Bgfx.staleRecord])
      ⟨none, ⟨0, 0, 0⟩, [⟨400, 300, 1, 1⟩], []⟩ (by decide)
    exact ⟨_, h⟩
  · obtain ⟨out, -, h⟩ := SdlRenderer.rendererFrameLog_spec 26 37 16000000
      ⟨none, ⟨0, 0, 0⟩, [⟨400, 300, 1, 1⟩, ⟨10, 20, 0, 1⟩],
        (-1, List.replicate 12 SdlRenderer.staleVertex)⟩ (by decide)
    exact ⟨_, h⟩
  · exact ⟨_, Sdl2Gpu.blitFrameLog_spec 16000000
      ⟨none, ⟨0, 0, 0⟩, [⟨400, 300, 1, 1⟩, ⟨10, 20, 0, 1⟩], []⟩⟩

/-- C17 (amended): in every frame of the bgfx, SDL3 GPU and bgfx_simple backends
the stages run strictly in the order: time sampled, all entities simulated,
write buffer acquired, batch encoded, draw submitted; in every frame of the SDL
renderer backend the time is sampled, then each entity in turn is simulated and
at once encoded, without any buffer acquisition, and then the draw is
submitted; in every frame of the SDL2 gpu backend the time is sampled, then
each entity in turn is simulated and at once its draw is requested
(`GPU_Blit`), and `GPU_Flip` ends the frame; the store that a frame leaves is
the update of the store it found. In every backend the frames follow one
another: the log of the iterations `pre ++ [i]` of the game loop is the log of
the iterations `pre` followed by the whole log of iteration `i`, so no stage of
a frame comes before the last stage of the frame before it. The targets have
room for the store, as those of the source have. -/
theorem C17_stage_order (w h : ℚ) (bunnyWidth bunnyHeight w2 h2 : Nat) (tw th : Int)
    (inB : Int × List Bgfx.SpriteData) (sB : FrameState (List Bgfx.SpriteData))
    (preB : List (Int × List Bgfx.SpriteData))
    (inG : Int × List Sdl3Gpu.SpriteInstance) (sG : FrameState (List Sdl3Gpu.SpriteInstance))
    (preG : List (Int × List Sdl3Gpu.SpriteInstance))
    (inS : Int × List BgfxSimple.Vertex) (sS : FrameState (Int × List BgfxSimple.Vertex))
    (preS : List (Int × List BgfxSimple.Vertex))
    (nowR : Int) (sR : FrameState (Int × List SdlRenderer.Vertex)) (preR : List Int)
    (now2 : Int) (s2 : FrameState (List (ℚ × ℚ))) (pre2 : List Int) (n : Nat)
    (hB : sB.bunnies.length ≤ inB.2.length) (hG : sG.bunnies.length ≤ inG.2.length)
    (hS : inS.2.length = sS.bunnies.length * 4)
    (hR : sR.target.2.length = sR.bunnies.length * 6) :
    ((∃ log s1, Bgfx.frameLog w h sB.bunnies.length inB sB = some (log, s1) ∧
        TwoPassOrder log sB.bunnies.length ∧
        s1.bunnies = updateBunnies (getMillisElapsed inB.1 sB.clock.lastTick) sB.bunnies) ∧
      (∃ log s1, Sdl3Gpu.frameLog bunnyWidth bunnyHeight sG.bunnies.length inG sG
          = some (log, s1) ∧
        TwoPassOrder log sG.bunnies.length ∧
        s1.bunnies = updateBunnies (getMillisElapsed inG.1 sG.clock.lastTick) sG.bunnies) ∧
      (∃ log s1, BgfxSimple.frameLog w2 h2 sS.bunnies.length inS sS = some (log, s1) ∧
        TwoPassOrder log sS.bunnies.length ∧
        s1.bunnies = updateBunnies (getMillisElapsed inS.1 sS.clock.lastTick) sS.bunnies)) ∧
    ((∃ log s1, SdlRenderer.frameLog tw th nowR sR = some (log, s1) ∧
        PairedOrder Stage.encoded Stage.submitted log sR.bunnies.length ∧
        s1.bunnies = updateBunnies (getMillisElapsed nowR sR.clock.lastTick) sR.bunnies) ∧
      (∃ log s1, Sdl2Gpu.frameLog now2 s2 = some (log, s1) ∧
        PairedOrder Stage.drawRequested Stage.flipped log s2.bunnies.length ∧
        s1.bunnies = updateBunnies (getMillisElapsed now2 s2.clock.lastTick) s2.bunnies)) ∧
    (runFrames (Bgfx.frameLog w h n) (preB ++ [inB]) sB
        = (runFrames (Bgfx.frameLog w h n) preB sB).bind (fun q =>
            (Bgfx.frameLog w h n inB q.2).map (fun r => (q.1 ++ r.1, r.2))) ∧
      runFrames (Sdl3Gpu.frameLog bunnyWidth bunnyHeight n) (preG ++ [inG]) sG
        = (runFrames (Sdl3Gpu.frameLog bunnyWidth bunnyHeight n) preG sG).bind (fun q =>
            (Sdl3Gpu.frameLog bunnyWidth bunnyHeight n inG q.2).map
              (fun r => (q.1 ++ r.1, r.2))) ∧
      runFrames (BgfxSimple.frameLog w2 h2 n) (preS ++ [inS]) sS
        = (runFrames (BgfxSimple.frameLog w2 h2 n) preS sS).bind (fun q =>
            (BgfxSimple.frameLog w2 h2 n inS q.2).map (fun r => (q.1 ++ r.1, r.2))) ∧
      runFrames (SdlRenderer.frameLog tw th) (preR ++ [nowR]) sR
        = (runFrames (SdlRenderer.frameLog tw th) preR sR).bind (fun q =>
            (SdlRenderer.frameLog tw th nowR q.2).map (fun r => (q.1 ++ r.1, r.2))) ∧
      runFrames Sdl2Gpu.frameLog (pre2 ++ [now2]) s2
        = (runFrames Sdl2Gpu.frameLog pre2 s2).bind (fun q =>
            (Sdl2Gpu.frameLog now2 q.2).map (fun r => (q.1 ++ r.1, r.2)))) := by
  refine ⟨⟨?_, ?_, ?_⟩, ⟨?_, ?_⟩, runFrames_append _ _ _ _, runFrames_append _ _ _ _,
    runFrames_append _ _ _ _, runFrames_append _ _ _ _, runFrames_append _ _ _ _⟩
  · obtain ⟨out, -, hf⟩ := Bgfx.bgfxFrameLog_spec w h inB sB hB
    exact ⟨_, _, hf, twoPassLog_order _, rfl⟩
  · obtain ⟨out, -, hf⟩ := Sdl3Gpu.gpuFrameLog_spec bunnyWidth bunnyHeight inG sG hG
    exact ⟨_, _, hf, twoPassLog_order _, rfl⟩
  · obtain ⟨out, ho, hf⟩ := BgfxSimple.simpleFrameLog_spec w2 h2 inS sS hS
    refine ⟨_, _, hf, twoPassLog_order _, ?_⟩
    rw [BgfxSimple.simpleFrame_exact w2 h2 _ sS.bunnies inS.2 hS] at ho
    cases ho
    rfl
  · obtain ⟨out, ho, hf⟩ := SdlRenderer.rendererFrameLog_spec tw th nowR sR hR
    refine ⟨_, _, hf, pairedLog_order _ _ _ (fun _ h => by cases h) (fun h => by cases h), ?_⟩
    rw [SdlRenderer.frame_exact tw th _ sR.bunnies sR.target.2 hR] at ho
    cases ho
    rfl
  · exact ⟨_, _, Sdl2Gpu.blitFrameLog_spec now2 s2,
      pairedLog_order _ _ _ (fun _ h => by cases h) (fun h => by cases h), rfl⟩

/-- Witness of C17 (amended): one frame at 16 ms over a store of two entities,
with a buffer of 2 records in the bgfx backend and the array of 12 vertices in
the SDL renderer backend. -/
theorem C17_stage_order_witness :
    (∃ log s1, Bgfx.frameLog 26 37 2 (16000000, [Bgfx.staleRecord, Bgfx.staleRecord])
          ⟨none, ⟨0, 0, 0⟩, [⟨400, 300, 1, 1⟩, ⟨10, 20, 0, 1⟩], []⟩ = some (log, s1) ∧
        TwoPassOrder log 2 ∧
        s1.bunnies = updateBunnies (getMillisElapsed 16000000 0)
          [⟨400, 300, 1, 1⟩, ⟨10, 20, 0, 1⟩]) ∧
    (∃ log s1, SdlRenderer.frameLog 26 37 16000000
          ⟨none, ⟨0, 0, 0⟩, [⟨400, 300, 1, 1⟩, ⟨10, 20, 0, 1⟩],
            (-1, List.replicate 12 SdlRenderer.staleVertex)⟩ = some (log, s1) ∧
        PairedOrder Stage.encoded Stage.submitted log 2 ∧
        s1.bunnies = updateBunnies (getMillisElapsed 16000000 0)
          [⟨400, 300, 1, 1⟩, ⟨10, 20, 0, 1⟩]) := by
  have h := C17_stage_order 26 37 26 37 26 37 26 37
    (16000000, [Bgfx.staleRecord, Bgfx.staleRecord])
    ⟨none, ⟨0, 0, 0⟩, [⟨400, 300, 1, 1⟩, ⟨10, 20, 0, 1⟩], []⟩ []
    (16000000, [Sdl3Gpu.staleRecord, Sdl3Gpu.staleRecord])
    ⟨none, ⟨0, 0, 0⟩, [⟨400, 300, 1, 1⟩, ⟨10, 20, 0, 1⟩], []⟩ []
    (16000000, List.replicate 8 BgfxSimple.staleVertex)
    ⟨none, ⟨0, 0, 0⟩, [⟨400, 300, 1, 1⟩, ⟨10, 20, 0, 1⟩], (-1, [])⟩ []
    16000000
    ⟨none, ⟨0, 0, 0⟩, [⟨400, 300, 1, 1⟩, ⟨10, 20, 0, 1⟩],
      (-1, List.replicate 12 SdlRenderer.staleVertex)⟩ []
    16000000 ⟨none, ⟨0, 0, 0⟩, [⟨400, 300, 1, 1⟩, ⟨10, 20, 0, 1⟩], []⟩ [] 2
    (by decide) (by decide) (by decide) (by decide)
  exact ⟨h.1.1, h.2.1.1⟩

/-! ## The camera matrix -/

/-- C23: for `left ≠ right`, `bottom ≠ top` and `zNear ≠ zFar`, the matrix `M`
returned by `Matrix4x4_CreateOrthographicOffCenter` sends, in the product row
vector times `M`, `(left, bottom, z, 1)` to `x = -1, y = -1` and
`(right, top, z, 1)` to `x = 1, y = 1`, every `(x, y, z, 1)` to depth
`(z + zNear) / (zNear - zFar)` and `w = 1`; and the camera of `main`, built with
`(0, 800, 600, 0, 0, -1)`, sends pixel `(0, 0)` to `(-1, 1)`, pixel `(800, 600)`
to `(1, -1)`, pixel `(400, 300)` to `(0, 0)`, and `z = 0` to depth 0. -/
theorem C23_orthographic (left right bottom top zNear zFar x y z : ℚ)
    (hlr : left ≠ right) (hbt : bottom ≠ top) (hz : zNear ≠ zFar) :
    (Sdl3Gpu.Matrix4x4.rowTimes (left, bottom, z, 1)
        (Sdl3Gpu.Matrix4x4_CreateOrthographicOffCenter left right bottom top zNear zFar)
      = (-1, -1, (z + zNear) / (zNear - zFar), 1) ∧
     Sdl3Gpu.Matrix4x4.rowTimes (right, top, z, 1)
        (Sdl3Gpu.Matrix4x4_CreateOrthographicOffCenter left right bottom top zNear zFar)
      = (1, 1, (z + zNear) / (zNear - zFar), 1) ∧
     (Sdl3Gpu.Matrix4x4.rowTimes (x, y, z, 1)
        (Sdl3Gpu.Matrix4x4_CreateOrthographicOffCenter left right bottom top zNear
          zFar)).2.2
      = ((z + zNear) / (zNear - zFar), 1)) ∧
    (Sdl3Gpu.Matrix4x4.rowTimes (0, 0, 0, 1) Sdl3Gpu.cameraMatrix = (-1, 1, 0, 1) ∧
     Sdl3Gpu.Matrix4x4.rowTimes (800, 600, 0, 1) Sdl3Gpu.cameraMatrix = (1, -1, 0, 1) ∧
     Sdl3Gpu.Matrix4x4.rowTimes (400, 300, 0, 1) Sdl3Gpu.cameraMatrix = (0, 0, 0, 1) ∧
     (Sdl3Gpu.Matrix4x4.rowTimes (x, y, 0, 1) Sdl3Gpu.cameraMatrix).2.2.1 = 0) := by
  have h1 : right - left ≠ 0 := sub_ne_zero.mpr (Ne.symm hlr)
  have h2 : left - right ≠ 0 := sub_ne_zero.mpr hlr
  have h3 : top - bottom ≠ 0 := sub_ne_zero.mpr (Ne.symm hbt)
  have h4 : bottom - top ≠ 0 := sub_ne_zero.mpr hbt
  have h5 : zNear - zFar ≠ 0 := sub_ne_zero.mpr hz
  have hx0 : left * (2 / (right - left)) + (left + right) / (left - right) = -1 := by
    field_simp
    ring
  have hx1 : right * (2 / (right - left)) + (left + right) / (left - right) = 1 := by
    field_simp
    ring
  have hy0 : bottom * (2 / (top - bottom)) + (top + bottom) / (bottom - top) = -1 := by
    field_simp
    ring
  have hy1 : top * (2 / (top - bottom)) + (top + bottom) / (bottom - top) = 1 := by
    field_simp
    ring
  have hd : z * (1 / (zNear - zFar)) + zNear / (zNear - zFar)
      = (z + zNear) / (zNear - zFar) := by
    field_simp
  refine ⟨⟨?_, ?_, ?_⟩, ?_, ?_, ?_, ?_⟩
  · rw [Sdl3Gpu.rowTimes_ortho, hx0, hy0, hd]
  · rw [Sdl3Gpu.rowTimes_ortho, hx1, hy1, hd]
  · rw [Sdl3Gpu.rowTimes_ortho, hd]
  · rw [Sdl3Gpu.cameraMatrix, Sdl3Gpu.rowTimes_ortho]
    norm_num [WINDOW_WIDTH, WINDOW_HEIGHT]
  · rw [Sdl3Gpu.cameraMatrix, Sdl3Gpu.rowTimes_ortho]
    norm_num [WINDOW_WIDTH, WINDOW_HEIGHT]
  · rw [Sdl3Gpu.cameraMatrix, Sdl3Gpu.rowTimes_ortho]
    norm_num [WINDOW_WIDTH, WINDOW_HEIGHT]
  · rw [Sdl3Gpu.cameraMatrix, Sdl3Gpu.rowTimes_ortho]
    norm_num

/-- Witness of C23: the parameters of the camera of `main`,
`(0, 800, 600, 0, 0, -1)`, at the point `(400, 300, 1/2)`. -/
theorem C23_orthographic_witness :
    Sdl3Gpu.Matrix4x4.rowTimes (0, 600, 1 / 2, 1)
        (Sdl3Gpu.Matrix4x4_CreateOrthographicOffCenter 0 800 600 0 0 (-1))
      = (-1, -1, (1 / 2 + 0) / (0 - (-1)), 1) ∧
    Sdl3Gpu.Matrix4x4.rowTimes (800, 0, 1 / 2, 1)
        (Sdl3Gpu.Matrix4x4_CreateOrthographicOffCenter 0 800 600 0 0 (-1))
      = (1, 1, (1 / 2 + 0) / (0 - (-1)), 1) := by
  have h := C23_orthographic 0 800 600 0 0 (-1) 400 300 (1 / 2) (by norm_num) (by norm_num)
    (by norm_num)
  exact ⟨h.1.1, h.1.2.1⟩

/-! ## The geometry of a sprite -/

/-- C22 (as stated) fails for a texture one pixel wide: `hw = 1 div 2 = 0`, so
the left and the right side of the rectangle coincide, and vertex 2 of the
entity at `(400, 300)` has x-coordinate `400 = x - hw` but `u = 1`, not 0. -/
theorem C22_counterexample :
    (1 : Int).tdiv 2 = 0 ∧
    (SdlRenderer.quad ((1 : Int).tdiv 2) ((37 : Int).tdiv 2) 400 300)[2]?
      = some ⟨400, 282, 1, 0⟩ ∧
    ¬ (∀ p ∈ SdlRenderer.quad ((1 : Int).tdiv 2) ((37 : Int).tdiv 2) 400 300,
        p.x = 400 - (((1 : Int).tdiv 2 : Int) : ℚ) → p.u = 0) := by
  have hq : SdlRenderer.quad ((1 : Int).tdiv 2) ((37 : Int).tdiv 2) 400 300
      = [⟨400, 282, 0, 0⟩, ⟨400, 318, 0, 1⟩, ⟨400, 282, 1, 0⟩, ⟨400, 282, 1, 0⟩,
         ⟨400, 318, 0, 1⟩, ⟨400, 318, 1, 1⟩] := by
    have h1 : (1 : Int).tdiv 2 = 0 := by decide
    have h2 : (37 : Int).tdiv 2 = 18 := by decide
    rw [h1, h2]
    norm_num [SdlRenderer.quad]
  refine ⟨by decide, by rw [hq]; rfl, ?_⟩
  intro h
  have h2 := h ⟨400, 282, 1, 0⟩ (by rw [hq]; simp)
    (by rw [show (1 : Int).tdiv 2 = 0 by decide]; norm_num)
  norm_num at h2

/-- C22 (amended): for every entity at updated position `(x, y)` and texture size
`(w, h)`, with `hw = w div 2` and `hh = h div 2`, each of the 6 vertices the SDL
renderer encoder emits is a corner of the rectangle
`[x - hw, x + hw] x [y - hh, y + hh]`; a vertex with `u = 0` has x-coordinate
`x - hw` and one with `u = 1` has `x + hw`, a vertex with `v = 0` has
y-coordinate `y - hh` and one with `v = 1` has `y + hh`, and every vertex has
`u` and `v` in `{0, 1}`; when `hw ≠ 0` a vertex has `u = 0` when its
x-coordinate is `x - hw` and `u = 1` when it is `x + hw`, and when `hh ≠ 0`
`v = 0` when its y-coordinate is `y - hh` and `v = 1` when it is `y + hh`; all
four corners occur, and the two triangles (vertices 0..2 and 3..5) share the
edge between `(x - hw, y + hh)` and `(x + hw, y - hh)`. -/
theorem C22_quad_geometry (w h : Int) (x y : ℚ) :
    (∀ p ∈ SdlRenderer.quad (w.tdiv 2) (h.tdiv 2) x y,
      (p.u = 0 ∧ p.x = x - (w.tdiv 2 : Int) ∨ p.u = 1 ∧ p.x = x + (w.tdiv 2 : Int)) ∧
      (p.v = 0 ∧ p.y = y - (h.tdiv 2 : Int) ∨ p.v = 1 ∧ p.y = y + (h.tdiv 2 : Int))) ∧
    (w.tdiv 2 ≠ 0 → ∀ p ∈ SdlRenderer.quad (w.tdiv 2) (h.tdiv 2) x y,
      (p.x = x - (w.tdiv 2 : Int) → p.u = 0) ∧ (p.x = x + (w.tdiv 2 : Int) → p.u = 1)) ∧
    (h.tdiv 2 ≠ 0 → ∀ p ∈ SdlRenderer.quad (w.tdiv 2) (h.tdiv 2) x y,
      (p.y = y - (h.tdiv 2 : Int) → p.v = 0) ∧ (p.y = y + (h.tdiv 2 : Int) → p.v = 1)) ∧
    ((x - (w.tdiv 2 : Int), y - (h.tdiv 2 : Int))
        ∈ (SdlRenderer.quad (w.tdiv 2) (h.tdiv 2) x y).map SdlRenderer.Vertex.pos ∧
      (x - (w.tdiv 2 : Int), y + (h.tdiv 2 : Int))
        ∈ (SdlRenderer.quad (w.tdiv 2) (h.tdiv 2) x y).map SdlRenderer.Vertex.pos ∧
      (x + (w.tdiv 2 : Int), y - (h.tdiv 2 : Int))
        ∈ (SdlRenderer.quad (w.tdiv 2) (h.tdiv 2) x y).map SdlRenderer.Vertex.pos ∧
      (x + (w.tdiv 2 : Int), y + (h.tdiv 2 : Int))
        ∈ (SdlRenderer.quad (w.tdiv 2) (h.tdiv 2) x y).map SdlRenderer.Vertex.pos) ∧
    (((SdlRenderer.quad (w.tdiv 2) (h.tdiv 2) x y).take 3).map SdlRenderer.Vertex.pos
        = [(x - (w.tdiv 2 : Int), y - (h.tdiv 2 : Int)),
           (x - (w.tdiv 2 : Int), y + (h.tdiv 2 : Int)),
           (x + (w.tdiv 2 : Int), y - (h.tdiv 2 : Int))] ∧
      ((SdlRenderer.quad (w.tdiv 2) (h.tdiv 2) x y).drop 3).map SdlRenderer.Vertex.pos
        = [(x + (w.tdiv 2 : Int), y - (h.tdiv 2 : Int)),
           (x - (w.tdiv 2 : Int), y + (h.tdiv 2 : Int)),
           (x + (w.tdiv 2 : Int), y + (h.tdiv 2 : Int))]) := by
  refine ⟨fun p hp => SdlRenderer.mem_quad _ _ x y p hp, ?_, ?_, ?_, ⟨rfl, rfl⟩⟩
  · intro hne p hp
    have hq : ((w.tdiv 2 : Int) : ℚ) ≠ 0 := by exact_mod_cast hne
    rcases (SdlRenderer.mem_quad _ _ x y p hp).1 with ⟨hu, hx⟩ | ⟨hu, hx⟩
    · refine ⟨fun _ => hu, fun h2 => ?_⟩
      exfalso; apply hq; linarith
    · refine ⟨fun h2 => ?_, fun _ => hu⟩
      exfalso; apply hq; linarith
  · intro hne p hp
    have hq : ((h.tdiv 2 : Int) : ℚ) ≠ 0 := by exact_mod_cast hne
    rcases (SdlRenderer.mem_quad _ _ x y p hp).2 with ⟨hv, hy⟩ | ⟨hv, hy⟩
    · refine ⟨fun _ => hv, fun h2 => ?_⟩
      exfalso; apply hq; linarith
    · refine ⟨fun h2 => ?_, fun _ => hv⟩
      exfalso; apply hq; linarith
  · simp [SdlRenderer.quad, SdlRenderer.Vertex.pos]

/-- Witness of C22 (amended): a 26 x 37 texture (`hw = 13`, `hh = 18`) and the
entity at `(400, 300)`; the vertex `(413, 282)`, on the right and the lower
side, has `u = 1` and `v = 0`. -/
theorem C22_quad_geometry_witness :
    (26 : Int).tdiv 2 ≠ 0 ∧ (37 : Int).tdiv 2 ≠ 0 ∧
    (⟨413, 282, 1, 0⟩ : SdlRenderer.Vertex)
      ∈ SdlRenderer.quad ((26 : Int).tdiv 2) ((37 : Int).tdiv 2) 400 300 ∧
    (⟨413, 282, 1, 0⟩ : SdlRenderer.Vertex).u = 1 ∧
    (⟨413, 282, 1, 0⟩ : SdlRenderer.Vertex).v = 0 := by
  have h13 : (26 : Int).tdiv 2 = 13 := by decide
  have h18 : (37 : Int).tdiv 2 = 18 := by decide
  have hmem : (⟨413, 282, 1, 0⟩ : SdlRenderer.Vertex)
      ∈ SdlRenderer.quad ((26 : Int).tdiv 2) ((37 : Int).tdiv 2) 400 300 := by
    rw [h13, h18]
    norm_num [SdlRenderer.quad]
  exact ⟨by decide, by decide, hmem,
    ((C22_quad_geometry 26 37 400 300).2.1 (by decide) _ hmem).2
      (by rw [h13]; norm_num),
    ((C22_quad_geometry 26 37 400 300).2.2.1 (by decide) _ hmem).1
      (by rw [h18]; norm_num)⟩

/-! ## The index buffer of the bgfx_simple backend -/

/-- C21: for `n = NUM_BUNNIES` entities (with `6n` in the range of `int`, as the
declaration `indices[NUM_BUNNIES * 6]` needs), the loop "Create index buffer"
completes; its 32-bit counter, started at `2^32 - 1`, wraps to 0 on the first
pre-increment and ends at `6n - 1`; the buffer has exactly `6n` entries and for
every `i < n` and `k < 6` holds `indices[6i + k] = 4i + [0, 1, 2, 0, 2, 3][k]`;
every index is below `4n`; and entry `k` of quad `i` is the slot `4i + t`,
`t < 4`, of the vertex buffer, which holds vertex `t` of the updated entity
`i`. The two triangles of quad `i` (entries 0..2 and 3..5) are the vertices
`0, 1, 2` and `0, 2, 3`: they share the vertices 0 and 2 and together use all
four. -/
theorem C21_index_buffer (w h : Nat) (dt : ℚ) (n : Nat) (bunnies : List Bunny)
    (indices : List Nat) (data : List BgfxSimple.Vertex)
    (hn : bunnies.length = n) (hlen : indices.length = n * 6) (hmax : n * 6 < 2 ^ 31)
    (hdata : data.length = n * 4) :
    (∀ v, 0 < indices.length →
      writeNextU32 (2 ^ 32 - 1, indices) v = some (0, indices.set 0 v)) ∧
    ∃ idx out vs,
      BgfxSimple.buildIndices n indices = some (idx, out) ∧
      BgfxSimple.frame w h dt bunnies n data
        = some (updateBunnies dt bunnies, (((n * 4 : Nat) : Int) - 1, vs)) ∧
      (0 < n → idx = n * 6 - 1) ∧
      out.length = n * 6 ∧
      (∀ i k : Nat, i < n → k < 6 →
        out[6 * i + k]? = (([0, 1, 2, 0, 2, 3] : List Nat)[k]?).map (fun t => 4 * i + t)) ∧
      (∀ v ∈ out, v < 4 * n) ∧
      (∀ i k : Nat, i < n → k < 6 → ∃ (t : Nat) (b : Bunny), t < 4 ∧
        out[6 * i + k]? = some (4 * i + t) ∧ bunnies[i]? = some b ∧
        vs[4 * i + t]? = (BgfxSimple.quad (w / 2) (h / 2) (updateBunny dt b))[t]?) ∧
      (∀ i : Nat, i < n →
        (out[6 * i + 0]? = some (4 * i + 0) ∧ out[6 * i + 3]? = some (4 * i + 0)) ∧
        (out[6 * i + 2]? = some (4 * i + 2) ∧ out[6 * i + 4]? = some (4 * i + 2)) ∧
        out[6 * i + 1]? = some (4 * i + 1) ∧ out[6 * i + 5]? = some (4 * i + 3)) := by
  subst hn
  constructor
  · intro v hpos
    exact writeNextU32_eq _ _ _ 0 (by norm_num) hpos
  obtain ⟨idx, out, hb, hc, hlt, hl, htab, -⟩ :=
    BgfxSimple.buildIndices_spec bunnies.length indices (by omega) (by omega)
  have hfr := BgfxSimple.simpleFrame_exact w h dt bunnies data hdata
  have hsome : ∀ k : Nat, k < 6 → ∃ t, ([0, 1, 2, 0, 2, 3] : List Nat)[k]? = some t ∧ t < 4 := by
    intro k hk
    interval_cases k <;> simp
  refine ⟨idx, out, _, hb, hfr, fun hpos => by omega, by rw [hl, hlen], htab, ?_, ?_, ?_⟩
  rotate_left 2
  · intro i hi
    exact ⟨⟨by rw [htab i 0 hi (by norm_num)]; rfl, by rw [htab i 3 hi (by norm_num)]; rfl⟩,
      ⟨by rw [htab i 2 hi (by norm_num)]; rfl, by rw [htab i 4 hi (by norm_num)]; rfl⟩,
      by rw [htab i 1 hi (by norm_num)]; rfl, by rw [htab i 5 hi (by norm_num)]; rfl⟩
  · intro v hv
    obtain ⟨j, hj⟩ := List.mem_iff_getElem?.mp hv
    have hjl : j < out.length := (List.getElem?_eq_some.mp hj).1
    have hk : j % 6 < 6 := Nat.mod_lt _ (by norm_num)
    have hi : j / 6 < bunnies.length := by omega
    obtain ⟨t, ht, ht4⟩ := hsome (j % 6) hk
    have := htab (j / 6) (j % 6) hi hk
    rw [Nat.div_add_mod, hj, ht] at this
    simp only [Option.map_some', Option.some.injEq] at this
    omega
  · intro i k hi hk
    obtain ⟨t, ht, ht4⟩ := hsome k hk
    have hbi : bunnies[i]? = some bunnies[i] := List.getElem?_eq_getElem hi
    have hu : (updateBunnies dt bunnies)[i]? = some (updateBunny dt bunnies[i]) := by
      have := updateBunniesIn_getElem? WINDOW_WIDTH WINDOW_HEIGHT SPRITE_EXTENT dt bunnies i
      rw [hbi] at this
      exact this
    refine ⟨t, bunnies[i], ht4, ?_, hbi, ?_⟩
    · rw [htab i k hi hk, ht]
      rfl
    · rw [flatMap_const_getElem? (BgfxSimple.quad (w / 2) (h / 2)) 4 (fun _ => rfl) _ i t ht4,
        hu, Option.some_bind]

/-- Witness of C21: the constant of the source, `NUM_BUNNIES = 70000`, with an
index array of 420000 entries and a vertex buffer of 280000 vertices; the last
entry, `indices[6 * 69999 + 5]`, is `4 * 69999 + 3`. -/
theorem C21_index_buffer_witness :
    ∃ idx out,
      BgfxSimple.buildIndices BgfxSimple.NUM_BUNNIES
          (List.replicate (BgfxSimple.NUM_BUNNIES * 6) 0) = some (idx, out) ∧
      idx = BgfxSimple.NUM_BUNNIES * 6 - 1 ∧
      out.length = BgfxSimple.NUM_BUNNIES * 6 ∧
      out[6 * 69999 + 5]? = some (4 * 69999 + 3) := by
  obtain ⟨-, idx, out, -, hb, -, hidx, hl, htab, -, -, -⟩ :=
    C21_index_buffer 26 37 16 BgfxSimple.NUM_BUNNIES
      (List.replicate BgfxSimple.NUM_BUNNIES ⟨400, 300, 1, 1⟩)
      (List.replicate (BgfxSimple.NUM_BUNNIES * 6) 0)
      (List.replicate (BgfxSimple.NUM_BUNNIES * 4) BgfxSimple.staleVertex)
      (List.length_replicate _ _) (List.length_replicate _ _) (by decide)
      (List.length_replicate _ _)
  refine ⟨idx, out, hb, hidx (by decide), hl, ?_⟩
  have := htab 69999 5 (by decide) (by decide)
  rw [this]
  rfl

/-! ## The frames accounted for by the FPS reports -/

/-- C24: for every sequence of frame timestamps of a run (each later than the one
before, the counter at 0 at the start), after each frame (after every initial
part `pre` of the sequence) the sum of all FPS values reported so far plus the
current value of the frame counter equals the number of frames run so far, and
every reported value is at least 1. -/
theorem C24_frames_accounted (c : FrameClock) (pre post : List Int)
    (hc : c.framesInLastSecond = 0) (htick : Ticking c (pre ++ post)) :
    (clockReports pre c).sum + (runClock pre c).framesInLastSecond = pre.length ∧
    (∀ v ∈ clockReports (pre ++ post) c, 1 ≤ v) := by
  have hw := noWrap_of_ticking _ c (clockInv_of_reset c hc) htick
  refine ⟨?_, clockReports_pos _ c hw⟩
  rw [clockReports_sum pre c (noWrap_initial pre post c hw), hc, Nat.zero_add]

/-- Witness of C24: frames at 400, 800, 1200, 1600 and 2400 ms from a clock
started at 0. -/
theorem C24_frames_accounted_witness :
    (clockReports [400000000, 800000000, 1200000000, 1600000000] ⟨0, 0, 0⟩).sum
        + (runClock [400000000, 800000000, 1200000000, 1600000000]
            ⟨0, 0, 0⟩).framesInLastSecond
      = 4 ∧
    (∀ v ∈ clockReports
        ([400000000, 800000000, 1200000000, 1600000000] ++ [2400000000]) ⟨0, 0, 0⟩,
      1 ≤ v) :=
  C24_frames_accounted ⟨0, 0, 0⟩ [400000000, 800000000, 1200000000, 1600000000]
    [2400000000] rfl (by norm_num [Ticking])

end Bunnymark
